import Mathlib

/-!
# one-mcp: health cache, installation manager and the market / service handlers

A shallow embedding of

* `backend/library/proxy/health_cache.go` (the health cache manager),
* `backend/api/handler/mcp_service.go` (`GetMCPServiceHealth`, `CreateMCPService`,
  `UpdateMCPService`, `validateRequiredEnvVarsJSON`),
* `backend/api/handler/market.go` (`InstallOrAddService`, `GetInstallationStatus`,
  `UninstallService`, `ListInstalledMCPServices`, `CreateCustomService`, the environment
  merge of `GetPackageDetails`, and their helpers).

Go values become Lean values: an `error` is an `Option String` (`none` is `nil`),
a pointer that may be `nil` is an `Option`, a result with an error is an `Except`.
Calls into collaborators whose code is outside the handlers (the store of service
records, the package tools, the service manager) are arguments of the handler, and
every handler returns, next to its response, the ordered list of the calls it made.
A variable of a map type that may hold `nil` is an `Option` of the list of entries, and a
write to it that panics ends the handler with the response `panicked`.
Instants and durations are integers counting nanoseconds.
-/

namespace OneMCP

/-! ## Time -/

/-- A `time.Duration`: a number of nanoseconds. -/
abbrev Duration := Int

/-- An instant, in nanoseconds after the zero instant (`time.Time`). -/
abbrev Time := Int

/-- The constant `time.Hour`. -/
def Hour : Duration := 3600000000000

/-- The method `Time.IsZero`. -/
def Time.IsZero (t : Time) : Bool := t == 0

/-! ## Health snapshots -/

/-- Modelled from the spec: `proxy.ServiceHealth`, whose declaration is not among the
sources. The fields are those of the HealthSnapshot of the data model that the handlers
read (`Status`, `LastChecked`, `ResponseTime`, `SuccessCount`, `FailureCount`,
`ErrorMessage`, `StartTime`, `UpTime`, `WarningLevel`); all of them are serialized. -/
structure ServiceHealth where
  Status : String
  LastChecked : Time
  ResponseTime : Int
  SuccessCount : Int
  FailureCount : Int
  ErrorMessage : String
  StartTime : Time
  UpTime : Int
  WarningLevel : Int
deriving DecidableEq, Repr

/-- The zero value of `ServiceHealth` (`var health ServiceHealth`). -/
def ServiceHealth.zero : ServiceHealth :=
  { Status := "", LastChecked := 0, ResponseTime := 0, SuccessCount := 0, FailureCount := 0,
    ErrorMessage := "", StartTime := 0, UpTime := 0, WarningLevel := 0 }

/-- The constant `proxy.StatusUnknown`. -/
def StatusUnknown : String := "unknown"

/-- The two functions of `encoding/json` that the cache manager calls, at the type
`ServiceHealth`. `Unmarshal data v` fills `v` and returns it with the error: as in Go,
the value may have been filled in part when the error is not `nil`. -/
structure JSONCodec where
  Marshal : ServiceHealth → Except String String
  Unmarshal : String → ServiceHealth → ServiceHealth × Option String

/-! ## The cache client -/

/-- One cache entry: the stored string and the instant at which it expires. -/
structure CacheEntry where
  value : String
  deadline : Time
deriving DecidableEq, Repr

/-- Modelled from the spec: the TTL key-value store behind `thing.CacheClient`
(an entry is retrievable before its TTL elapses and absent afterward; a write
overwrites any prior entry). The store is a map from keys to entries. -/
structure CacheClient where
  entries : String → Option CacheEntry

/-- The empty cache. -/
def CacheClient.empty : CacheClient := { entries := fun _ => none }

/-- The call `cacheClient.Get(ctx, key)` at instant `now`: the stored string, or an error
when the backend is down, the key is absent, or the entry has expired. -/
def CacheClient.Get (cc : CacheClient) (up : Bool) (now : Time) (key : String) :
    Except String String :=
  if up then
    match cc.entries key with
    | some e => if now < e.deadline then .ok e.value else .error "cache: key not found"
    | none => .error "cache: key not found"
  else .error "cache: backend unavailable"

/-- The call `cacheClient.Set(ctx, key, value, ttl)` at instant `now`: the new cache, or
an error (and the cache as it was) when the backend is down. -/
def CacheClient.Set (cc : CacheClient) (up : Bool) (now : Time) (key value : String)
    (ttl : Duration) : CacheClient × Option String :=
  if up then
    ({ entries := fun k => if k = key then some { value := value, deadline := now + ttl }
                           else cc.entries k }, none)
  else (cc, some "cache: backend unavailable")

/-- The call `cacheClient.Delete(ctx, key)`. -/
def CacheClient.Delete (cc : CacheClient) (up : Bool) (key : String) :
    CacheClient × Option String :=
  if up then ({ entries := fun k => if k = key then none else cc.entries k }, none)
  else (cc, some "cache: backend unavailable")

/-! ## The health cache manager (`health_cache.go`) -/

/-- The struct `HealthCacheManager` (the mutex is left out: calls are sequential here). -/
structure HealthCacheManager where
  cacheClient : CacheClient
  expireTime : Duration

/-- The constructor `NewHealthCacheManager`; `cache` is the global `thing.Cache()`. -/
def NewHealthCacheManager (cache : CacheClient) (expireTime : Duration) : HealthCacheManager :=
  let expireTime := if expireTime ≤ 0 then 1 * Hour else expireTime
  { cacheClient := cache, expireTime := expireTime }

/-- The method `generateCacheKey`: `fmt.Sprintf("health:service:%d", serviceID)`. -/
def generateCacheKey (serviceID : Int) : String :=
  "health:service:" ++ toString serviceID

/-- The method `SetServiceHealth`, called at instant `now`; `up` tells whether the cache
backend answers. A `nil` snapshot, a marshalling error and a write error all leave the
manager as it was. -/
def HealthCacheManager.SetServiceHealth (hcm : HealthCacheManager) (codec : JSONCodec)
    (up : Bool) (now : Time) (serviceID : Int) (health : Option ServiceHealth) :
    HealthCacheManager :=
  match health with
  | none => hcm
  | some health =>
    let cacheKey := generateCacheKey serviceID
    let healthCopy := health
    match codec.Marshal healthCopy with
    | .error _ => hcm
    | .ok healthJSON =>
      match hcm.cacheClient.Set up now cacheKey healthJSON hcm.expireTime with
      | (_, some _) => hcm
      | (cc, none) => { hcm with cacheClient := cc }

/-- The method `DeleteServiceHealth`; an error of the backend is only logged. -/
def HealthCacheManager.DeleteServiceHealth (hcm : HealthCacheManager) (up : Bool)
    (serviceID : Int) : HealthCacheManager :=
  let cacheKey := generateCacheKey serviceID
  match hcm.cacheClient.Delete up cacheKey with
  | (_, some _) => hcm
  | (cc, none) => { hcm with cacheClient := cc }

/-- What `GetServiceHealth` returns: the snapshot pointer (`none` is `nil`), and the service
ids for which it started `go hcm.DeleteServiceHealth(id)`. The boolean `found` of the Go
pair is `GetHealthResult.found`: the method returns `true` exactly with a snapshot. -/
structure GetHealthResult where
  health : Option ServiceHealth
  spawned : List Int
deriving DecidableEq, Repr

/-- The second component `found` of the pair that `GetServiceHealth` returns. -/
def GetHealthResult.found (r : GetHealthResult) : Bool := r.health.isSome

/-- The method `GetServiceHealth`, called at instant `now`: `(nil, false)` on a read error,
`(nil, false)` and a deletion in the background when the text does not deserialize,
`(&health, true)` otherwise. -/
def HealthCacheManager.GetServiceHealth (hcm : HealthCacheManager) (codec : JSONCodec)
    (up : Bool) (now : Time) (serviceID : Int) : GetHealthResult :=
  let cacheKey := generateCacheKey serviceID
  match hcm.cacheClient.Get up now cacheKey with
  | .error _ => { health := none, spawned := [] }
  | .ok healthJSON =>
    match codec.Unmarshal healthJSON ServiceHealth.zero with
    | (_, some _) => { health := none, spawned := [serviceID] }
    | (health, none) => { health := some health, spawned := [] }

/-- Runs the goroutines that a call of `GetServiceHealth` started. -/
def HealthCacheManager.runSpawned (hcm : HealthCacheManager) (up : Bool) (ids : List Int) :
    HealthCacheManager :=
  ids.foldl (fun m id => m.DeleteServiceHealth up id) hcm

/-- One call on the health cache manager, with the state of the backend during it; for a
read, `upDelete` is the state of the backend when the goroutines it started run. -/
inductive CacheOp
  | set (up : Bool) (now : Time) (serviceID : Int) (health : Option ServiceHealth)
  | delete (up : Bool) (serviceID : Int)
  | get (up : Bool) (now : Time) (serviceID : Int) (upDelete : Bool)

/-- The manager after one call. -/
def HealthCacheManager.step (hcm : HealthCacheManager) (codec : JSONCodec) :
    CacheOp → HealthCacheManager
  | .set up now serviceID health => hcm.SetServiceHealth codec up now serviceID health
  | .delete up serviceID => hcm.DeleteServiceHealth up serviceID
  | .get up now serviceID upDelete =>
    hcm.runSpawned upDelete (hcm.GetServiceHealth codec up now serviceID).spawned

/-- The manager after a sequence of calls. -/
def HealthCacheManager.run (hcm : HealthCacheManager) (codec : JSONCodec)
    (ops : List CacheOp) : HealthCacheManager :=
  ops.foldl (fun m op => m.step codec op) hcm

/-- Whether a call is a `SetServiceHealth` for the service. -/
def CacheOp.isSetFor (serviceID : Int) : CacheOp → Bool
  | .set _ _ id _ => id == serviceID
  | _ => false

/-- Whether a call is a `DeleteServiceHealth` for the service. -/
def CacheOp.isDeleteFor (serviceID : Int) : CacheOp → Bool
  | .delete _ id => id == serviceID
  | _ => false

/-- A small codec for examples: the text is the status, and the empty text does not
decode (`unexpected end of JSON input`). -/
def statusCodec : JSONCodec :=
  { Marshal := fun h => .ok h.Status
    Unmarshal := fun s v =>
      if s = "" then (v, some "unexpected end of JSON input") else ({ v with Status := s }, none) }

/-- A sample snapshot with the given status. -/
def sampleHealth (status : String) : ServiceHealth :=
  { ServiceHealth.zero with Status := status }

/-! ## Records of the persistence collaborator -/

/-- The constant `model.ServiceTypeStdio` (the transport kinds are those of the data model). -/
def ServiceTypeStdio : String := "stdio"

/-- The constant `model.ServiceTypeSSE`. -/
def ServiceTypeSSE : String := "sse"

/-- The constant `model.ServiceTypeStreamableHTTP`. -/
def ServiceTypeStreamableHTTP : String := "streamableHttp"

/-- The constant `model.CategoryAI`; its text is not in the sources and nothing depends on it. -/
def CategoryAI : String := "ai"

/-- Modelled from the spec: the service record `model.MCPService` of the persistence
collaborator, whose declaration is not among the sources; the fields are those the
handlers read or write. `Type_` is the Go field `Type` (a string type, as `Category`). -/
structure MCPService where
  ID : Int
  Name : String
  DisplayName : String
  Description : String
  Category : String
  Icon : String
  Type_ : String
  PackageManager : String
  SourcePackageName : String
  ClientConfigTemplates : String
  Enabled : Bool
  Deleted : Bool
  HealthStatus : String
  InstalledVersion : String
  InstallerUserID : Int
  Command : String
  ArgsJSON : String
  DefaultEnvsJSON : String
  HeadersJSON : String
  RequiredEnvVarsJSON : String
  RPDLimit : Int
deriving DecidableEq, Repr

/-- The zero value of `model.MCPService`. -/
def MCPService.zero : MCPService :=
  { ID := 0, Name := "", DisplayName := "", Description := "", Category := "", Icon := "",
    Type_ := "", PackageManager := "", SourcePackageName := "", ClientConfigTemplates := "",
    Enabled := false, Deleted := false, HealthStatus := "", InstalledVersion := "",
    InstallerUserID := 0, Command := "", ArgsJSON := "", DefaultEnvsJSON := "",
    HeadersJSON := "", RequiredEnvVarsJSON := "", RPDLimit := 0 }

/-- The record `model.ConfigService` (one configuration option of a service); `Type_` is
the Go field `Type`. -/
structure ConfigService where
  ID : Int
  ServiceID : Int
  Key : String
  DisplayName : String
  Description : String
  Type_ : String
  Required : Bool
deriving DecidableEq, Repr

/-- The record `model.UserConfig` (one value a user gave to a configuration option). -/
structure UserConfig where
  UserID : Int
  ServiceID : Int
  ConfigID : Int
  Value : String
deriving DecidableEq, Repr

/-- A Go `map[string]string`, as the list of its entries; `StrMap.set` keeps keys unique. -/
abbrev StrMap := List (String × String)

/-- The assignment `m[k] = v` on a map kept as a list of entries. -/
def mapSet {κ ν : Type} [DecidableEq κ] : List (κ × ν) → κ → ν → List (κ × ν)
  | [], k, v => [(k, v)]
  | (k', v') :: m, k, v => if k' = k then (k, v) :: m else (k', v') :: mapSet m k v

/-- The lookup `v, ok := m[k]` on a map kept as a list of entries. -/
def mapGet {κ ν : Type} [DecidableEq κ] : List (κ × ν) → κ → Option ν
  | [], _ => none
  | (k', v') :: m, k => if k' = k then some v' else mapGet m k

/-- The text of the run-time panic of Go for a write to a `nil` map. -/
def nilMapPanic : String := "assignment to entry in nil map"

/-- The statement `m[key] = value` on a variable of type `map[string]string`, which holds
`nil` (`none`) or a map: the write to a `nil` map panics. -/
def assignEntry (m : Option StrMap) (key value : String) : Except String (Option StrMap) :=
  match m with
  | none => .error nilMapPanic
  | some entries => .ok (some (mapSet entries key value))

/-! ## The installation manager -/

/-- Modelled from the spec: `market.InstallationStatus`, with the vocabulary
pending, installing, completed, failed of the data model. -/
inductive InstallationStatus
  | StatusPending
  | StatusInstalling
  | StatusCompleted
  | StatusFailed
deriving DecidableEq, Repr

open InstallationStatus

/-- The text of an installation status (`string(status)`). -/
def InstallationStatus.text : InstallationStatus → String
  | StatusPending => "pending"
  | StatusInstalling => "installing"
  | StatusCompleted => "completed"
  | StatusFailed => "failed"

/-- A status is terminal when the task is completed or failed. -/
def InstallationStatus.isTerminal : InstallationStatus → Bool
  | StatusCompleted => true
  | StatusFailed => true
  | _ => false

/-- The fields of `market.InstallationTask` that `InstallOrAddService` fills before it
calls `SubmitTask`. -/
structure InstallationRequest where
  ServiceID : Int
  UserID : Int
  PackageName : String
  PackageManager : String
  Version : String
  EnvVars : StrMap
deriving DecidableEq, Repr

/-- Modelled from the spec: `market.InstallationTask` of the data model (service_id, package
name, package manager, version, requested env vars, status, start_time, end_time, error). -/
structure InstallationTask where
  ServiceID : Int
  UserID : Int
  PackageName : String
  PackageManager : String
  Version : String
  EnvVars : StrMap
  Status : InstallationStatus
  StartTime : Time
  EndTime : Time
  Error : String
deriving DecidableEq, Repr

/-- Modelled from the spec: the Installation Manager (`market.InstallationManager`, not among
the sources): the tasks it holds in memory. -/
structure InstallationManager where
  tasks : List InstallationTask
deriving DecidableEq, Repr

/-- The manager of a process that has just started. -/
def InstallationManager.empty : InstallationManager := { tasks := [] }

/-- Modelled from the spec: `GetTaskStatus(serviceID) -> (task, found)`. -/
def InstallationManager.GetTaskStatus (im : InstallationManager) (serviceID : Int) :
    Option InstallationTask :=
  im.tasks.find? (fun t => t.ServiceID == serviceID)

/-- Modelled from the spec: `SubmitTask(task)`: a submission while a non-terminal task exists
for the same service id is rejected and changes nothing; otherwise the task is stored as
pending, in the place of a terminal task of that service id if there was one. -/
def InstallationManager.SubmitTask (im : InstallationManager) (now : Time)
    (req : InstallationRequest) : InstallationManager × Option String :=
  let task : InstallationTask :=
    { ServiceID := req.ServiceID, UserID := req.UserID, PackageName := req.PackageName,
      PackageManager := req.PackageManager, Version := req.Version, EnvVars := req.EnvVars,
      Status := StatusPending, StartTime := now, EndTime := 0, Error := "" }
  match im.GetTaskStatus req.ServiceID with
  | some t =>
    if t.Status.isTerminal then
      ({ tasks := task :: im.tasks.filter (fun u => u.ServiceID != req.ServiceID) }, none)
    else (im, some "installation task already in progress")
  | none => ({ tasks := task :: im.tasks }, none)

/-- Modelled from the spec: the worker step `pending -> installing` on the task of a service. -/
def InstallationManager.startTask (im : InstallationManager) (serviceID : Int) :
    InstallationManager :=
  { tasks := im.tasks.map (fun t =>
      if t.ServiceID == serviceID && t.Status == StatusPending
      then { t with Status := StatusInstalling } else t) }

/-- Modelled from the spec: the end of an installation: the installing task of a service
becomes completed (no error) or failed (with the error), and its end time is set. -/
def InstallationManager.finishTask (im : InstallationManager) (now : Time) (serviceID : Int)
    (err : Option String) : InstallationManager :=
  { tasks := im.tasks.map (fun t =>
      if t.ServiceID == serviceID && t.Status == StatusInstalling then
        match err with
        | none => { t with Status := StatusCompleted, EndTime := now }
        | some e => { t with Status := StatusFailed, EndTime := now, Error := e }
      else t) }

/-- The managers a running process can hold: built from the empty one by submissions
and worker steps. -/
inductive InstallationManager.Reachable : InstallationManager → Prop
  | empty : Reachable InstallationManager.empty
  | submit (im : InstallationManager) (now : Time) (req : InstallationRequest) :
      Reachable im → Reachable (im.SubmitTask now req).1
  | start (im : InstallationManager) (serviceID : Int) :
      Reachable im → Reachable (im.startTask serviceID)
  | finish (im : InstallationManager) (now : Time) (serviceID : Int) (err : Option String) :
      Reachable im → Reachable (im.finishTask now serviceID err)

/-- The number of tasks the manager holds for a service id. -/
def InstallationManager.taskCount (im : InstallationManager) (serviceID : Int) : Nat :=
  im.tasks.countP (fun t => t.ServiceID == serviceID)

/-! ## Helpers of the standard library -/

/-- The function `strconv.ParseInt(s, 10, 64)`: an optional sign, then decimal digits, and
the value has to fit in 64 bits. -/
def ParseInt (s : String) : Except String Int :=
  let cs := s.toList
  let neg := cs.head? == some '-'
  let ds := if cs.head? == some '-' || cs.head? == some '+' then cs.tail else cs
  if ds.isEmpty || !ds.all Char.isDigit then .error "strconv.ParseInt: invalid input"
  else
    let n : Nat := ds.foldl (fun a c => 10 * a + (c.toNat - 48)) 0
    let v : Int := if neg then -(n : Int) else (n : Int)
    if v < -9223372036854775808 || 9223372036854775807 < v
    then .error "strconv.ParseInt: value out of range" else .ok v

/-- The function `strings.Contains`. -/
def containsStr (s sub : String) : Bool :=
  s.toList.tails.any (fun t => sub.toList.isPrefixOf t)

/-- The lower-case mappings of the letters above U+007F, the part of the table
`unicode.CaseRanges` of the Go library (not among the sources) that `unicode.ToLower` reads,
taken from the simple mappings of the Unicode character database, version 14.0.0. An entry
`(lo, hi, stride, delta)` maps every `lo + k * stride` up to `hi` to itself plus `delta`. -/
def lowerCaseRanges : List (Nat × Nat × Nat × Int) :=
  [(192, 214, 1, 32), (216, 222, 1, 32), (256, 302, 2, 1), (304, 304, 1, -199),
   (306, 310, 2, 1), (313, 327, 2, 1), (330, 374, 2, 1), (376, 376, 1, -121), (377, 381, 2, 1),
   (385, 385, 1, 210), (386, 388, 2, 1), (390, 390, 1, 206), (391, 391, 1, 1),
   (393, 394, 1, 205), (395, 395, 1, 1), (398, 398, 1, 79), (399, 399, 1, 202),
   (400, 400, 1, 203), (401, 401, 1, 1), (403, 403, 1, 205), (404, 404, 1, 207),
   (406, 406, 1, 211), (407, 407, 1, 209), (408, 408, 1, 1), (412, 412, 1, 211),
   (413, 413, 1, 213), (415, 415, 1, 214), (416, 420, 2, 1), (422, 422, 1, 218),
   (423, 423, 1, 1), (425, 425, 1, 218), (428, 428, 1, 1), (430, 430, 1, 218),
   (431, 431, 1, 1), (433, 434, 1, 217), (435, 437, 2, 1), (439, 439, 1, 219),
   (440, 440, 1, 1), (444, 444, 1, 1), (452, 452, 1, 2), (453, 453, 1, 1), (455, 455, 1, 2),
   (456, 456, 1, 1), (458, 458, 1, 2), (459, 475, 2, 1), (478, 494, 2, 1), (497, 497, 1, 2),
   (498, 500, 2, 1), (502, 502, 1, -97), (503, 503, 1, -56), (504, 542, 2, 1),
   (544, 544, 1, -130), (546, 562, 2, 1), (570, 570, 1, 10795), (571, 571, 1, 1),
   (573, 573, 1, -163), (574, 574, 1, 10792), (577, 577, 1, 1), (579, 579, 1, -195),
   (580, 580, 1, 69), (581, 581, 1, 71), (582, 590, 2, 1), (880, 882, 2, 1), (886, 886, 1, 1),
   (895, 895, 1, 116), (902, 902, 1, 38), (904, 906, 1, 37), (908, 908, 1, 64),
   (910, 911, 1, 63), (913, 929, 1, 32), (931, 939, 1, 32), (975, 975, 1, 8),
   (984, 1006, 2, 1), (1012, 1012, 1, -60), (1015, 1015, 1, 1), (1017, 1017, 1, -7),
   (1018, 1018, 1, 1), (1021, 1023, 1, -130), (1024, 1039, 1, 80), (1040, 1071, 1, 32),
   (1120, 1152, 2, 1), (1162, 1214, 2, 1), (1216, 1216, 1, 15), (1217, 1229, 2, 1),
   (1232, 1326, 2, 1), (1329, 1366, 1, 48), (4256, 4293, 1, 7264), (4295, 4295, 1, 7264),
   (4301, 4301, 1, 7264), (5024, 5103, 1, 38864), (5104, 5109, 1, 8), (7312, 7354, 1, -3008),
   (7357, 7359, 1, -3008), (7680, 7828, 2, 1), (7838, 7838, 1, -7615), (7840, 7934, 2, 1),
   (7944, 7951, 1, -8), (7960, 7965, 1, -8), (7976, 7983, 1, -8), (7992, 7999, 1, -8),
   (8008, 8013, 1, -8), (8025, 8031, 2, -8), (8040, 8047, 1, -8), (8072, 8079, 1, -8),
   (8088, 8095, 1, -8), (8104, 8111, 1, -8), (8120, 8121, 1, -8), (8122, 8123, 1, -74),
   (8124, 8124, 1, -9), (8136, 8139, 1, -86), (8140, 8140, 1, -9), (8152, 8153, 1, -8),
   (8154, 8155, 1, -100), (8168, 8169, 1, -8), (8170, 8171, 1, -112), (8172, 8172, 1, -7),
   (8184, 8185, 1, -128), (8186, 8187, 1, -126), (8188, 8188, 1, -9), (8486, 8486, 1, -7517),
   (8490, 8490, 1, -8383), (8491, 8491, 1, -8262), (8498, 8498, 1, 28), (8544, 8559, 1, 16),
   (8579, 8579, 1, 1), (9398, 9423, 1, 26), (11264, 11311, 1, 48), (11360, 11360, 1, 1),
   (11362, 11362, 1, -10743), (11363, 11363, 1, -3814), (11364, 11364, 1, -10727),
   (11367, 11371, 2, 1), (11373, 11373, 1, -10780), (11374, 11374, 1, -10749),
   (11375, 11375, 1, -10783), (11376, 11376, 1, -10782), (11378, 11378, 1, 1),
   (11381, 11381, 1, 1), (11390, 11391, 1, -10815), (11392, 11490, 2, 1), (11499, 11501, 2, 1),
   (11506, 11506, 1, 1), (42560, 42604, 2, 1), (42624, 42650, 2, 1), (42786, 42798, 2, 1),
   (42802, 42862, 2, 1), (42873, 42875, 2, 1), (42877, 42877, 1, -35332), (42878, 42886, 2, 1),
   (42891, 42891, 1, 1), (42893, 42893, 1, -42280), (42896, 42898, 2, 1), (42902, 42920, 2, 1),
   (42922, 42922, 1, -42308), (42923, 42923, 1, -42319), (42924, 42924, 1, -42315),
   (42925, 42925, 1, -42305), (42926, 42926, 1, -42308), (42928, 42928, 1, -42258),
   (42929, 42929, 1, -42282), (42930, 42930, 1, -42261), (42931, 42931, 1, 928),
   (42932, 42946, 2, 1), (42948, 42948, 1, -48), (42949, 42949, 1, -42307),
   (42950, 42950, 1, -35384), (42951, 42953, 2, 1), (42960, 42960, 1, 1), (42966, 42968, 2, 1),
   (42997, 42997, 1, 1), (65313, 65338, 1, 32), (66560, 66599, 1, 40), (66736, 66771, 1, 40),
   (66928, 66938, 1, 39), (66940, 66954, 1, 39), (66956, 66962, 1, 39), (66964, 66965, 1, 39),
   (68736, 68786, 1, 64), (71840, 71871, 1, 32), (93760, 93791, 1, 32), (125184, 125217, 1, 34)]

/-- The function `unicode.ToLower`: the letters A to Z by the branch for ASCII, every other
rune through the case table. -/
def unicodeToLower (r : Char) : Char :=
  if r.toNat ≤ 127 then
    if 65 ≤ r.toNat ∧ r.toNat ≤ 90 then Char.ofNat (r.toNat + 32) else r
  else
    match lowerCaseRanges.find? (fun e =>
      decide (e.1 ≤ r.toNat) && decide (r.toNat ≤ e.2.1)
        && (r.toNat - e.1) % e.2.2.1 == 0) with
    | some e => Char.ofNat ((r.toNat : Int) + e.2.2.2).toNat
    | none => r

/-- The function `strings.ToLower`: `unicode.ToLower` on every rune of the text. -/
def toLower (s : String) : String :=
  String.mk (s.toList.map unicodeToLower)

/-- Arithmetic on `int64` wraps around. -/
def wrapInt64 (x : Int) : Int :=
  (x + 9223372036854775808) % 18446744073709551616 - 9223372036854775808

/-- The helper `contains` of `market.go`. -/
def contains (slice : List String) (s : String) : Bool :=
  slice.any (fun item => item == s)

/-! ## Responses and recorded calls -/

/-- A response of a handler: `RespError` / `RespErrorStr` with the HTTP status and the
message key, or a success with its message and data. A handler that ends in a run-time
panic of Go writes neither: `panicked` carries the text of the panic (the engine of `main.go`
is `gin.Default()`, whose recovery answers such a request with a bare status 500). -/
inductive Response (α : Type)
  | error (status : Nat) (message : String)
  | success (message : String) (data : Option α)
  | panicked (message : String)
deriving DecidableEq, Repr

/-- The calls a handler makes that change something outside it, in the order made. -/
inductive Call
  | GoDeleteServiceHealth (serviceID : Int)
  | UnregisterService (serviceID : Int)
  | UninstallNPMPackage (packageName : String)
  | UninstallPyPIPackage (packageName : String)
  | UpdateService (service : MCPService)
  | CreateService (service : MCPService)
  | CreateConfigOption (configOption : ConfigService)
  | SaveUserConfig (userConfig : UserConfig)
  | SubmitTask (task : InstallationRequest)
  | RegisterService (service : MCPService)
  | ForceCheckServiceHealth (serviceID : Int)
  | UpdateMCPServiceHealth (serviceID : Int)
deriving DecidableEq, Repr

/-- A call that stores instance configuration of user `userID` for service `serviceID`. -/
def Call.isInstanceConfigFor (userID serviceID : Int) : Call → Prop
  | .CreateConfigOption configOption => configOption.ServiceID = serviceID
  | .SaveUserConfig userConfig => userConfig.ServiceID = serviceID ∧ userConfig.UserID = userID
  | _ => False

/-- What a run of a handler produces: the response and the calls it made. -/
structure Outcome (α : Type) where
  response : Response α
  calls : List Call
deriving DecidableEq, Repr

/-! ## `GetMCPServiceHealth` (`mcp_service.go`) -/

/-- The map `healthData` of `GetMCPServiceHealth`. -/
structure HealthData where
  service_id : Int
  service_name : String
  health_status : String
  last_checked : Option Time
  health_details : Option ServiceHealth
deriving DecidableEq, Repr

/-- The handler `GetMCPServiceHealth`. `idStr` is the path parameter, `GetServiceByID` the
store of records, `ManagerGetServiceHealth` the method `GetServiceHealth` of the service
manager (a snapshot pointer and an error). The branch `if found` is the branch in which
the cache returned a snapshot. -/
def GetMCPServiceHealth (idStr : String) (GetServiceByID : Int → Except String MCPService)
    (cacheManager : HealthCacheManager) (codec : JSONCodec) (up : Bool) (now : Time)
    (ManagerGetServiceHealth : Int → Option ServiceHealth × Option String) :
    Outcome HealthData :=
  match ParseInt idStr with
  | .error _ => ⟨.error 400 "invalid_service_id", []⟩
  | .ok id =>
    match GetServiceByID id with
    | .error _ => ⟨.error 404 "service_not_found", []⟩
    | .ok service =>
      let r := cacheManager.GetServiceHealth codec up now id
      let calls := r.spawned.map Call.GoDeleteServiceHealth
      match r.health with
      | some cachedHealth =>
        ⟨.success "" (some { service_id := service.ID, service_name := service.Name,
                             health_status := cachedHealth.Status,
                             last_checked := some cachedHealth.LastChecked,
                             health_details := some cachedHealth }), calls⟩
      | none =>
        match ManagerGetServiceHealth id with
        | (some memoryHealth, none) =>
          ⟨.success "" (some { service_id := service.ID, service_name := service.Name,
                               health_status := memoryHealth.Status,
                               last_checked := some memoryHealth.LastChecked,
                               health_details := some memoryHealth }), calls⟩
        | _ =>
          ⟨.success "" (some { service_id := service.ID, service_name := service.Name,
                               health_status := "unknown",
                               last_checked := none,
                               health_details := none }), calls⟩

/-! ## `GetInstallationStatus` (`market.go`) -/

/-- The map `response` of `GetInstallationStatus`; a key that is not set is `none`.
The duration is kept in nanoseconds. -/
structure InstallationStatusData where
  service_id : Int
  service_name : Option String
  package_name : Option String
  status : String
  start_time : Option Time
  end_time : Option Time
  duration : Option Duration
  error : Option String
deriving DecidableEq, Repr

/-- The handler `GetInstallationStatus`. `paramID` is the path parameter `id` and
`queryServiceID` the query parameter `service_id`. -/
def GetInstallationStatus (paramID queryServiceID : String) (im : InstallationManager)
    (GetServiceByID : Int → Except String MCPService) : Outcome InstallationStatusData :=
  let serviceIDStr := if paramID = "" then queryServiceID else paramID
  if serviceIDStr = "" then ⟨.error 404 "service_id required", []⟩
  else
    match ParseInt serviceIDStr with
    | .error _ => ⟨.error 400 "invalid_service_id", []⟩
    | .ok serviceID =>
      match im.GetTaskStatus serviceID with
      | none =>
        match GetServiceByID serviceID with
        | .error _ => ⟨.error 404 "service_not_found", []⟩
        | .ok service =>
          let status :=
            if service.InstalledVersion = "installing" then "installing"
            else if service.InstalledVersion ≠ "" then "completed"
            else "unknown"
          ⟨.success "" (some { service_id := service.ID, service_name := some service.Name,
                               package_name := none, status := status, start_time := none,
                               end_time := none, duration := none, error := none }), []⟩
      | some task =>
        let finished := task.Status == StatusCompleted || task.Status == StatusFailed
        ⟨.success "" (some {
            service_id := task.ServiceID, service_name := none,
            package_name := some task.PackageName, status := task.Status.text,
            start_time := some task.StartTime,
            end_time := if finished then some task.EndTime else none,
            duration := if finished then some (task.EndTime - task.StartTime) else none,
            error := if task.Status == StatusFailed then some task.Error else none }), []⟩

/-! ## `UninstallService` (`market.go`) -/

/-- The local `isPendingOrInstalling` of `UninstallService`. -/
def isPendingOrInstalling (im : InstallationManager) (service : MCPService) : Bool :=
  if service.InstalledVersion = "" ∨ service.InstalledVersion = "installing" then
    match im.GetTaskStatus service.ID with
    | some task => task.Status == StatusPending || task.Status == StatusInstalling
    | none => service.InstalledVersion == ""
  else false

/-- The block of `UninstallService` that unregisters the service from the service manager:
the calls it makes. The error that `UnregisterService` returns is only logged. -/
def unregisterCalls (im : InstallationManager) (service : MCPService)
    (UnregisterService : Int → Option String) : List Call :=
  if !isPendingOrInstalling im service && service.Type_ == ServiceTypeStdio
      && service.SourcePackageName != "" then
    let _ := UnregisterService service.ID
    [Call.UnregisterService service.ID]
  else []

/-- The block of `UninstallService` that uninstalls the package: the calls it makes. The
errors of the package tools are only logged. -/
def physicalUninstallCalls (im : InstallationManager) (service : MCPService)
    (UninstallNPMPackage UninstallPyPIPackage : String → Option String) : List Call :=
  if isPendingOrInstalling im service then []
  else if service.Type_ == ServiceTypeStdio && service.PackageManager != ""
      && service.SourcePackageName != "" then
    if service.PackageManager = "npm" then
      let _ := UninstallNPMPackage service.SourcePackageName
      [Call.UninstallNPMPackage service.SourcePackageName]
    else if service.PackageManager = "uv" ∨ service.PackageManager = "pypi"
        ∨ service.PackageManager = "pip" then
      let _ := UninstallPyPIPackage service.SourcePackageName
      [Call.UninstallPyPIPackage service.SourcePackageName]
    else []
  else []

/-- The four assignments of `UninstallService` that mark the record as deleted. -/
def markDeleted (service : MCPService) : MCPService :=
  { service with Enabled := false, Deleted := true, HealthStatus := "unknown",
                 InstalledVersion := "" }

/-- The handler `UninstallService`. `body` is the bound request body (its `service_id`),
the other arguments are the collaborators. -/
def UninstallService (body : Except String Int) (im : InstallationManager)
    (GetServiceByID : Int → Except String MCPService)
    (UnregisterService : Int → Option String)
    (UninstallNPMPackage UninstallPyPIPackage : String → Option String)
    (UpdateService : MCPService → Option String) : Outcome Unit :=
  match body with
  | .error _ => ⟨.error 400 "invalid_request_data: service_id_required", []⟩
  | .ok serviceID =>
    if serviceID = 0 then ⟨.error 400 "invalid_service_id", []⟩
    else
      match GetServiceByID serviceID with
      | .error _ => ⟨.error 404 "service_not_found", []⟩
      | .ok service =>
        let unregister := unregisterCalls im service UnregisterService
        let uninstall :=
          physicalUninstallCalls im service UninstallNPMPackage UninstallPyPIPackage
        let service := markDeleted service
        let calls := unregister ++ uninstall ++ [Call.UpdateService service]
        match UpdateService service with
        | some _ => ⟨.error 500 "update_service_status_failed", calls⟩
        | none => ⟨.success "service_uninstalled_successfully" none, calls⟩

/-! ## `InstallOrAddService` and its helpers (`market.go`) -/

/-- A value of a JSON object bound to `interface{}`; only strings are told apart. -/
inductive JSONValue
  | str (s : String)
  | num (n : Int)
  | bool (b : Bool)
  | null
deriving DecidableEq, Repr

/-- The struct `requestBody` of `InstallOrAddService`. A `nil` map is `none`. -/
structure InstallRequestBody where
  SourceType : String
  MCServiceID : Int
  PackageName : String
  PackageManager : String
  Version : String
  UserProvidedEnvVars : Option (List (String × JSONValue))
  DisplayName : String
  ServiceDescription : String
  ServiceIconURL : String
  Category : String
  Headers : StrMap
deriving DecidableEq, Repr

/-- The fields of `market.NPMPackageDetails` that `InstallOrAddService` reads. -/
structure NPMPackageDetails where
  RequiresEnv : List String
deriving DecidableEq, Repr

/-- The collaborators of the market handlers: the store of records (`model`), the package
tools and the package metadata (`market`), and `encoding/json`. -/
structure MarketEnv where
  GetServiceByID : Int → Except String MCPService
  GetServicesByPackageDetails : String → String → Except String (List MCPService)
  GetConfigOptionByKey : Int → String → Except String ConfigService
  /-- Returns the id given to the new option. -/
  CreateConfigOption : ConfigService → Except String Int
  SaveUserConfig : UserConfig → Option String
  /-- Returns the id given to the new record. -/
  CreateService : MCPService → Except String Int
  ErrRecordNotFound : String
  CheckNPXAvailable : Bool
  CheckUVXAvailable : Bool
  GetNPMPackageDetails : String → Except String NPMPackageDetails
  /-- For a package: `none` when `ExtractMCPConfig` finds no configuration, otherwise the
  result of `GetEnvVarsFromMCPConfig` on it. -/
  ConfigEnvVars : String → Option (List String)
  /-- For a package: `GuessMCPEnvVarsFromReadme` on its readme. -/
  GuessedEnvVars : String → List String
  MarshalStrings : List String → Except String String
  MarshalStrMap : StrMap → Except String String

/-- The constant `model.ConfigTypeString`; its text is not in the sources. -/
def ConfigTypeString : String := "string"

/-- The constant `model.ConfigTypeSecret`; its text is not in the sources. -/
def ConfigTypeSecret : String := "secret"

/-- The helper `convertEnvVarsMap`: keeps the entries whose value is a string. -/
def convertEnvVarsMap (input : Option (List (String × JSONValue))) : StrMap :=
  match input with
  | none => []
  | some input =>
    input.foldl (fun output kv =>
      match kv.2 with
      | .str strValue => mapSet output kv.1 strValue
      | _ => output) []

/-- The test on a variable name used to mark a configuration option as a secret. -/
def looksSecret (key : String) : Bool :=
  containsStr (toLower key) "token" || containsStr (toLower key) "key"
    || containsStr (toLower key) "secret"

/-- The literal `newConfigOption` of `addServiceInstanceForUser`: the option created for a
variable that has none yet. -/
def newConfigOptionFor (serviceID : Int) (displayName key : String) : ConfigService :=
  { ID := 0, ServiceID := serviceID, Key := key, DisplayName := key,
    Description := "Environment variable " ++ key ++ " for " ++ displayName,
    Type_ := if looksSecret key then ConfigTypeSecret else ConfigTypeString,
    Required := true }

/-- The first half of the loop body of `addServiceInstanceForUser`: the configuration option
of the variable `key` is fetched, and created when the store says it was not found. -/
def findOrCreateConfigOption (env : MarketEnv) (serviceID : Int) (displayName key : String) :
    Except String ConfigService × List Call :=
  match env.GetConfigOptionByKey serviceID key with
  | .ok configOption => (.ok configOption, [])
  | .error err =>
    if err = env.ErrRecordNotFound ∨ err = "config_service_not_found"
        ∨ containsStr err "not found" then
      let newConfigOption := newConfigOptionFor serviceID displayName key
      match env.CreateConfigOption newConfigOption with
      | .error _ => (.error ("failed_to_create_config_option_for_env: " ++ key),
                     [Call.CreateConfigOption newConfigOption])
      | .ok id => (.ok { newConfigOption with ID := id },
                   [Call.CreateConfigOption newConfigOption])
    else (.error ("failed_to_get_config_option_for_env: " ++ key), [])

/-- The loop of `addServiceInstanceForUser` over the converted variables: for each one the
configuration option is fetched or created, then the user's value is saved; the first
error ends the loop. -/
def saveUserConfigs (env : MarketEnv) (userID serviceID : Int) (displayName : String) :
    StrMap → Option String × List Call
  | [] => (none, [])
  | (key, value) :: rest =>
    match findOrCreateConfigOption env serviceID displayName key with
    | (.error e, calls) => (some e, calls)
    | (.ok configOption, calls) =>
      let userConfig : UserConfig :=
        { UserID := userID, ServiceID := serviceID, ConfigID := configOption.ID, Value := value }
      match env.SaveUserConfig userConfig with
      | some _ => (some ("failed_to_save_user_config_for_env: " ++ key),
                   calls ++ [Call.SaveUserConfig userConfig])
      | none =>
        let r := saveUserConfigs env userID serviceID displayName rest
        (r.1, calls ++ [Call.SaveUserConfig userConfig] ++ r.2)

/-- The helper `addServiceInstanceForUser`: the error it returns and the calls it made. -/
def addServiceInstanceForUser (env : MarketEnv) (userID serviceID : Int)
    (userProvidedEnvVars : Option (List (String × JSONValue))) : Option String × List Call :=
  if userID = 0 then (none, [])
  else
    match env.GetServiceByID serviceID with
    | .error _ => (some "service_not_found", [])
    | .ok mcpService =>
      let convertedEnvVars := convertEnvVarsMap userProvidedEnvVars
      saveUserConfigs env userID serviceID mcpService.DisplayName convertedEnvVars

/-- The variables `requiredEnvVars` that `InstallOrAddService` discovers for a package. -/
def discoverRequiredEnvVars (env : MarketEnv) (packageManager packageName : String) :
    List String :=
  if packageManager = "npm" then
    match env.GetNPMPackageDetails packageName with
    | .error _ => []
    | .ok details =>
      let requiredEnvVars : List String :=
        match env.ConfigEnvVars packageName with
        | some vars => vars
        | none => []
      let requiredEnvVars :=
        if requiredEnvVars.length = 0 then env.GuessedEnvVars packageName else requiredEnvVars
      details.RequiresEnv.foldl
        (fun acc e => if !contains acc e then acc ++ [e] else acc) requiredEnvVars
  else []

/-- The loop that collects `missingEnvVars`: the non-empty required names that are not keys
of the converted map, in order. -/
def collectMissingEnvVars (requiredEnvVars : List String) (envVarsForTask : StrMap) :
    List String :=
  requiredEnvVars.foldl (fun missingEnvVars e =>
    if e = "" then missingEnvVars
    else if (mapGet envVarsForTask e).isSome then missingEnvVars
    else missingEnvVars ++ [e]) []

/-- The data of a successful response of `InstallOrAddService`; a key that is not set
is `none`. -/
structure InstallData where
  message : String
  mcp_service_id : Option Int
  task_id : Option Int
  status : Option String
  required_env_vars : Option (List String)
deriving DecidableEq, Repr

/-- The record `newService` that `InstallOrAddService` builds for a new package, before the
headers are added: the literal, the default category, `Command` / `ArgsJSON` by package
manager, and `DefaultEnvsJSON`. -/
def buildNewService (env : MarketEnv) (requestBody : InstallRequestBody) (userID : Int)
    (envVarsForTask : StrMap) : MCPService :=
  let displayName :=
    if requestBody.DisplayName = "" then requestBody.PackageName else requestBody.DisplayName
  let newService : MCPService :=
    { MCPService.zero with
      Name := requestBody.PackageName, DisplayName := displayName,
      Description := requestBody.ServiceDescription, Category := requestBody.Category,
      Icon := requestBody.ServiceIconURL, Type_ := ServiceTypeStdio,
      PackageManager := requestBody.PackageManager,
      SourcePackageName := requestBody.PackageName,
      ClientConfigTemplates := "\x7b\x7d", Enabled := true,
      HealthStatus := StatusPending.text, InstallerUserID := userID }
  let newService :=
    if newService.Category = "" then { newService with Category := CategoryAI } else newService
  let newService :=
    if requestBody.PackageManager = "npm" then
      let newService := { newService with Command := "npx" }
      match env.MarshalStrings ["-y", requestBody.PackageName] with
      | .error _ => newService
      | .ok argsJSON => { newService with ArgsJSON := argsJSON }
    else if requestBody.PackageManager = "pypi" ∨ requestBody.PackageManager = "uv"
        ∨ requestBody.PackageManager = "pip" then
      let newService := { newService with Command := "uvx" }
      match env.MarshalStrings ["--from", requestBody.PackageName, requestBody.PackageName] with
      | .error _ => newService
      | .ok argsJSON => { newService with ArgsJSON := argsJSON }
    else newService
  if envVarsForTask.length > 0 then
    match env.MarshalStrMap envVarsForTask with
    | .error _ => newService
    | .ok defaultEnvsJSON => { newService with DefaultEnvsJSON := defaultEnvsJSON }
  else newService

/-- The answer of `InstallOrAddService` for a package that is already installed as the
service `mcpServiceID`, from the result of `addServiceInstanceForUser`. -/
def existingInstanceOutcome (mcpServiceID : Int) (added : Option String × List Call) :
    Outcome InstallData :=
  match added with
  | (some _, calls) => ⟨.error 500 "add_service_instance_failed", calls⟩
  | (none, calls) =>
    ⟨.success "" (some { message := "service_instance_added_successfully",
                         mcp_service_id := some mcpServiceID, task_id := none,
                         status := some "already_installed_instance_added",
                         required_env_vars := none }), calls⟩

/-- The marketplace branch of `InstallOrAddService`, after the package name and manager
were found non-empty. -/
def installFromMarketplace (env : MarketEnv) (im : InstallationManager) (now : Time)
    (requestBody : InstallRequestBody) (userID : Int) (envVarsForTask : StrMap) :
    Outcome InstallData × InstallationManager :=
  if requestBody.PackageManager = "npm" ∧ ¬ env.CheckNPXAvailable then
    (⟨.error 500 "npx_not_available", []⟩, im)
  else if (requestBody.PackageManager = "pypi" ∨ requestBody.PackageManager = "uv"
      ∨ requestBody.PackageManager = "pip") ∧ ¬ env.CheckUVXAvailable then
    (⟨.error 500 "uv_not_available", []⟩, im)
  else
    let existing : Option MCPService :=
      match env.GetServicesByPackageDetails requestBody.PackageManager requestBody.PackageName with
      | .ok existingServices => existingServices.head?
      | .error _ => none
    match existing with
    | some first =>
      let mcpServiceID := first.ID
      (existingInstanceOutcome mcpServiceID
        (addServiceInstanceForUser env userID mcpServiceID requestBody.UserProvidedEnvVars), im)
    | none =>
      let requiredEnvVars :=
        discoverRequiredEnvVars env requestBody.PackageManager requestBody.PackageName
      let missingEnvVars := collectMissingEnvVars requiredEnvVars envVarsForTask
      if missingEnvVars.length > 0 then
        (⟨.success ("缺少必需环境变量: " ++ ", ".intercalate missingEnvVars)
            (some { message := "", mcp_service_id := none, task_id := none, status := none,
                    required_env_vars := some missingEnvVars }), []⟩, im)
      else
        let newService := buildNewService env requestBody userID envVarsForTask
        let withHeaders : Except String MCPService :=
          if requestBody.Headers.length > 0 then
            match env.MarshalStrMap requestBody.Headers with
            | .error e => .error e
            | .ok headersJSON => .ok { newService with HeadersJSON := headersJSON }
          else .ok newService
        match withHeaders with
        | .error _ => (⟨.error 400 "invalid_headers", []⟩, im)
        | .ok newService =>
          match env.CreateService newService with
          | .error _ =>
            (⟨.error 500 "create_mcp_service_failed", [Call.CreateService newService]⟩, im)
          | .ok id =>
            let installationTask : InstallationRequest :=
              { ServiceID := id, UserID := userID, PackageName := requestBody.PackageName,
                PackageManager := requestBody.PackageManager, Version := requestBody.Version,
                EnvVars := envVarsForTask }
            let submitted := im.SubmitTask now installationTask
            (⟨.success "" (some { message := "installation_submitted",
                                  mcp_service_id := some id, task_id := some id,
                                  status := some StatusPending.text,
                                  required_env_vars := none }),
              [Call.CreateService newService, Call.SubmitTask installationTask]⟩, submitted.1)

/-- The handler `InstallOrAddService`, run at instant `now`. `body` is the bound request
body and `userID` the result of `getUserIDFromContext` (0 when no user is logged in). It
returns the outcome and the installation manager after the run: the value that
`SubmitTask` returns is dropped by the handler. -/
def InstallOrAddService (env : MarketEnv) (im : InstallationManager) (now : Time)
    (body : Except String InstallRequestBody) (userID : Int) :
    Outcome InstallData × InstallationManager :=
  match body with
  | .error _ => (⟨.error 400 "invalid_request_data", []⟩, im)
  | .ok requestBody =>
    if userID = 0 ∧ requestBody.SourceType ≠ "predefined" then
      (⟨.error 401 "user_not_authenticated", []⟩, im)
    else
      let envVarsForTask := convertEnvVarsMap requestBody.UserProvidedEnvVars
      if requestBody.SourceType = "predefined" then
        if requestBody.MCServiceID = 0 then (⟨.error 400 "mcp_service_id_required", []⟩, im)
        else
          match addServiceInstanceForUser env userID requestBody.MCServiceID
              requestBody.UserProvidedEnvVars with
          | (some _, calls) => (⟨.error 500 "add_service_instance_failed", calls⟩, im)
          | (none, calls) => (⟨.success "service_added_successfully" none, calls⟩, im)
      else if requestBody.SourceType = "marketplace" then
        if requestBody.PackageName = "" ∨ requestBody.PackageManager = "" then
          (⟨.error 400 "package_name_and_manager_required", []⟩, im)
        else installFromMarketplace env im now requestBody userID envVarsForTask
      else (⟨.error 400 "invalid_source_type", []⟩, im)

/-! ## `ListInstalledMCPServices` (`market.go`) -/

/-- The map `healthDetailsMap` / `unknownHealthDetails` that is marshalled into
`health_details`; the final rendering as JSON text is left out. -/
inductive HealthDetails
  | cached (status : String) (response_time_ms success_count failure_count : Int)
      (error_message : String) (start_time : Time) (up_time warning_level : Int)
      (last_checked : Option String)
  | missing (status : String) (last_checked : Option String) (error_message : String)
deriving DecidableEq, Repr

/-- One element of the list that `ListInstalledMCPServices` returns: the record and the keys
the handler sets on top of it (`health_status` replaces the one of the record). -/
structure InstalledService where
  service : MCPService
  /-- The map `finalEnvVars`, which may be `nil`. -/
  env_vars : Option StrMap
  user_daily_request_count : Int
  remaining_requests : Int
  health_status : String
  last_health_check : Option String
  health_details : HealthDetails
deriving DecidableEq, Repr

/-- The collaborators of `ListInstalledMCPServices`. -/
structure ListEnv where
  GetInstalledServices : Except String (List MCPService)
  /-- The function `json.Unmarshal` of a text into a variable of type `map[string]string`
  that holds the given map: the variable afterwards, and the error. The variable holds `nil`
  (`none`) after the text `null`. -/
  UnmarshalStrMap : String → StrMap → Option StrMap × Option String
  GetUserConfigsForService : Int → Int → Except String (List UserConfig)
  /-- The options of a service; the handler drops the error. -/
  GetConfigOptionsForService : Int → List ConfigService
  /-- The day `time.Now().Format("2006-01-02")`. -/
  today : String
  /-- The global `thing.Cache()`, which may be `nil`. -/
  thingCache : Option CacheClient
  FormatRFC3339 : Time → String

/-- The merge of the user's configuration into the default variables: one write
`finalEnvVars[varName] = uc.Value` for each entry whose option is known, in order. The
result is the map afterwards, or the panic of a write to a `nil` map. -/
def mergeUserConfigs (finalEnvVars : Option StrMap) (serviceConfigOptions : List ConfigService)
    (userConfigs : List UserConfig) : Except String (Option StrMap) :=
  let configIDToNameMap : List (Int × String) :=
    serviceConfigOptions.foldl (fun m opt => mapSet m opt.ID opt.Key) []
  userConfigs.foldlM (fun finalEnvVars uc =>
    match mapGet configIDToNameMap uc.ConfigID with
    | some varName => assignEntry finalEnvVars varName uc.Value
    | none => .ok finalEnvVars) finalEnvVars

/-- The variables `finalEnvVars` of one service for the caller `userID`: the map made
empty, decoded over when `DefaultEnvsJSON` is not empty (the error is logged), then the
merge for a logged-in user. The result is the map, or the panic of the merge. -/
def finalEnvVarsFor (env : ListEnv) (userID : Int) (svc : MCPService) :
    Except String (Option StrMap) :=
  let finalEnvVars : Option StrMap :=
    if svc.DefaultEnvsJSON ≠ "" then (env.UnmarshalStrMap svc.DefaultEnvsJSON []).1
    else some []
  if userID ≠ 0 then
    match env.GetUserConfigsForService userID svc.ID with
    | .ok userConfigs =>
      mergeUserConfigs finalEnvVars (env.GetConfigOptionsForService svc.ID) userConfigs
    | .error _ => .ok finalEnvVars
  else .ok finalEnvVars

/-- The pair `(user_daily_request_count, remaining_requests)` of one service. -/
def requestStats (env : ListEnv) (up : Bool) (now : Time) (userID : Int) (svc : MCPService) :
    Int × Int :=
  if svc.RPDLimit > 0 ∧ userID > 0 then
    let userCacheKey := "user_request:" ++ env.today ++ ":" ++ toString svc.ID ++ ":"
      ++ toString userID ++ ":count"
    match env.thingCache with
    | some cacheClient =>
      match cacheClient.Get up now userCacheKey with
      | .ok countStr =>
        match ParseInt countStr with
        | .ok userRequestCount => (userRequestCount, wrapInt64 (svc.RPDLimit - userRequestCount))
        | .error _ => (0, svc.RPDLimit)
      | .error _ => (0, svc.RPDLimit)
    | none => (0, svc.RPDLimit)
  else (0, -1)

/-- The body of the loop of `ListInstalledMCPServices` for one service: the element of the
result and the goroutines the cache read started, or the panic of the environment merge,
which comes first in the body. -/
def installedServiceEntry (env : ListEnv) (cacheManager : HealthCacheManager)
    (codec : JSONCodec) (up : Bool) (now : Time) (userID : Int) (svc : MCPService) :
    Except String (InstalledService × List Call) :=
  match finalEnvVarsFor env userID svc with
  | .error message => .error message
  | .ok finalEnvVars =>
    let stats := requestStats env up now userID svc
    let r := cacheManager.GetServiceHealth codec up now svc.ID
    let calls := r.spawned.map Call.GoDeleteServiceHealth
    match r.health with
    | some cachedHealth =>
      let lastChecked :=
        if !cachedHealth.LastChecked.IsZero then
          some (env.FormatRFC3339 cachedHealth.LastChecked)
        else none
      .ok ({ service := svc, env_vars := finalEnvVars, user_daily_request_count := stats.1,
             remaining_requests := stats.2, health_status := cachedHealth.Status,
             last_health_check := lastChecked,
             health_details := .cached cachedHealth.Status cachedHealth.ResponseTime
               cachedHealth.SuccessCount cachedHealth.FailureCount cachedHealth.ErrorMessage
               cachedHealth.StartTime cachedHealth.UpTime cachedHealth.WarningLevel
               lastChecked },
           calls)
    | none =>
      .ok ({ service := svc, env_vars := finalEnvVars, user_daily_request_count := stats.1,
             remaining_requests := stats.2, health_status := StatusUnknown,
             last_health_check := none,
             health_details :=
               .missing StatusUnknown none "Health status not found in cache." },
           calls)

/-- The loop `for _, svc := range services` of `ListInstalledMCPServices`, from the
elements appended to `result` and the calls made so far: a panic in the body of a service
ends the handler, after the calls of the services before it. -/
def installedServicesLoop (env : ListEnv) (cacheManager : HealthCacheManager)
    (codec : JSONCodec) (up : Bool) (now : Time) (userID : Int) :
    List MCPService → List InstalledService → List Call → Outcome (List InstalledService)
  | [], result, calls => ⟨.success "" (some result), calls⟩
  | svc :: services, result, calls =>
    match installedServiceEntry env cacheManager codec up now userID svc with
    | .error message => ⟨.panicked message, calls⟩
    | .ok entry =>
      installedServicesLoop env cacheManager codec up now userID services
        (result ++ [entry.1]) (calls ++ entry.2)

/-- The handler `ListInstalledMCPServices`. `ctxUserID` is the `user_id` of the request
context when it is set to an `int64`. The service manager is not among the collaborators:
the handler does not call it. -/
def ListInstalledMCPServices (env : ListEnv) (cacheManager : HealthCacheManager)
    (codec : JSONCodec) (up : Bool) (now : Time) (ctxUserID : Option Int) :
    Outcome (List InstalledService) :=
  match env.GetInstalledServices with
  | .error _ => ⟨.error 500 "list_installed_failed", []⟩
  | .ok services =>
    let userID : Int := ctxUserID.getD 0
    installedServicesLoop env cacheManager codec up now userID services [] []

/-! ## `CreateMCPService` and `UpdateMCPService` (`mcp_service.go`) -/

/-- Modelled from the spec: `model.EnvVarDefinition`, whose declaration is not among the
sources; the fields are those that `market.go` fills. -/
structure EnvVarDefinition where
  Name : String
  Description : String
  IsSecret : Bool
  Optional : Bool
deriving DecidableEq, Repr

/-- The helper `isValidServiceType`. -/
def isValidServiceType (sType : String) : Bool :=
  sType == ServiceTypeStdio || sType == ServiceTypeSSE || sType == ServiceTypeStreamableHTTP

/-- The loop of `validateRequiredEnvVarsJSON` over the decoded definitions: the error of
the first definition without a name. -/
def checkEnvVarNames : List EnvVarDefinition → Option String
  | [] => none
  | envVar :: rest =>
    if envVar.Name = "" then some "missing name field in env var definition"
    else checkEnvVarNames rest

/-- The helper `validateRequiredEnvVarsJSON`; `Unmarshal` is `json.Unmarshal` into a
`[]model.EnvVarDefinition`. -/
def validateRequiredEnvVarsJSON (Unmarshal : String → Except String (List EnvVarDefinition))
    (envVarsJSON : String) : Option String :=
  if envVarsJSON = "" then none
  else
    match Unmarshal envVarsJSON with
    | .error err => some err
    | .ok envVars => checkEnvVarNames envVars

/-- The collaborators of the handlers of `mcp_service.go`: the store of records and the
serializers. -/
structure ServiceEnv where
  GetServiceByID : Int → Except String MCPService
  /-- Returns the id given to the new record. -/
  CreateService : MCPService → Except String Int
  UpdateService : MCPService → Option String
  /-- The method `model.MCPServiceDB.ToJSON`. -/
  ToJSON : MCPService → Except String String
  UnmarshalEnvVarDefinitions : String → Except String (List EnvVarDefinition)

/-- The validation block that `CreateMCPService` and `UpdateMCPService` share: the message
key of the 400 answer of the first check that fails, `none` when all pass. -/
def validationError (env : ServiceEnv) (service : MCPService) : Option String :=
  if service.Name = "" ∨ service.DisplayName = "" then some "name_and_display_name_required"
  else if !isValidServiceType service.Type_ then some "invalid_service_type"
  else if service.RequiredEnvVarsJSON ≠ "" ∧
      (validateRequiredEnvVarsJSON env.UnmarshalEnvVarDefinitions
        service.RequiredEnvVarsJSON).isSome then
    some "invalid_env_vars_json"
  else if service.Type_ = ServiceTypeStdio ∧ service.PackageManager ≠ "" ∧
      service.SourcePackageName = "" then
    some "source_package_name_required"
  else none

/-- The text `fmt.Sprintf("[\"-y\", \"%s\"]", name)`. -/
def defaultArgsJSON (sourcePackageName : String) : String :=
  "[\"-y\", \"" ++ sourcePackageName ++ "\"]"

/-- The block that `CreateMCPService` and `UpdateMCPService` share to set `Command` and,
when it is empty, `ArgsJSON` from the package manager. -/
def setCommandFromPackageManager (service : MCPService) : MCPService :=
  if service.PackageManager = "npm" then
    let service := { service with Command := "npx" }
    if service.ArgsJSON = "" ∧ service.SourcePackageName ≠ "" then
      { service with ArgsJSON := defaultArgsJSON service.SourcePackageName }
    else service
  else if service.PackageManager = "pypi" then
    let service := { service with Command := "uvx" }
    if service.ArgsJSON = "" ∧ service.SourcePackageName ≠ "" then
      { service with ArgsJSON := defaultArgsJSON service.SourcePackageName }
    else service
  else service

/-- The handler `CreateMCPService`; `body` is the record bound from the request. The data
of a success is the JSON text of the record. -/
def CreateMCPService (env : ServiceEnv) (body : Except String MCPService) : Outcome String :=
  match body with
  | .error _ => ⟨.error 400 "invalid_request_data", []⟩
  | .ok service =>
    match validationError env service with
    | some message => ⟨.error 400 message, []⟩
    | none =>
      let service := setCommandFromPackageManager service
      match env.CreateService service with
      | .error _ => ⟨.error 500 "create_service_failed", [Call.CreateService service]⟩
      | .ok id =>
        match env.ToJSON { service with ID := id } with
        | .error _ => ⟨.error 500 "serialize_service_failed", [Call.CreateService service]⟩
        | .ok jsonBytes => ⟨.success "" (some jsonBytes), [Call.CreateService service]⟩

/-- The handler `UpdateMCPService`. `idStr` is the path parameter and `bind` is
`c.ShouldBindJSON(service)`: the request body bound onto the record that was read, so that
a field the body does not name keeps the value of the record. -/
def UpdateMCPService (env : ServiceEnv) (idStr : String)
    (bind : MCPService → Except String MCPService) : Outcome String :=
  match ParseInt idStr with
  | .error _ => ⟨.error 400 "invalid_service_id", []⟩
  | .ok id =>
    match env.GetServiceByID id with
    | .error _ => ⟨.error 404 "service_not_found", []⟩
    | .ok service =>
      match bind service with
      | .error _ => ⟨.error 400 "invalid_request_data", []⟩
      | .ok service =>
        match validationError env service with
        | some message => ⟨.error 400 message, []⟩
        | none =>
          let service := setCommandFromPackageManager service
          match env.UpdateService service with
          | some _ => ⟨.error 500 "update_service_failed", [Call.UpdateService service]⟩
          | none =>
            match env.ToJSON service with
            | .error _ => ⟨.error 500 "serialize_service_failed", [Call.UpdateService service]⟩
            | .ok jsonBytes => ⟨.success "" (some jsonBytes), [Call.UpdateService service]⟩

/-! ## `CreateCustomService` (`market.go`) -/

/-- The constant `model.CategoryUtil`; its text is not in the sources and nothing depends
on it. -/
def CategoryUtil : String := "util"

/-- The struct `CustomServiceRequest`. -/
structure CustomServiceRequest where
  Name : String
  Type_ : String
  Command : String
  Arguments : String
  Environments : String
  URL : String
  Headers : String
deriving DecidableEq, Repr

/-- The call `strings.ReplaceAll(s, "\r\n", "\n")`, on the characters of the text. -/
def replaceCRLF : List Char → List Char
  | [] => []
  | '\r' :: '\n' :: rest => '\n' :: replaceCRLF rest
  | c :: rest => c :: replaceCRLF rest

/-- The call `strings.Split(s, sep)` for a separator of one character: the pieces between
the separators, at least one. -/
def splitChar (sep : Char) : List Char → List (List Char)
  | [] => [[]]
  | c :: rest =>
    if c = sep then [] :: splitChar sep rest
    else
      match splitChar sep rest with
      | [] => [[c]]
      | piece :: pieces => (c :: piece) :: pieces

/-- The predicate `unicode.IsSpace`. -/
def isSpace (c : Char) : Bool :=
  c = '\t' || c = '\n' || c.toNat = 11 || c.toNat = 12 || c = '\r' || c = ' '
    || c.toNat = 0x85 || c.toNat = 0xA0 || c.toNat = 0x1680
    || (0x2000 ≤ c.toNat && c.toNat ≤ 0x200A) || c.toNat = 0x2028 || c.toNat = 0x2029
    || c.toNat = 0x202F || c.toNat = 0x205F || c.toNat = 0x3000

/-- The call `strings.TrimSpace`. -/
def trimSpace (l : List Char) : List Char :=
  ((l.dropWhile isSpace).reverse.dropWhile isSpace).reverse

/-- The lines of a text field of the form: `strings.Split(strings.ReplaceAll(s, "\r\n",
"\n"), "\n")`. -/
def fieldLines (s : String) : List (List Char) :=
  splitChar '\n' (replaceCRLF s.toList)

/-- The loop that collects `filteredArgs`: the trimmed lines that are not blank. -/
def filterArgs (lines : List (List Char)) : List String :=
  lines.foldl (fun filteredArgs arg =>
    if trimSpace arg ≠ [] then filteredArgs ++ [String.mk (trimSpace arg)]
    else filteredArgs) []

/-- The loop that fills `envMap` / `headersMap` from lines of the form `key=value`: the
line is trimmed, split at its first `=`, and both halves are trimmed. -/
def parseKeyValueLines (lines : List (List Char)) : StrMap :=
  lines.foldl (fun m line =>
    let line := trimSpace line
    if line ≠ [] ∧ '=' ∈ line then
      mapSet m (String.mk (trimSpace (line.takeWhile (fun c => c ≠ '='))))
        (String.mk (trimSpace ((line.dropWhile (fun c => c ≠ '=')).drop 1)))
    else m) []

/-- The collaborators of `CreateCustomService`. -/
structure CustomEnv where
  /-- Returns the id given to the new record. -/
  CreateService : MCPService → Except String Int
  RegisterService : MCPService → Option String
  ForceCheckServiceHealth : Int → Except String ServiceHealth
  UpdateMCPServiceHealth : Int → Option String
  MarshalStrings : List String → Except String String
  MarshalStrMap : StrMap → Except String String
  /-- The slice `s[:n]` of the first `n` bytes of a text. -/
  SliceBytes : String → Nat → String

/-- The description that `CreateCustomService` generates; lengths are counted in bytes. -/
def customDescription (env : CustomEnv) (requestBody : CustomServiceRequest) : String :=
  let serviceTypeForDisplay := toLower requestBody.Type_
  if requestBody.Type_ = "stdio" then
    let cmdDisplay :=
      if requestBody.Command.utf8ByteSize > 50
      then env.SliceBytes requestBody.Command 47 ++ "..." else requestBody.Command
    let argsDisplay :=
      if requestBody.Arguments = "" then "no args"
      else if requestBody.Arguments.utf8ByteSize > 30
      then env.SliceBytes requestBody.Arguments 27 ++ "..." else requestBody.Arguments
    cmdDisplay ++ "/" ++ argsDisplay ++ " (" ++ serviceTypeForDisplay ++ ")"
  else if requestBody.Type_ = "sse" ∨ requestBody.Type_ = "streamableHttp" then
    let urlDisplay :=
      if requestBody.URL.utf8ByteSize > 80
      then env.SliceBytes requestBody.URL 77 ++ "..." else requestBody.URL
    if urlDisplay = "" then "URL not set (" ++ serviceTypeForDisplay ++ ")"
    else urlDisplay ++ " (" ++ serviceTypeForDisplay ++ ")"
  else "Custom service (" ++ serviceTypeForDisplay ++ ")"

/-- The literal `newService` of `CreateCustomService`. -/
def customServiceLiteral (env : CustomEnv) (requestBody : CustomServiceRequest)
    (serviceType : String) : MCPService :=
  { MCPService.zero with
    Name := requestBody.Name, DisplayName := requestBody.Name,
    Description := customDescription env requestBody, Category := CategoryUtil,
    Type_ := serviceType, ClientConfigTemplates := "\x7b\x7d", Enabled := true,
    HealthStatus := "unknown" }

/-- The block of `CreateCustomService` that fills the transport configuration of the new
record: command, arguments and environment for stdio, URL (in `Command`) and headers
otherwise. The error is the message of the 400 answer. -/
def fillTransportConfig (env : CustomEnv) (requestBody : CustomServiceRequest)
    (newService : MCPService) : Except String MCPService :=
  if requestBody.Type_ = "stdio" then
    let newService := { newService with Command := requestBody.Command }
    let withArgs : Except String MCPService :=
      if requestBody.Arguments ≠ "" then
        let filteredArgs := filterArgs (fieldLines requestBody.Arguments)
        if filteredArgs.length > 0 then
          match env.MarshalStrings filteredArgs with
          | .error _ => .error "参数格式错误"
          | .ok argsJSON => .ok { newService with ArgsJSON := argsJSON }
        else .ok newService
      else .ok newService
    match withArgs with
    | .error e => .error e
    | .ok newService =>
      if requestBody.Environments ≠ "" then
        let envMap := parseKeyValueLines (fieldLines requestBody.Environments)
        if envMap.length > 0 then
          match env.MarshalStrMap envMap with
          | .error _ => .error "环境变量格式错误"
          | .ok envJSON => .ok { newService with DefaultEnvsJSON := envJSON }
        else .ok newService
      else .ok newService
  else
    let newService := { newService with Command := requestBody.URL }
    if requestBody.Headers ≠ "" then
      let headersMap := parseKeyValueLines (fieldLines requestBody.Headers)
      if headersMap.length > 0 then
        match env.MarshalStrMap headersMap with
        | .error _ => .error "请求头格式错误"
        | .ok headersJSON => .ok { newService with HeadersJSON := headersJSON }
      else .ok newService
    else .ok newService

/-- The data of a successful response of `CreateCustomService`. -/
structure CustomServiceData where
  message : String
  mcp_service_id : Int
  service : MCPService
  warning : Option String
deriving DecidableEq, Repr

/-- The switch of `CreateCustomService` on the type of the request: the service type, or
`none` for the default branch. -/
def customServiceType (requestType : String) : Option String :=
  if requestType = "stdio" then some ServiceTypeStdio
  else if requestType = "sse" then some ServiceTypeSSE
  else if requestType = "streamableHttp" then some ServiceTypeStreamableHTTP
  else none

/-- The end of `CreateCustomService`, after the record was created: the registration with
the service manager and, when it succeeds, the forced health check and the update of the
stored health. It returns the error of the registration and the calls made; the errors of
the health check and of the update are only logged. -/
def registerCustomService (env : CustomEnv) (created : MCPService) :
    Option String × List Call :=
  match env.RegisterService created with
  | some err => (some err, [Call.RegisterService created])
  | none =>
    match env.ForceCheckServiceHealth created.ID with
    | .error _ => (none, [Call.RegisterService created, Call.ForceCheckServiceHealth created.ID])
    | .ok _ =>
      let _ := env.UpdateMCPServiceHealth created.ID
      (none, [Call.RegisterService created, Call.ForceCheckServiceHealth created.ID,
              Call.UpdateMCPServiceHealth created.ID])

/-- The data of the answer of `CreateCustomService` for a created record, from the error of
the registration. -/
def customServiceData (created : MCPService) (registerError : Option String) :
    CustomServiceData :=
  match registerError with
  | some err =>
    { message := "自定义服务创建成功，但服务注册出现警告", mcp_service_id := created.ID,
      service := created, warning := some ("服务健康检查可能无法正常工作: " ++ err) }
  | none =>
    { message := "自定义服务创建成功", mcp_service_id := created.ID, service := created,
      warning := none }

/-- The handler `CreateCustomService`; `body` is the bound request body. -/
def CreateCustomService (env : CustomEnv) (body : Except String CustomServiceRequest) :
    Outcome CustomServiceData :=
  match body with
  | .error _ => ⟨.error 400 "invalid_request_data", []⟩
  | .ok requestBody =>
    match customServiceType requestBody.Type_ with
    | none => ⟨.error 400 "无效的服务类型", []⟩
    | some serviceType =>
      match fillTransportConfig env requestBody
          (customServiceLiteral env requestBody serviceType) with
      | .error message => ⟨.error 400 message, []⟩
      | .ok newService =>
        match env.CreateService newService with
        | .error _ =>
          ⟨.error 500 "create_mcp_service_failed", [Call.CreateService newService]⟩
        | .ok id =>
          let created := { newService with ID := id }
          let registered := registerCustomService env created
          ⟨.success "" (some (customServiceData created registered.1)),
            Call.CreateService newService :: registered.2⟩

/-! ## The process-wide health cache manager (`health_cache.go`) -/

/-- The package variables `globalHealthCacheManager` and `healthCacheOnce`. Managers live
in `heap`, and a pointer to a manager is its index there. -/
structure HealthCacheGlobals where
  heap : List HealthCacheManager
  globalHealthCacheManager : Option Nat
  healthCacheOnceDone : Bool

/-- The package variables when the process starts. -/
def HealthCacheGlobals.initial : HealthCacheGlobals :=
  { heap := [], globalHealthCacheManager := none, healthCacheOnceDone := false }

/-- The function `GetHealthCacheManager`: the first call runs the body of the `sync.Once`,
which allocates a manager with a TTL of one hour over `cache` (the global `thing.Cache()`);
every call returns the pointer in `globalHealthCacheManager`. -/
def GetHealthCacheManager (g : HealthCacheGlobals) (cache : CacheClient) :
    Option Nat × HealthCacheGlobals :=
  let g :=
    if g.healthCacheOnceDone then g
    else
      { heap := g.heap ++ [NewHealthCacheManager cache (1 * Hour)],
        globalHealthCacheManager := some g.heap.length,
        healthCacheOnceDone := true }
  (g.globalHealthCacheManager, g)

/-- The manager a pointer refers to. -/
def HealthCacheGlobals.deref (g : HealthCacheGlobals) (pointer : Option Nat) :
    Option HealthCacheManager :=
  match pointer with
  | none => none
  | some i => g.heap.get? i

/-! ## The environment merge of `GetPackageDetails` (`market.go`) -/

/-- The map `configIDToNameMap` built from the configuration options of a service. -/
def configIDToNameMap (serviceConfigOptions : List ConfigService) : List (Int × String) :=
  serviceConfigOptions.foldl (fun m opt => mapSet m opt.ID opt.Key) []

/-- The variables `finalEnvValues` that `GetPackageDetails` computes for the installed
service and the caller `userID`: the defaults of `DefaultEnvsJSON`, then the user's
configuration on top. The result is the map, which may be `nil`, or the panic of a write
to a `nil` map. -/
def finalEnvValuesFor (env : ListEnv) (userID : Int) (installedService : MCPService) :
    Except String (Option StrMap) :=
  let finalEnvValues : Option StrMap :=
    if installedService.DefaultEnvsJSON ≠ "" then
      (env.UnmarshalStrMap installedService.DefaultEnvsJSON []).1
    else some []
  if userID ≠ 0 then
    match env.GetUserConfigsForService userID installedService.ID with
    | .ok userConfigs =>
      let serviceConfigOptions := env.GetConfigOptionsForService installedService.ID
      let configIDToNameMap : List (Int × String) :=
        serviceConfigOptions.foldl (fun m opt => mapSet m opt.ID opt.Key) []
      userConfigs.foldlM (fun finalEnvValues uc =>
        match mapGet configIDToNameMap uc.ConfigID with
        | some varName => assignEntry finalEnvValues varName uc.Value
        | none => .ok finalEnvValues) finalEnvValues
    | .error _ => .ok finalEnvValues
  else .ok finalEnvValues

/-- The loop of `GetPackageDetails` that writes `finalEnvValues` over the `Env` of one
server of the discovered configuration (a `nil` map is the empty map). The order of the
loop over a Go map is not fixed; here the entries are written last to first. -/
def overlayEnv (finalEnvValues : StrMap) (serverEnv : StrMap) : StrMap :=
  finalEnvValues.foldr (fun kv e => mapSet e kv.1 kv.2) serverEnv

/-- The block of `GetPackageDetails` that updates the discovered configuration (the servers
of `mcpConfig`, each with its `Env`) for an installed package: nothing changes when the
package is not installed, no configuration was discovered, or the record cannot be read.
The result is `mcpConfig` after the block, or the panic of the merge; the loop over a `nil`
`finalEnvValues` writes nothing. -/
def updateMCPConfigEnv (env : ListEnv) (GetServiceByID : Int → Except String MCPService)
    (isInstalled : Bool) (installedServiceID userID : Int)
    (mcpConfig : Option (List (String × StrMap))) :
    Except String (Option (List (String × StrMap))) :=
  match mcpConfig with
  | none => .ok none
  | some servers =>
    if isInstalled then
      match GetServiceByID installedServiceID with
      | .error _ => .ok (some servers)
      | .ok installedService =>
        match finalEnvValuesFor env userID installedService with
        | .error message => .error message
        | .ok finalEnvValues =>
          .ok (some (servers.map (fun server =>
            (server.1, overlayEnv (finalEnvValues.getD []) server.2))))
    else .ok (some servers)

/-- The missing variables in the words of the claim: the required names, in the order of
discovery, that are not empty and are not keys of the converted map. -/
def missingRequiredEnvVars (requiredEnvVars : List String) (envVarsForTask : StrMap) :
    List String :=
  requiredEnvVars.filter (fun e => decide (e ≠ "") && (mapGet envVarsForTask e).isNone)

/-- The default variables of a service: `DefaultEnvsJSON` decoded into a map made empty,
that map when the text is empty. The variable holds `nil` (`none`) after the text `null`. -/
def defaultEnvVarsOf (env : ListEnv) (svc : MCPService) : Option StrMap :=
  if svc.DefaultEnvsJSON ≠ "" then (env.UnmarshalStrMap svc.DefaultEnvsJSON []).1
  else some []

/-- The variable name that a user configuration entry resolves to, through the
configuration options (id to key) of the service. -/
def resolveVarName (env : ListEnv) (svc : MCPService) (uc : UserConfig) : Option String :=
  mapGet (configIDToNameMap (env.GetConfigOptionsForService svc.ID)) uc.ConfigID

/-! ## Sample data -/

/-- A manager over the empty cache with a TTL of one hour. -/
def sampleManager : HealthCacheManager := NewHealthCacheManager CacheClient.empty 0

/-- A manager whose entry for service 7 holds the empty text, which does not decode. -/
def corruptedManager : HealthCacheManager :=
  { cacheClient := { entries := fun k =>
      if k = generateCacheKey 7 then some { value := "", deadline := 100 } else none },
    expireTime := Hour }

/-- A stdio record installed from npm, with id 7. -/
def sampleService : MCPService :=
  { MCPService.zero with
    ID := 7, Name := "left-pad", DisplayName := "left-pad", Type_ := ServiceTypeStdio,
    PackageManager := "npm", SourcePackageName := "left-pad", Enabled := true,
    HealthStatus := "healthy", InstalledVersion := "1.3.0" }

/-- A store of records that holds `sampleService` only. -/
def sampleStore (id : Int) : Except String MCPService :=
  if id = 7 then .ok sampleService else .error "record not found"

/-- The record of service 7 before any version was installed. -/
def pendingService : MCPService :=
  { sampleService with HealthStatus := "pending", InstalledVersion := "" }

/-- A store of records that holds `pendingService` only. -/
def pendingStore (id : Int) : Except String MCPService :=
  if id = 7 then .ok pendingService else .error "record not found"

/-- A service manager that holds a healthy snapshot for service 7 in memory. -/
def sampleRegistry (id : Int) : Option ServiceHealth × Option String :=
  if id = 7 then (some (sampleHealth "healthy"), none) else (none, some "service not found")

/-- The collaborators of the list handler when `sampleService` is the only installed one. -/
def sampleListEnv : ListEnv :=
  { GetInstalledServices := .ok [sampleService]
    UnmarshalStrMap := fun _ m => (some m, none)
    GetUserConfigsForService := fun _ _ => .ok []
    GetConfigOptionsForService := fun _ => []
    today := "2025-01-01"
    thingCache := some CacheClient.empty
    FormatRFC3339 := fun t => toString t }

/-- Collaborators of the market handlers for an npm package that is already installed as
`sampleService`: the lookup by package finds it, no configuration option exists yet, and
every write succeeds. -/
def sampleMarketEnv : MarketEnv :=
  { GetServiceByID := sampleStore
    GetServicesByPackageDetails := fun manager name =>
      if manager = "npm" ∧ name = "left-pad" then .ok [sampleService] else .ok []
    GetConfigOptionByKey := fun _ _ => .error "record not found"
    CreateConfigOption := fun _ => .ok 31
    SaveUserConfig := fun _ => none
    CreateService := fun _ => .ok 8
    ErrRecordNotFound := "record not found"
    CheckNPXAvailable := true
    CheckUVXAvailable := true
    GetNPMPackageDetails := fun _ => .ok { RequiresEnv := [] }
    ConfigEnvVars := fun _ => none
    GuessedEnvVars := fun _ => []
    MarshalStrings := fun l => .ok (", ".intercalate l)
    MarshalStrMap := fun m => .ok (", ".intercalate (m.map (fun kv => kv.1 ++ "=" ++ kv.2))) }

/-- A marketplace request of a logged-in user for the npm package `left-pad`, with one
variable. -/
def sampleInstallRequest : InstallRequestBody :=
  { SourceType := "marketplace", MCServiceID := 0, PackageName := "left-pad",
    PackageManager := "npm", Version := "1.3.0",
    UserProvidedEnvVars := some [("API_KEY", .str "k")],
    DisplayName := "", ServiceDescription := "", ServiceIconURL := "", Category := "",
    Headers := [] }

/-- A manager that holds one pending task, for service 7. -/
def busyManager : InstallationManager :=
  (InstallationManager.empty.SubmitTask 0
    { ServiceID := 7, UserID := 1, PackageName := "left-pad", PackageManager := "npm",
      Version := "1.3.0", EnvVars := [] }).1

/-- Collaborators of the market handlers for an npm package `mcp-search` that is not
installed yet and whose discovered configuration asks for `API_KEY`, an empty name and
`REGION`. -/
def gatedMarketEnv : MarketEnv :=
  { sampleMarketEnv with
    GetServicesByPackageDetails := fun _ _ => .ok []
    ConfigEnvVars := fun _ => some ["API_KEY", "", "REGION"] }

/-- A marketplace request for `mcp-search` that gives `API_KEY` as a string and `REGION` as
a number. -/
def gatedInstallRequest : InstallRequestBody :=
  { sampleInstallRequest with
    PackageName := "mcp-search"
    UserProvidedEnvVars := some [("API_KEY", .str "k"), ("REGION", .num 3)] }

/-- A decoder of definitions for examples: it knows three texts. -/
def sampleUnmarshalDefinitions (s : String) : Except String (List EnvVarDefinition) :=
  if s = "[named]" then
    .ok [{ Name := "API_KEY", Description := "", IsSecret := true, Optional := false }]
  else if s = "[unnamed]" then
    .ok [{ Name := "API_KEY", Description := "", IsSecret := true, Optional := false },
         { Name := "", Description := "", IsSecret := false, Optional := false }]
  else .error "invalid character"

/-- The record 7 with the command and arguments that were generated for `left-pad`. -/
def argsService : MCPService :=
  { sampleService with Command := "npx", ArgsJSON := defaultArgsJSON "left-pad" }

/-- Collaborators of the handlers of `mcp_service.go` over a store that holds
`argsService` only and accepts every write. -/
def sampleServiceEnv : ServiceEnv :=
  { GetServiceByID := fun id => if id = 7 then .ok argsService else .error "record not found"
    CreateService := fun _ => .ok 8
    UpdateService := fun _ => none
    ToJSON := fun service => .ok service.Name
    UnmarshalEnvVarDefinitions := sampleUnmarshalDefinitions }

/-- A request body that only changes the source package to `right-pad`. -/
def renamePackage (service : MCPService) : Except String MCPService :=
  .ok { service with SourcePackageName := "right-pad" }

/-- A request body that changes the source package to `right-pad` and clears the
arguments. -/
def renamePackageClearArgs (service : MCPService) : Except String MCPService :=
  .ok { service with SourcePackageName := "right-pad", ArgsJSON := "" }

/-- A record bound from a creation request: an npm package without a source package. -/
def unnamedPackageService : MCPService :=
  { MCPService.zero with
    Name := "search", DisplayName := "Search", Type_ := ServiceTypeStdio,
    PackageManager := "npm" }

/-- Collaborators of `CreateCustomService` for which every call succeeds. -/
def sampleCustomEnv : CustomEnv :=
  { CreateService := fun _ => .ok 9
    RegisterService := fun _ => none
    ForceCheckServiceHealth := fun _ => .ok (sampleHealth "healthy")
    UpdateMCPServiceHealth := fun _ => none
    MarshalStrings := fun l => .ok (", ".intercalate l)
    MarshalStrMap := fun m => .ok (", ".intercalate (m.map (fun kv => kv.1 ++ "=" ++ kv.2)))
    SliceBytes := fun s n => String.mk (s.toList.take n) }

/-- A request for a custom service reached over server-sent events. -/
def sseRequest : CustomServiceRequest :=
  { Name := "feed", Type_ := "sse", Command := "", Arguments := "", Environments := "",
    URL := "http://localhost:9000/sse", Headers := "Authorization=Bearer t" }

/-- A request whose type is written in capitals. -/
def upperCaseRequest : CustomServiceRequest :=
  { sseRequest with Type_ := "SSE" }

/-- The record 7 with a limit of 10 requests a day. -/
def limitedService : MCPService := { sampleService with RPDLimit := 10 }

/-- Collaborators of the list handler when `limitedService` is the only installed service
and the cache holds a count of 11 requests today for user 1 on it. -/
def countingListEnv : ListEnv :=
  { sampleListEnv with
    GetInstalledServices := .ok [limitedService]
    thingCache := some { entries := fun k =>
      if k = "user_request:2025-01-01:7:1:count" then some { value := "11", deadline := 100 }
      else none } }

/-- Collaborators of the list handler for service 7 with the defaults `REGION=eu` and
`API_KEY=default`, the option 31 for `API_KEY`, and a value of user 1 for that option. -/
def mergingListEnv : ListEnv :=
  { sampleListEnv with
    GetInstalledServices := .ok [{ sampleService with DefaultEnvsJSON := "defaults" }]
    UnmarshalStrMap := fun _ _ => (some [("REGION", "eu"), ("API_KEY", "default")], none)
    GetUserConfigsForService := fun _ _ =>
      .ok [{ UserID := 1, ServiceID := 7, ConfigID := 31, Value := "mine" }]
    GetConfigOptionsForService := fun _ =>
      [{ ID := 31, ServiceID := 7, Key := "API_KEY", DisplayName := "API_KEY",
         Description := "", Type_ := ConfigTypeSecret, Required := true }] }

/-- Collaborators of the market handlers when no package is installed yet. -/
def freshMarketEnv : MarketEnv :=
  { sampleMarketEnv with GetServicesByPackageDetails := fun _ _ => .ok [] }

/-- A service manager that does not know the service: `UnregisterService` fails. -/
def failingUnregister (_ : Int) : Option String := some "service not found"

/-- A package tool that fails to uninstall. -/
def failingPackageUninstall (_ : String) : Option String := some "exit status 1"

/-- A store that refuses every update. -/
def failingUpdate (_ : MCPService) : Option String := some "database is locked"

/-- The record 7 with the text `defaults` in `DefaultEnvsJSON`, which `mergingListEnv`
decodes to `REGION=eu` and `API_KEY=default`. -/
def defaultsService : MCPService := { sampleService with DefaultEnvsJSON := "defaults" }

/-- A store of records that holds `defaultsService` only. -/
def defaultsStore (id : Int) : Except String MCPService :=
  if id = 7 then .ok defaultsService else .error "record not found"

/-- The record 7 with the JSON text `null` in `DefaultEnvsJSON`. -/
def nullDefaultsService : MCPService := { sampleService with DefaultEnvsJSON := "null" }

/-- A store of records that holds `nullDefaultsService` only. -/
def nullDefaultsStore (id : Int) : Except String MCPService :=
  if id = 7 then .ok nullDefaultsService else .error "record not found"

/-- Collaborators of the list handler when `nullDefaultsService` is the only installed
service: decoding the text `null` leaves the variable `nil` without an error, the option 31
of the service is `API_KEY`, and user 1 gave the value `mine` for it. -/
def nullDefaultsListEnv : ListEnv :=
  { mergingListEnv with
    GetInstalledServices := .ok [nullDefaultsService]
    UnmarshalStrMap := fun text m => if text = "null" then (none, none) else (some m, none) }

/-- The number that a list of decimal digits denotes, after the digits `acc`. -/
def decimalValue (l : List Char) (acc : Nat) : Nat :=
  l.foldl (fun a c => 10 * a + (c.toNat - 48)) acc

/-! # Theorems -/

/-! ## Decimal rendering and cache keys -/

theorem digitChar_value (k : Nat) (hk : k < 10) : (Nat.digitChar k).toNat - 48 = k := by
  interval_cases k <;> rfl

theorem digitChar_ne_minus (k : Nat) (hk : k < 10) : Nat.digitChar k ≠ '-' := by
  interval_cases k <;> decide

theorem toDigitsCore_value (fuel : Nat) : ∀ (n : Nat) (ds : List Char), n < fuel →
    decimalValue (Nat.toDigitsCore 10 fuel n ds) 0 = decimalValue ds n := by
  induction fuel with
  | zero => intro n ds h; omega
  | succ fuel ih =>
    intro n ds h
    rw [Nat.toDigitsCore]
    have hd := digitChar_value (n % 10) (Nat.mod_lt _ (by decide))
    by_cases h0 : n / 10 = 0
    · simp only [h0, if_true]
      have hn : n % 10 = n := Nat.mod_eq_of_lt (by omega)
      simp only [decimalValue, List.foldl_cons, Nat.mul_zero, Nat.zero_add]
      rw [hd, hn]
    · simp only [h0, if_false]
      rw [ih (n / 10) _ (by omega)]
      simp only [decimalValue, List.foldl_cons, hd]
      congr 1
      omega

theorem toDigitsCore_no_minus (fuel : Nat) : ∀ (n : Nat) (ds : List Char),
    (∀ c ∈ ds, c ≠ '-') → ∀ c ∈ Nat.toDigitsCore 10 fuel n ds, c ≠ '-' := by
  induction fuel with
  | zero => intro n ds h; simpa [Nat.toDigitsCore] using h
  | succ fuel ih =>
    intro n ds h
    have hd := digitChar_ne_minus (n % 10) (Nat.mod_lt _ (by decide))
    have hds : ∀ c ∈ Nat.digitChar (n % 10) :: ds, c ≠ '-' := by
      intro c hc
      rcases List.mem_cons.mp hc with rfl | hc
      · exact hd
      · exact h c hc
    rw [Nat.toDigitsCore]
    by_cases h0 : n / 10 = 0
    · simpa only [h0, if_true] using hds
    · simpa only [h0, if_false] using ih _ _ hds

theorem natRepr_injective (a b : Nat) (h : Nat.repr a = Nat.repr b) : a = b := by
  have h1 : Nat.toDigits 10 a = Nat.toDigits 10 b := congrArg String.data h
  have ha := toDigitsCore_value (a + 1) a [] (by omega)
  have hb := toDigitsCore_value (b + 1) b [] (by omega)
  simp only [Nat.toDigits] at h1
  rw [h1, hb] at ha
  simpa [decimalValue] using ha.symm

theorem intToString_injective (a b : Int) (h : toString a = toString b) : a = b := by
  have hminus : ∀ (m n : Nat), toString (Int.negSucc m) ≠ toString (Int.ofNat n) := by
    intro m n hmn
    have h1 : ('-' :: (Nat.repr (m + 1)).data) = (Nat.repr n).data := congrArg String.data hmn
    have h2 : '-' ∈ (Nat.repr n).data := by rw [← h1]; exact List.mem_cons_self _ _
    exact toDigitsCore_no_minus (n + 1) n [] (by simp) '-' h2 rfl
  cases a with
  | ofNat m =>
    cases b with
    | ofNat n => exact congrArg Int.ofNat (natRepr_injective m n h)
    | negSucc n => exact absurd h.symm (hminus n m)
  | negSucc m =>
    cases b with
    | ofNat n => exact absurd h (hminus m n)
    | negSucc n =>
      have h1 : ('-' :: (Nat.repr (m + 1)).data) = '-' :: (Nat.repr (n + 1)).data :=
        congrArg String.data h
      have h2 : Nat.repr (m + 1) = Nat.repr (n + 1) := String.ext (List.cons.inj h1).2
      have := natRepr_injective _ _ h2
      have hmn : m = n := by omega
      rw [hmn]

/-- Two services never share a cache key. -/
theorem generateCacheKey_injective (a b : Int) (h : generateCacheKey a = generateCacheKey b) :
    a = b := by
  have h1 : ("health:service:" ++ toString a).data = ("health:service:" ++ toString b).data :=
    congrArg String.data h
  rw [String.data_append, String.data_append] at h1
  exact intToString_injective a b (String.ext (List.append_cancel_left h1))

/-! ## The health cache -/

theorem set_expireTime (hcm : HealthCacheManager) (codec : JSONCodec) (up : Bool) (t : Time)
    (id : Int) (h : Option ServiceHealth) :
    (hcm.SetServiceHealth codec up t id h).expireTime = hcm.expireTime := by
  unfold HealthCacheManager.SetServiceHealth
  cases h with
  | none => rfl
  | some h =>
    simp only
    cases codec.Marshal h with
    | error e => rfl
    | ok s => cases up <;> simp [CacheClient.Set]

theorem delete_expireTime (hcm : HealthCacheManager) (up : Bool) (id : Int) :
    (hcm.DeleteServiceHealth up id).expireTime = hcm.expireTime := by
  unfold HealthCacheManager.DeleteServiceHealth
  cases up <;> simp [CacheClient.Delete]

/-- The entry a successful `SetServiceHealth` leaves under the key of the service. -/
theorem set_entry (hcm : HealthCacheManager) (codec : JSONCodec) (t : Time) (id : Int)
    (h : ServiceHealth) (s : String) (hm : codec.Marshal h = .ok s) :
    (hcm.SetServiceHealth codec true t id (some h)).cacheClient.entries (generateCacheKey id)
      = some { value := s, deadline := t + hcm.expireTime } := by
  simp [HealthCacheManager.SetServiceHealth, hm, CacheClient.Set]

/-- A call for another service leaves the entry of this one as it is. -/
theorem set_entry_other (hcm : HealthCacheManager) (codec : JSONCodec) (up : Bool) (t : Time)
    (id id' : Int) (h : Option ServiceHealth) (hne : id' ≠ id) :
    (hcm.SetServiceHealth codec up t id' h).cacheClient.entries (generateCacheKey id)
      = hcm.cacheClient.entries (generateCacheKey id) := by
  have hk : generateCacheKey id ≠ generateCacheKey id' :=
    fun hk => hne (generateCacheKey_injective _ _ hk).symm
  unfold HealthCacheManager.SetServiceHealth
  cases h with
  | none => rfl
  | some h =>
    simp only
    cases codec.Marshal h with
    | error e => rfl
    | ok s => cases up <;> simp [CacheClient.Set, hk]

theorem delete_entry (hcm : HealthCacheManager) (id : Int) :
    (hcm.DeleteServiceHealth true id).cacheClient.entries (generateCacheKey id) = none := by
  simp [HealthCacheManager.DeleteServiceHealth, CacheClient.Delete]

theorem delete_entry_other (hcm : HealthCacheManager) (up : Bool) (id id' : Int)
    (hne : id' ≠ id) :
    (hcm.DeleteServiceHealth up id').cacheClient.entries (generateCacheKey id)
      = hcm.cacheClient.entries (generateCacheKey id) := by
  have hk : generateCacheKey id ≠ generateCacheKey id' :=
    fun hk => hne (generateCacheKey_injective _ _ hk).symm
  unfold HealthCacheManager.DeleteServiceHealth
  cases up <;> simp [CacheClient.Delete, hk]

/-- A deletion never brings an entry back. -/
theorem delete_entry_none (hcm : HealthCacheManager) (up : Bool) (id id' : Int)
    (h : hcm.cacheClient.entries (generateCacheKey id) = none) :
    (hcm.DeleteServiceHealth up id').cacheClient.entries (generateCacheKey id) = none := by
  unfold HealthCacheManager.DeleteServiceHealth
  cases up <;> simp [CacheClient.Delete, h]

/-- Reading a live entry whose text decodes returns the decoded snapshot. -/
theorem get_of_entry (hcm : HealthCacheManager) (codec : JSONCodec) (t : Time) (id : Int)
    (e : CacheEntry) (h : ServiceHealth)
    (he : hcm.cacheClient.entries (generateCacheKey id) = some e) (hlive : t < e.deadline)
    (hu : codec.Unmarshal e.value ServiceHealth.zero = (h, none)) :
    hcm.GetServiceHealth codec true t id = { health := some h, spawned := [] } := by
  simp [HealthCacheManager.GetServiceHealth, CacheClient.Get, he, hlive, hu]

/-- Reading an absent entry is a miss, whatever the backend does. -/
theorem get_of_absent (hcm : HealthCacheManager) (codec : JSONCodec) (up : Bool) (t : Time)
    (id : Int) (he : hcm.cacheClient.entries (generateCacheKey id) = none) :
    hcm.GetServiceHealth codec up t id = { health := none, spawned := [] } := by
  cases up <;> simp [HealthCacheManager.GetServiceHealth, CacheClient.Get, he]

/-- Reading an expired entry is a miss. -/
theorem get_of_expired (hcm : HealthCacheManager) (codec : JSONCodec) (up : Bool) (t : Time)
    (id : Int) (e : CacheEntry)
    (he : hcm.cacheClient.entries (generateCacheKey id) = some e) (hdead : e.deadline ≤ t) :
    hcm.GetServiceHealth codec up t id = { health := none, spawned := [] } := by
  have hnot : ¬ t < e.deadline := not_lt.mpr hdead
  cases up <;> simp [HealthCacheManager.GetServiceHealth, CacheClient.Get, he, hnot]

/-- The goroutines of a read are deletions for the service that was read. -/
theorem get_spawned (hcm : HealthCacheManager) (codec : JSONCodec) (up : Bool) (t : Time)
    (id : Int) :
    (hcm.GetServiceHealth codec up t id).spawned = [] ∨
      (hcm.GetServiceHealth codec up t id).spawned = [id] := by
  unfold HealthCacheManager.GetServiceHealth
  simp only
  split
  · exact Or.inl rfl
  · split
    · exact Or.inr rfl
    · exact Or.inl rfl

/-- A call that is neither a write nor a deletion for the service keeps a decodable entry
of the service as it is: a read of the entry starts no deletion. -/
theorem step_keeps_entry (hcm : HealthCacheManager) (codec : JSONCodec) (op : CacheOp)
    (id : Int) (e : CacheEntry) (h : ServiceHealth)
    (he : hcm.cacheClient.entries (generateCacheKey id) = some e)
    (hu : codec.Unmarshal e.value ServiceHealth.zero = (h, none))
    (hset : op.isSetFor id = false) (hdel : op.isDeleteFor id = false) :
    (hcm.step codec op).cacheClient.entries (generateCacheKey id) = some e := by
  cases op with
  | set up now id' health =>
    have hne : id' ≠ id := by simpa [CacheOp.isSetFor] using hset
    simpa [HealthCacheManager.step, set_entry_other hcm codec up now id id' health hne] using he
  | delete up id' =>
    have hne : id' ≠ id := by simpa [CacheOp.isDeleteFor] using hdel
    simpa [HealthCacheManager.step, delete_entry_other hcm up id id' hne] using he
  | get up now id' upDelete =>
    by_cases hid : id' = id
    · subst hid
      have hsp : (hcm.GetServiceHealth codec up now id').spawned = [] := by
        cases up <;> by_cases hl : now < e.deadline <;>
          simp [HealthCacheManager.GetServiceHealth, CacheClient.Get, he, hl, hu]
      simpa [HealthCacheManager.step, hsp, HealthCacheManager.runSpawned] using he
    · rcases get_spawned hcm codec up now id' with hsp | hsp
      · simpa [HealthCacheManager.step, hsp, HealthCacheManager.runSpawned] using he
      · simpa [HealthCacheManager.step, hsp, HealthCacheManager.runSpawned,
          delete_entry_other hcm upDelete id id' hid] using he

theorem run_keeps_entry (codec : JSONCodec) (id : Int) (e : CacheEntry) (h : ServiceHealth)
    (hu : codec.Unmarshal e.value ServiceHealth.zero = (h, none)) (ops : List CacheOp) :
    ∀ (hcm : HealthCacheManager),
      hcm.cacheClient.entries (generateCacheKey id) = some e →
      (∀ op ∈ ops, op.isSetFor id = false ∧ op.isDeleteFor id = false) →
      (hcm.run codec ops).cacheClient.entries (generateCacheKey id) = some e := by
  induction ops with
  | nil => intro hcm he _; simpa [HealthCacheManager.run] using he
  | cons op ops ih =>
    intro hcm he hops
    have hop := hops op (List.mem_cons_self _ _)
    have hstep := step_keeps_entry hcm codec op id e h he hu hop.1 hop.2
    have := ih (hcm.step codec op) hstep (fun o ho => hops o (List.mem_cons_of_mem _ ho))
    simpa [HealthCacheManager.run] using this

/-- A call that is not a write for the service leaves an absent entry absent. -/
theorem step_keeps_absent (hcm : HealthCacheManager) (codec : JSONCodec) (op : CacheOp)
    (id : Int) (he : hcm.cacheClient.entries (generateCacheKey id) = none)
    (hset : op.isSetFor id = false) :
    (hcm.step codec op).cacheClient.entries (generateCacheKey id) = none := by
  cases op with
  | set up now id' health =>
    have hne : id' ≠ id := by simpa [CacheOp.isSetFor] using hset
    simpa [HealthCacheManager.step, set_entry_other hcm codec up now id id' health hne] using he
  | delete up id' =>
    simpa [HealthCacheManager.step] using delete_entry_none hcm up id id' he
  | get up now id' upDelete =>
    rcases get_spawned hcm codec up now id' with hsp | hsp
    · simpa [HealthCacheManager.step, hsp, HealthCacheManager.runSpawned] using he
    · simpa [HealthCacheManager.step, hsp, HealthCacheManager.runSpawned]
        using delete_entry_none hcm upDelete id id' he

theorem run_keeps_absent (codec : JSONCodec) (id : Int) (ops : List CacheOp) :
    ∀ (hcm : HealthCacheManager),
      hcm.cacheClient.entries (generateCacheKey id) = none →
      (∀ op ∈ ops, op.isSetFor id = false) →
      (hcm.run codec ops).cacheClient.entries (generateCacheKey id) = none := by
  induction ops with
  | nil => intro hcm he _; simpa [HealthCacheManager.run] using he
  | cons op ops ih =>
    intro hcm he hops
    have hstep := step_keeps_absent hcm codec op id he (hops op (List.mem_cons_self _ _))
    have := ih (hcm.step codec op) hstep (fun o ho => hops o (List.mem_cons_of_mem _ ho))
    simpa [HealthCacheManager.run] using this

/-- C1: once `SetServiceHealth(id, h)` has written (the snapshot serializes to `s`, which
deserializes to `h` again, and the backend took the write), a `GetServiceHealth(id)` before
the TTL has elapsed returns `(h, true)`, whatever calls were made in between that are neither
a write nor a deletion for `id`; and when a first `SetServiceHealth` for `id` came before,
with any snapshot, what is returned is the later snapshot `h`. -/
theorem set_then_get_returns_snapshot (hcm : HealthCacheManager) (codec : JSONCodec)
    (id : Int) (h : ServiceHealth) (s : String) (t t' : Time) (ops : List CacheOp)
    (hm : codec.Marshal h = .ok s)
    (hu : codec.Unmarshal s ServiceHealth.zero = (h, none))
    (hops : ∀ op ∈ ops, op.isSetFor id = false ∧ op.isDeleteFor id = false)
    (hlt : t' < t + hcm.expireTime) :
    (((hcm.SetServiceHealth codec true t id (some h)).run codec ops).GetServiceHealth
        codec true t' id = { health := some h, spawned := [] }) ∧
    (((hcm.SetServiceHealth codec true t id (some h)).run codec ops).GetServiceHealth
        codec true t' id).found = true ∧
    (∀ (up₀ : Bool) (t₀ : Time) (h₀ : Option ServiceHealth),
      ((((hcm.SetServiceHealth codec up₀ t₀ id h₀).SetServiceHealth codec true t id
          (some h)).run codec ops).GetServiceHealth codec true t' id
        = { health := some h, spawned := [] })) := by
  have key : ∀ (m : HealthCacheManager), m.expireTime = hcm.expireTime →
      ((m.SetServiceHealth codec true t id (some h)).run codec ops).GetServiceHealth
        codec true t' id = { health := some h, spawned := [] } := by
    intro m hexp
    have he := set_entry m codec t id h s hm
    have hrun := run_keeps_entry codec id _ h hu ops _ he hops
    exact get_of_entry _ codec t' id _ h hrun (by simpa [hexp] using hlt) hu
  refine ⟨key hcm rfl, ?_, ?_⟩
  · rw [key hcm rfl]; rfl
  · intro up₀ t₀ h₀
    exact key _ (set_expireTime hcm codec up₀ t₀ id h₀)

/-- C1 at a concrete input: service 7, status "healthy", written at instant 0 and read at
instant 5 after a write and a deletion for service 8. -/
theorem set_then_get_returns_snapshot_witness :
    ((((sampleManager.SetServiceHealth statusCodec true 0 7 (some (sampleHealth "healthy"))).run
        statusCodec [CacheOp.set true 1 8 (some (sampleHealth "degraded")),
                     CacheOp.delete true 8]).GetServiceHealth statusCodec true 5 7
        = { health := some (sampleHealth "healthy"), spawned := [] })) ∧
    ((((sampleManager.SetServiceHealth statusCodec true 0 7 (some (sampleHealth "healthy"))).run
        statusCodec [CacheOp.set true 1 8 (some (sampleHealth "degraded")),
                     CacheOp.delete true 8]).GetServiceHealth statusCodec true 5 7).found
        = true) ∧
    (∀ (up₀ : Bool) (t₀ : Time) (h₀ : Option ServiceHealth),
      ((((sampleManager.SetServiceHealth statusCodec up₀ t₀ 7 h₀).SetServiceHealth statusCodec
          true 0 7 (some (sampleHealth "healthy"))).run statusCodec
          [CacheOp.set true 1 8 (some (sampleHealth "degraded")),
           CacheOp.delete true 8]).GetServiceHealth statusCodec true 5 7
        = { health := some (sampleHealth "healthy"), spawned := [] })) :=
  set_then_get_returns_snapshot sampleManager statusCodec 7 (sampleHealth "healthy") "healthy"
    0 5 [CacheOp.set true 1 8 (some (sampleHealth "degraded")), CacheOp.delete true 8]
    rfl rfl (by decide) (by decide)

/-- C2: when the live entry of a service holds a text that does not deserialize,
`GetServiceHealth` returns `(nil, false)` (no snapshot, filled in part or not, and the
result has no error component), it starts `DeleteServiceHealth` for that service, and once
that deletion has run against a backend that answers, the entry is absent: every later read
of the service is a plain miss. -/
theorem corrupted_entry_is_miss_and_deleted (hcm : HealthCacheManager) (codec : JSONCodec)
    (id : Int) (now : Time) (e : CacheEntry) (v : ServiceHealth) (err : String)
    (he : hcm.cacheClient.entries (generateCacheKey id) = some e) (hlive : now < e.deadline)
    (hbad : codec.Unmarshal e.value ServiceHealth.zero = (v, some err)) :
    (hcm.GetServiceHealth codec true now id).health = none ∧
    (hcm.GetServiceHealth codec true now id).found = false ∧
    (hcm.GetServiceHealth codec true now id).spawned = [id] ∧
    (hcm.runSpawned true (hcm.GetServiceHealth codec true now id).spawned).cacheClient.entries
      (generateCacheKey id) = none ∧
    (∀ (up : Bool) (t : Time),
      (hcm.runSpawned true (hcm.GetServiceHealth codec true now id).spawned).GetServiceHealth
        codec up t id = { health := none, spawned := [] }) := by
  have hget : hcm.GetServiceHealth codec true now id = { health := none, spawned := [id] } := by
    simp [HealthCacheManager.GetServiceHealth, CacheClient.Get, he, hlive, hbad]
  have hrun : hcm.runSpawned true [id] = hcm.DeleteServiceHealth true id := by
    simp [HealthCacheManager.runSpawned]
  rw [hget]
  refine ⟨rfl, rfl, rfl, ?_, ?_⟩
  · simpa [hrun] using delete_entry hcm id
  · intro up t
    simpa [hrun] using get_of_absent (hcm.DeleteServiceHealth true id) codec up t id
      (delete_entry hcm id)

/-- C2 at a concrete input: the entry of service 7 holds the empty text. -/
theorem corrupted_entry_is_miss_and_deleted_witness :
    (corruptedManager.GetServiceHealth statusCodec true 5 7).health = none ∧
    (corruptedManager.GetServiceHealth statusCodec true 5 7).found = false ∧
    (corruptedManager.GetServiceHealth statusCodec true 5 7).spawned = [7] ∧
    (corruptedManager.runSpawned true
      (corruptedManager.GetServiceHealth statusCodec true 5 7).spawned).cacheClient.entries
      (generateCacheKey 7) = none ∧
    (∀ (up : Bool) (t : Time),
      (corruptedManager.runSpawned true
        (corruptedManager.GetServiceHealth statusCodec true 5 7).spawned).GetServiceHealth
        statusCodec up t 7 = { health := none, spawned := [] }) :=
  corrupted_entry_is_miss_and_deleted corruptedManager statusCodec 7 5
    { value := "", deadline := 100 } ServiceHealth.zero "unexpected end of JSON input"
    (by simp [corruptedManager]) (by decide) rfl

/-- C3: an entry written by `SetServiceHealth` at instant `t` by a manager whose `expireTime`
is `d` is found at every instant before `t + d` and is not found at every instant after
`t + d` (no other call in between). -/
theorem ttl_bound (hcm : HealthCacheManager) (codec : JSONCodec) (id : Int)
    (h h' : ServiceHealth) (s : String) (t : Time)
    (hm : codec.Marshal h = .ok s)
    (hu : codec.Unmarshal s ServiceHealth.zero = (h', none)) :
    (∀ t' : Time, t' < t + hcm.expireTime →
      ((hcm.SetServiceHealth codec true t id (some h)).GetServiceHealth codec true t' id).found
        = true) ∧
    (∀ (t' : Time) (up : Bool), t + hcm.expireTime < t' →
      ((hcm.SetServiceHealth codec true t id (some h)).GetServiceHealth codec up t' id).found
        = false) := by
  have he := set_entry hcm codec t id h s hm
  constructor
  · intro t' hlt
    rw [get_of_entry _ codec t' id _ h' he hlt hu]
    rfl
  · intro t' up hgt
    rw [get_of_expired _ codec up t' id _ he (le_of_lt hgt)]
    rfl

/-- C3 at a concrete input: a manager built by `NewHealthCacheManager` with the default TTL
of one hour, service 7 written at instant 0. -/
theorem ttl_bound_witness :
    (∀ t' : Time, t' < 0 + sampleManager.expireTime →
      ((sampleManager.SetServiceHealth statusCodec true 0 7
        (some (sampleHealth "healthy"))).GetServiceHealth statusCodec true t' 7).found = true) ∧
    (∀ (t' : Time) (up : Bool), 0 + sampleManager.expireTime < t' →
      ((sampleManager.SetServiceHealth statusCodec true 0 7
        (some (sampleHealth "healthy"))).GetServiceHealth statusCodec up t' 7).found = false) :=
  ttl_bound sampleManager statusCodec 7 (sampleHealth "healthy") (sampleHealth "healthy")
    "healthy" 0 rfl rfl

/-- C4: after `DeleteServiceHealth(id)` has deleted (the backend answered), whatever was
stored for the service, `GetServiceHealth(id)` returns `(nil, false)` at every instant, and
it keeps doing so through every sequence of calls that has no `SetServiceHealth` for `id`. -/
theorem delete_then_get_is_miss (hcm : HealthCacheManager) (codec : JSONCodec) (id : Int)
    (ops : List CacheOp) (hops : ∀ op ∈ ops, op.isSetFor id = false) (up : Bool) (t : Time) :
    (((hcm.DeleteServiceHealth true id).run codec ops).GetServiceHealth codec up t id
      = { health := none, spawned := [] }) ∧
    (((hcm.DeleteServiceHealth true id).run codec ops).GetServiceHealth codec up t id).found
      = false := by
  have habs := run_keeps_absent codec id ops _ (delete_entry hcm id) hops
  have hget := get_of_absent _ codec up t id habs
  exact ⟨hget, by rw [hget]; rfl⟩

/-- C4 at a concrete input: service 7 is written, deleted, and read after a write for
service 8 and a read of service 7. -/
theorem delete_then_get_is_miss_witness :
    ((((sampleManager.SetServiceHealth statusCodec true 0 7
        (some (sampleHealth "healthy"))).DeleteServiceHealth true 7).run statusCodec
        [CacheOp.set true 1 8 (some (sampleHealth "degraded")),
         CacheOp.get true 2 7 true]).GetServiceHealth statusCodec true 3 7
      = { health := none, spawned := [] }) ∧
    ((((sampleManager.SetServiceHealth statusCodec true 0 7
        (some (sampleHealth "healthy"))).DeleteServiceHealth true 7).run statusCodec
        [CacheOp.set true 1 8 (some (sampleHealth "degraded")),
         CacheOp.get true 2 7 true]).GetServiceHealth statusCodec true 3 7).found = false :=
  delete_then_get_is_miss
    (sampleManager.SetServiceHealth statusCodec true 0 7 (some (sampleHealth "healthy")))
    statusCodec 7
    [CacheOp.set true 1 8 (some (sampleHealth "degraded")), CacheOp.get true 2 7 true]
    (by decide) true 3


/-! ## Health reads of the handlers -/

/-- C5: for a service id that parses and has a record, `GetMCPServiceHealth` always answers
with success: with the status, check time and details of the cached snapshot when the cache
reports found; otherwise with those of the snapshot of the service manager when it returns
one without error; otherwise with "unknown", no check time and no details. -/
theorem health_read_falls_back (idStr : String) (id : Int)
    (GetServiceByID : Int → Except String MCPService) (service : MCPService)
    (cacheManager : HealthCacheManager) (codec : JSONCodec) (up : Bool) (now : Time)
    (ManagerGetServiceHealth : Int → Option ServiceHealth × Option String)
    (hid : ParseInt idStr = .ok id) (hrec : GetServiceByID id = .ok service) :
    ((cacheManager.GetServiceHealth codec up now id).found = true →
      ∃ cached, (cacheManager.GetServiceHealth codec up now id).health = some cached ∧
        (GetMCPServiceHealth idStr GetServiceByID cacheManager codec up now
          ManagerGetServiceHealth).response =
        .success "" (some { service_id := service.ID, service_name := service.Name,
                            health_status := cached.Status,
                            last_checked := some cached.LastChecked,
                            health_details := some cached })) ∧
    ((cacheManager.GetServiceHealth codec up now id).found = false →
      ∀ memoryHealth, ManagerGetServiceHealth id = (some memoryHealth, none) →
        (GetMCPServiceHealth idStr GetServiceByID cacheManager codec up now
          ManagerGetServiceHealth).response =
        .success "" (some { service_id := service.ID, service_name := service.Name,
                            health_status := memoryHealth.Status,
                            last_checked := some memoryHealth.LastChecked,
                            health_details := some memoryHealth })) ∧
    ((cacheManager.GetServiceHealth codec up now id).found = false →
      (∀ memoryHealth, ManagerGetServiceHealth id ≠ (some memoryHealth, none)) →
        (GetMCPServiceHealth idStr GetServiceByID cacheManager codec up now
          ManagerGetServiceHealth).response =
        .success "" (some { service_id := service.ID, service_name := service.Name,
                            health_status := "unknown", last_checked := none,
                            health_details := none })) ∧
    (∃ data, (GetMCPServiceHealth idStr GetServiceByID cacheManager codec up now
          ManagerGetServiceHealth).response = .success "" (some data)) := by
  unfold GetMCPServiceHealth
  simp only [hid, hrec, GetHealthResult.found]
  cases hc : (cacheManager.GetServiceHealth codec up now id).health with
  | some cached => simp
  | none =>
    rcases hm : ManagerGetServiceHealth id with ⟨ptr, err⟩
    cases ptr with
    | none => simp
    | some m =>
      cases err with
      | none => simp
      | some e => simp

/-- C5 at a concrete input: service 7 has a record, the cache is empty and the service
manager holds a healthy snapshot. -/
theorem health_read_falls_back_witness :
    ((sampleManager.GetServiceHealth statusCodec true 0 7).found = true →
      ∃ cached, (sampleManager.GetServiceHealth statusCodec true 0 7).health = some cached ∧
        (GetMCPServiceHealth "7" sampleStore sampleManager statusCodec true 0
          sampleRegistry).response =
        .success "" (some { service_id := sampleService.ID, service_name := sampleService.Name,
                            health_status := cached.Status,
                            last_checked := some cached.LastChecked,
                            health_details := some cached })) ∧
    ((sampleManager.GetServiceHealth statusCodec true 0 7).found = false →
      ∀ memoryHealth, sampleRegistry 7 = (some memoryHealth, none) →
        (GetMCPServiceHealth "7" sampleStore sampleManager statusCodec true 0
          sampleRegistry).response =
        .success "" (some { service_id := sampleService.ID, service_name := sampleService.Name,
                            health_status := memoryHealth.Status,
                            last_checked := some memoryHealth.LastChecked,
                            health_details := some memoryHealth })) ∧
    ((sampleManager.GetServiceHealth statusCodec true 0 7).found = false →
      (∀ memoryHealth, sampleRegistry 7 ≠ (some memoryHealth, none)) →
        (GetMCPServiceHealth "7" sampleStore sampleManager statusCodec true 0
          sampleRegistry).response =
        .success "" (some { service_id := sampleService.ID, service_name := sampleService.Name,
                            health_status := "unknown", last_checked := none,
                            health_details := none })) ∧
    (∃ data, (GetMCPServiceHealth "7" sampleStore sampleManager statusCodec true 0
          sampleRegistry).response = .success "" (some data)) :=
  health_read_falls_back "7" 7 sampleStore sampleService sampleManager statusCodec true 0
    sampleRegistry rfl rfl

/-- The element of the list for one service, when the body of the loop does not panic: it
carries the record, the variables that the merge returned, and the cached status or
"unknown". -/
theorem installedServiceEntry_health (env : ListEnv) (cacheManager : HealthCacheManager)
    (codec : JSONCodec) (up : Bool) (now : Time) (userID : Int) (svc : MCPService)
    (entry : InstalledService × List Call)
    (hentry : installedServiceEntry env cacheManager codec up now userID svc = .ok entry) :
    entry.1.service = svc ∧
    finalEnvVarsFor env userID svc = .ok entry.1.env_vars ∧
    ((cacheManager.GetServiceHealth codec up now svc.ID).found = false →
      entry.1.health_status = "unknown" ∧ entry.1.last_health_check = none) ∧
    (∀ cached, (cacheManager.GetServiceHealth codec up now svc.ID).health = some cached →
      entry.1.health_status = cached.Status) := by
  unfold installedServiceEntry at hentry
  cases hm : finalEnvVarsFor env userID svc with
  | error message => rw [hm] at hentry; cases hentry
  | ok finalEnvVars =>
    rw [hm] at hentry
    simp only [GetHealthResult.found]
    cases hc : (cacheManager.GetServiceHealth codec up now svc.ID).health with
    | some cached =>
      simp only [hc, Except.ok.injEq] at hentry
      subst hentry
      simp
    | none =>
      simp only [hc, Except.ok.injEq] at hentry
      subst hentry
      simp [StatusUnknown]

/-- The body of the loop panics exactly when the environment merge does. -/
theorem installedServiceEntry_error (env : ListEnv) (cacheManager : HealthCacheManager)
    (codec : JSONCodec) (up : Bool) (now : Time) (userID : Int) (svc : MCPService)
    (message : String) :
    installedServiceEntry env cacheManager codec up now userID svc = .error message ↔
      finalEnvVarsFor env userID svc = .error message := by
  unfold installedServiceEntry
  cases hm : finalEnvVarsFor env userID svc with
  | error m => simp
  | ok finalEnvVars =>
    simp only [reduceCtorEq, iff_false]
    cases (cacheManager.GetServiceHealth codec up now svc.ID).health <;> simp

/-- The loop of `ListInstalledMCPServices`: either the environment merge of some service
panics and the handler ends with that panic, or the answer is a success whose list holds,
after the elements gathered before, one element for each service, in order. -/
theorem installedServicesLoop_cases (env : ListEnv) (cacheManager : HealthCacheManager)
    (codec : JSONCodec) (up : Bool) (now : Time) (userID : Int) :
    ∀ (services : List MCPService) (result : List InstalledService) (calls : List Call),
      (∃ svc ∈ services, ∃ message, finalEnvVarsFor env userID svc = .error message ∧
        (installedServicesLoop env cacheManager codec up now userID services result
          calls).response = .panicked message) ∨
      ∃ entries, List.Forall₂
          (fun svc entry =>
            installedServiceEntry env cacheManager codec up now userID svc = .ok entry)
          services entries ∧
        installedServicesLoop env cacheManager codec up now userID services result calls =
          ⟨.success "" (some (result ++ entries.map Prod.fst)),
            calls ++ (entries.map Prod.snd).flatten⟩ := by
  intro services
  induction services with
  | nil =>
    intro result calls
    exact Or.inr ⟨[], List.Forall₂.nil, by simp [installedServicesLoop]⟩
  | cons svc rest ih =>
    intro result calls
    cases he : installedServiceEntry env cacheManager codec up now userID svc with
    | error message =>
      refine Or.inl ⟨svc, List.mem_cons_self _ _, message,
        (installedServiceEntry_error env cacheManager codec up now userID svc message).mp he,
        ?_⟩
      simp only [installedServicesLoop, he]
    | ok entry =>
      have hstep : installedServicesLoop env cacheManager codec up now userID (svc :: rest)
          result calls =
          installedServicesLoop env cacheManager codec up now userID rest
            (result ++ [entry.1]) (calls ++ entry.2) := by
        simp only [installedServicesLoop, he]
      rcases ih (result ++ [entry.1]) (calls ++ entry.2) with hp | hok
      · obtain ⟨s, hs, message, hm, hr⟩ := hp
        exact Or.inl ⟨s, List.mem_cons_of_mem _ hs, message, hm, by rw [hstep]; exact hr⟩
      · obtain ⟨entries, hall, hr⟩ := hok
        refine Or.inr ⟨entry :: entries, List.Forall₂.cons he hall, ?_⟩
        rw [hstep, hr]
        simp

/-- Lists related element by element: a function that sends the right element to the left
one maps the right list to the left list. -/
theorem forall₂_map_right {α β : Type} (R : α → β → Prop) (f : β → α) :
    ∀ (l₁ : List α) (l₂ : List β), List.Forall₂ R l₁ l₂ → (∀ a b, R a b → f b = a) →
      l₂.map f = l₁ := by
  intro l₁ l₂ h hf
  induction h with
  | nil => rfl
  | cons hab _ ih => simp [hf _ _ hab, ih]

/-- Lists related element by element: every element of the right list is related to an
element of the left list. -/
theorem forall₂_mem_right {α β : Type} (R : α → β → Prop) :
    ∀ (l₁ : List α) (l₂ : List β), List.Forall₂ R l₁ l₂ → ∀ b ∈ l₂, ∃ a ∈ l₁, R a b := by
  intro l₁ l₂ h
  induction h with
  | nil => intro b hb; cases hb
  | cons hab _ ih =>
    intro b hb
    rcases List.mem_cons.mp hb with rfl | hb
    · exact ⟨_, List.mem_cons_self _ _, hab⟩
    · obtain ⟨a, ha, hr⟩ := ih b hb
      exact ⟨a, List.mem_cons_of_mem _ ha, hr⟩

/-- The answer of `ListInstalledMCPServices` once the installed services were read: the
panic of the environment merge of some service, or a success with one element for each
service, in order, each the element that the body of the loop gives for its service. -/
theorem listInstalled_cases (env : ListEnv) (cacheManager : HealthCacheManager)
    (codec : JSONCodec) (up : Bool) (now : Time) (ctxUserID : Option Int)
    (services : List MCPService) (hs : env.GetInstalledServices = .ok services) :
    (∃ svc ∈ services, ∃ message,
        finalEnvVarsFor env (ctxUserID.getD 0) svc = .error message ∧
        (ListInstalledMCPServices env cacheManager codec up now ctxUserID).response
          = .panicked message) ∨
    ∃ items, (ListInstalledMCPServices env cacheManager codec up now ctxUserID).response
        = .success "" (some items) ∧
      items.map (fun item => item.service) = services ∧
      ∀ item ∈ items, ∃ calls,
        installedServiceEntry env cacheManager codec up now (ctxUserID.getD 0) item.service
          = .ok (item, calls) := by
  have hloop : ListInstalledMCPServices env cacheManager codec up now ctxUserID =
      installedServicesLoop env cacheManager codec up now (ctxUserID.getD 0) services [] [] := by
    simp only [ListInstalledMCPServices, hs]
  rw [hloop]
  rcases installedServicesLoop_cases env cacheManager codec up now (ctxUserID.getD 0)
    services [] [] with hp | ⟨entries, hall, hr⟩
  · exact Or.inl hp
  · refine Or.inr ⟨entries.map Prod.fst, by rw [hr]; rfl, ?_, ?_⟩
    · rw [List.map_map]
      exact forall₂_map_right _ _ services entries hall (fun svc entry he =>
        (installedServiceEntry_health env cacheManager codec up now _ svc entry he).1)
    · intro item hitem
      obtain ⟨entry, hentry, rfl⟩ := List.mem_map.mp hitem
      obtain ⟨svc, _, he⟩ := forall₂_mem_right _ services entries hall entry hentry
      have hsvc := (installedServiceEntry_health env cacheManager codec up now _ svc entry
        he).1
      exact ⟨entry.2, by rw [hsvc]; exact he⟩

/-- C6, as the code has it: once the installed services were read, either the environment
merge of some service panics, which ends the handler before it reports a list, or
`ListInstalledMCPServices` answers with one element for each installed service, in order;
the element of a service whose health is not found in the cache has health status "unknown"
and no check time, and the element of a service whose health is found has the cached
status. The service manager is not consulted: it is not among the arguments of the
handler. -/
theorem list_reports_unknown_on_cache_miss (env : ListEnv) (cacheManager : HealthCacheManager)
    (codec : JSONCodec) (up : Bool) (now : Time) (ctxUserID : Option Int)
    (services : List MCPService) (hs : env.GetInstalledServices = .ok services) :
    (∃ svc ∈ services, ∃ message,
        finalEnvVarsFor env (ctxUserID.getD 0) svc = .error message ∧
        (ListInstalledMCPServices env cacheManager codec up now ctxUserID).response
          = .panicked message) ∨
    ∃ items, (ListInstalledMCPServices env cacheManager codec up now ctxUserID).response
        = .success "" (some items) ∧
      items.map (fun item => item.service) = services ∧
      ∀ item ∈ items,
        ((cacheManager.GetServiceHealth codec up now item.service.ID).found = false →
          item.health_status = "unknown" ∧ item.last_health_check = none) ∧
        (∀ cached,
          (cacheManager.GetServiceHealth codec up now item.service.ID).health = some cached →
          item.health_status = cached.Status) := by
  rcases listInstalled_cases env cacheManager codec up now ctxUserID services hs with
    hp | ⟨items, hr, hmap, hall⟩
  · exact Or.inl hp
  · refine Or.inr ⟨items, hr, hmap, ?_⟩
    intro item hitem
    obtain ⟨calls, he⟩ := hall item hitem
    exact (installedServiceEntry_health env cacheManager codec up now _ item.service
      (item, calls) he).2.2

/-- C6 at a concrete input: `sampleService` is the only installed service. -/
theorem list_reports_unknown_on_cache_miss_witness :
    ∃ items, (ListInstalledMCPServices sampleListEnv sampleManager statusCodec true 0
        none).response = .success "" (some items) ∧
      items.map (fun item => item.service) = [sampleService] ∧
      ∀ item ∈ items,
        ((sampleManager.GetServiceHealth statusCodec true 0 item.service.ID).found = false →
          item.health_status = "unknown" ∧ item.last_health_check = none) ∧
        (∀ cached,
          (sampleManager.GetServiceHealth statusCodec true 0 item.service.ID).health
            = some cached →
          item.health_status = cached.Status) :=
  (list_reports_unknown_on_cache_miss sampleListEnv sampleManager statusCodec true 0 none
    [sampleService] rfl).resolve_left (by
      rintro ⟨svc, hsvc, message, hm, -⟩
      rw [List.mem_singleton.mp hsvc] at hm
      cases hm)

/-- C6 fails as stated: service 7 is installed, its health is not in the cache, and the
service manager holds a healthy snapshot for it (which `GetMCPServiceHealth` reports); the
list does not report the status of that snapshot for service 7, it reports "unknown". -/
theorem list_ignores_registry_counterexample :
    (GetMCPServiceHealth "7" sampleStore sampleManager statusCodec true 0
      sampleRegistry).response =
      .success "" (some { service_id := 7, service_name := "left-pad",
                          health_status := "healthy", last_checked := some 0,
                          health_details := some (sampleHealth "healthy") }) ∧
    ¬ (∀ items, (ListInstalledMCPServices sampleListEnv sampleManager statusCodec true 0
          none).response = .success "" (some items) →
        ∀ item ∈ items,
          (sampleManager.GetServiceHealth statusCodec true 0 item.service.ID).found = false →
          ∀ memoryHealth, sampleRegistry item.service.ID = (some memoryHealth, none) →
            item.health_status = memoryHealth.Status) := by
  refine ⟨rfl, ?_⟩
  intro hclaim
  have h := hclaim
    [{ service := sampleService, env_vars := some [], user_daily_request_count := 0,
       remaining_requests := -1, health_status := "unknown", last_health_check := none,
       health_details := .missing "unknown" none "Health status not found in cache." }]
    rfl _ (List.mem_singleton.mpr rfl) rfl (sampleHealth "healthy") rfl
  exact absurd h (by decide)

/-! ## `UninstallService` -/

/-- The calls of `UninstallService` for a record that was found: the unregistration
block, the package uninstall block, then the update of the record. -/
theorem uninstall_calls (serviceID : Int) (im : InstallationManager)
    (GetServiceByID : Int → Except String MCPService)
    (UnregisterService : Int → Option String)
    (UninstallNPMPackage UninstallPyPIPackage : String → Option String)
    (UpdateService : MCPService → Option String) (service : MCPService)
    (hne : serviceID ≠ 0) (hrec : GetServiceByID serviceID = .ok service) :
    (UninstallService (.ok serviceID) im GetServiceByID UnregisterService
      UninstallNPMPackage UninstallPyPIPackage UpdateService).calls =
      unregisterCalls im service UnregisterService ++
        physicalUninstallCalls im service UninstallNPMPackage UninstallPyPIPackage ++
        [Call.UpdateService (markDeleted service)] := by
  unfold UninstallService
  simp only [hne, hrec, if_false]
  split <;> rfl

/-- The package uninstall block never calls `UnregisterService`, nor updates the record. -/
theorem physicalUninstallCalls_kind (im : InstallationManager) (service : MCPService)
    (UninstallNPMPackage UninstallPyPIPackage : String → Option String) :
    ∀ c ∈ physicalUninstallCalls im service UninstallNPMPackage UninstallPyPIPackage,
      c = Call.UninstallNPMPackage service.SourcePackageName ∨
      c = Call.UninstallPyPIPackage service.SourcePackageName := by
  intro c hc
  unfold physicalUninstallCalls at hc
  split_ifs at hc <;> simp_all

/-- C7, as the code has it: in every execution of `UninstallService` that reaches the
record, the record handed to the store is the one marked deleted, and it is the last call.
When the service is a stdio service with a source package that is not treated as pending or
installing, `UnregisterService` for its id is the first call, before that update; when the
service is treated as pending or installing, `UnregisterService` is not called at all. -/
theorem unregister_precedes_soft_delete (serviceID : Int) (im : InstallationManager)
    (GetServiceByID : Int → Except String MCPService)
    (UnregisterService : Int → Option String)
    (UninstallNPMPackage UninstallPyPIPackage : String → Option String)
    (UpdateService : MCPService → Option String) (service : MCPService)
    (hne : serviceID ≠ 0) (hrec : GetServiceByID serviceID = .ok service) :
    (markDeleted service).Deleted = true ∧
    (∃ before, (UninstallService (.ok serviceID) im GetServiceByID UnregisterService
        UninstallNPMPackage UninstallPyPIPackage UpdateService).calls =
        before ++ [Call.UpdateService (markDeleted service)] ∧
        ∀ u, Call.UpdateService u ∉ before) ∧
    (isPendingOrInstalling im service = false → service.Type_ = ServiceTypeStdio →
      service.SourcePackageName ≠ "" →
      ∃ between, (UninstallService (.ok serviceID) im GetServiceByID UnregisterService
        UninstallNPMPackage UninstallPyPIPackage UpdateService).calls =
        Call.UnregisterService service.ID ::
          (between ++ [Call.UpdateService (markDeleted service)])) ∧
    (isPendingOrInstalling im service = true →
      ∀ id, Call.UnregisterService id ∉
        (UninstallService (.ok serviceID) im GetServiceByID UnregisterService
          UninstallNPMPackage UninstallPyPIPackage UpdateService).calls) := by
  have hcalls := uninstall_calls serviceID im GetServiceByID UnregisterService
    UninstallNPMPackage UninstallPyPIPackage UpdateService service hne hrec
  have hkind := physicalUninstallCalls_kind im service UninstallNPMPackage UninstallPyPIPackage
  rw [hcalls]
  refine ⟨rfl, ⟨_, rfl, ?_⟩, ?_, ?_⟩
  · intro u hu
    rcases List.mem_append.mp hu with hu | hu
    · unfold unregisterCalls at hu
      split_ifs at hu <;> simp at hu
    · rcases hkind _ hu with h | h <;> simp at h
  · intro hp ht hs
    refine ⟨physicalUninstallCalls im service UninstallNPMPackage UninstallPyPIPackage, ?_⟩
    simp [unregisterCalls, hp, ht, hs]
  · intro hp id hmem
    rcases List.mem_append.mp hmem with hmem | hmem
    · rcases List.mem_append.mp hmem with hmem | hmem
      · simp [unregisterCalls, hp] at hmem
      · rcases hkind _ hmem with h | h <;> simp at h
    · simp at hmem

/-- C7, as the code has it, at a concrete input: the installed stdio record 7. -/
theorem unregister_precedes_soft_delete_witness :
    (markDeleted sampleService).Deleted = true ∧
    (∃ before, (UninstallService (.ok 7) InstallationManager.empty sampleStore
        (fun _ => none) (fun _ => none) (fun _ => none) (fun _ => none)).calls =
        before ++ [Call.UpdateService (markDeleted sampleService)] ∧
        ∀ u, Call.UpdateService u ∉ before) ∧
    (isPendingOrInstalling InstallationManager.empty sampleService = false →
      sampleService.Type_ = ServiceTypeStdio → sampleService.SourcePackageName ≠ "" →
      ∃ between, (UninstallService (.ok 7) InstallationManager.empty sampleStore
        (fun _ => none) (fun _ => none) (fun _ => none) (fun _ => none)).calls =
        Call.UnregisterService sampleService.ID ::
          (between ++ [Call.UpdateService (markDeleted sampleService)])) ∧
    (isPendingOrInstalling InstallationManager.empty sampleService = true →
      ∀ id, Call.UnregisterService id ∉
        (UninstallService (.ok 7) InstallationManager.empty sampleStore
          (fun _ => none) (fun _ => none) (fun _ => none) (fun _ => none)).calls) :=
  unregister_precedes_soft_delete 7 InstallationManager.empty sampleStore
    (fun _ => none) (fun _ => none) (fun _ => none) (fun _ => none) sampleService
    (by decide) rfl

/-- C7 fails as stated: the record 7 has no installed version and the manager holds no task
for it; `UninstallService` answers success and hands the record marked deleted to the store,
and `UnregisterService` was not called. -/
theorem soft_delete_without_unregister_counterexample :
    (UninstallService (.ok 7) InstallationManager.empty pendingStore
      (fun _ => none) (fun _ => none) (fun _ => none) (fun _ => none)) =
      { response := .success "service_uninstalled_successfully" none,
        calls := [Call.UpdateService (markDeleted pendingService)] } ∧
    (markDeleted pendingService).Deleted = true ∧
    Call.UnregisterService 7 ∉
      (UninstallService (.ok 7) InstallationManager.empty pendingStore
        (fun _ => none) (fun _ => none) (fun _ => none) (fun _ => none)).calls := by
  refine ⟨rfl, rfl, ?_⟩
  decide

/-! ## `GetInstallationStatus` -/

theorem status_text_vocabulary (st : InstallationStatus) :
    st.text ∈ ["pending", "installing", "completed", "failed"] := by
  cases st <;> simp [InstallationStatus.text]

/-- C8, as the code has it: every successful response of `GetInstallationStatus` is for a
service id that parsed; when the manager holds a task for it, the status is the one of the
task, one of pending, installing, completed, failed; when it holds none, the status is
derived from the record and is one of installing, completed, unknown, and it is "unknown"
exactly when `InstalledVersion` is empty. -/
theorem installation_status_values (paramID queryServiceID : String)
    (im : InstallationManager) (GetServiceByID : Int → Except String MCPService)
    (message : String) (data : InstallationStatusData)
    (h : (GetInstallationStatus paramID queryServiceID im GetServiceByID).response
      = .success message (some data)) :
    ∃ serviceID, ParseInt (if paramID = "" then queryServiceID else paramID) = .ok serviceID ∧
      ((∃ task, im.GetTaskStatus serviceID = some task ∧ data.status = task.Status.text ∧
          data.status ∈ ["pending", "installing", "completed", "failed"]) ∨
       (∃ service, im.GetTaskStatus serviceID = none ∧ GetServiceByID serviceID = .ok service ∧
          data.status ∈ ["installing", "completed", "unknown"] ∧
          (data.status = "unknown" ↔ service.InstalledVersion = ""))) := by
  unfold GetInstallationStatus at h
  simp only at h
  generalize (if paramID = "" then queryServiceID else paramID) = serviceIDStr at h ⊢
  by_cases hempty : serviceIDStr = ""
  · simp [hempty] at h
  simp only [hempty, if_false] at h
  cases hp : ParseInt serviceIDStr with
  | error e => simp [hp] at h
  | ok serviceID =>
    refine ⟨serviceID, rfl, ?_⟩
    simp only [hp] at h
    cases ht : im.GetTaskStatus serviceID with
    | some task =>
      simp only [ht, Response.success.injEq, Option.some.injEq] at h
      left
      refine ⟨task, rfl, ?_, ?_⟩
      · rw [← h.2]
      · rw [← h.2]; exact status_text_vocabulary task.Status
    | none =>
      simp only [ht] at h
      cases hs : GetServiceByID serviceID with
      | error e => simp [hs] at h
      | ok service =>
        simp only [hs, Response.success.injEq, Option.some.injEq] at h
        right
        refine ⟨service, rfl, rfl, ?_, ?_⟩
        · rw [← h.2]
          by_cases h1 : service.InstalledVersion = "installing"
          · simp [h1]
          · by_cases h2 : service.InstalledVersion = "" <;> simp [h1, h2]
        · rw [← h.2]
          by_cases h1 : service.InstalledVersion = "installing"
          · simp [h1]
          · by_cases h2 : service.InstalledVersion = "" <;> simp [h1, h2]

/-- C8, as the code has it, at a concrete input: the installed record 7, no task. -/
theorem installation_status_values_witness :
    ∃ serviceID, ParseInt (if "7" = "" then "" else "7") = .ok serviceID ∧
      ((∃ task, InstallationManager.empty.GetTaskStatus serviceID = some task ∧
          "completed" = task.Status.text ∧
          "completed" ∈ ["pending", "installing", "completed", "failed"]) ∨
       (∃ service, InstallationManager.empty.GetTaskStatus serviceID = none ∧
          sampleStore serviceID = .ok service ∧
          "completed" ∈ ["installing", "completed", "unknown"] ∧
          ("completed" = "unknown" ↔ service.InstalledVersion = ""))) :=
  installation_status_values "7" "" InstallationManager.empty sampleStore ""
    { service_id := 7, service_name := some "left-pad", package_name := none,
      status := "completed", start_time := none, end_time := none, duration := none,
      error := none } rfl

/-- C8 fails as stated: the record 7 has an empty `InstalledVersion` and the manager holds no
task for it; the response is a success whose status is "unknown", which is none of pending,
installing, completed, failed. -/
theorem installation_status_unknown_counterexample :
    (GetInstallationStatus "7" "" InstallationManager.empty pendingStore).response =
      .success "" (some { service_id := 7, service_name := some "left-pad",
                          package_name := none, status := "unknown", start_time := none,
                          end_time := none, duration := none, error := none }) ∧
    "unknown" ∉ ["pending", "installing", "completed", "failed"] := by
  refine ⟨rfl, ?_⟩
  decide

/-! ## `InstallOrAddService` -/

theorem findOrCreateConfigOption_calls (env : MarketEnv) (userID serviceID : Int)
    (displayName key : String) :
    ∀ c ∈ (findOrCreateConfigOption env serviceID displayName key).2,
      c.isInstanceConfigFor userID serviceID := by
  intro c hc
  have hnew : (Call.CreateConfigOption
      (newConfigOptionFor serviceID displayName key)).isInstanceConfigFor userID serviceID := by
    simp [Call.isInstanceConfigFor, newConfigOptionFor]
  unfold findOrCreateConfigOption at hc
  cases hget : env.GetConfigOptionByKey serviceID key with
  | ok configOption => simp [hget] at hc
  | error err =>
    simp only [hget] at hc
    by_cases hnf : err = env.ErrRecordNotFound ∨ err = "config_service_not_found"
        ∨ containsStr err "not found"
    · rw [if_pos hnf] at hc
      cases hcreate : env.CreateConfigOption (newConfigOptionFor serviceID displayName key) with
      | error e =>
        simp only [hcreate, List.mem_singleton] at hc
        rw [hc]; exact hnew
      | ok id =>
        simp only [hcreate, List.mem_singleton] at hc
        rw [hc]; exact hnew
    · rw [if_neg hnf] at hc
      simp at hc

theorem saveUserConfigs_calls (env : MarketEnv) (userID serviceID : Int) (displayName : String)
    (vars : StrMap) :
    ∀ c ∈ (saveUserConfigs env userID serviceID displayName vars).2,
      c.isInstanceConfigFor userID serviceID := by
  induction vars with
  | nil => intro c hc; simp [saveUserConfigs] at hc
  | cons kv rest ih =>
    obtain ⟨key, value⟩ := kv
    intro c hc
    have hfirst := findOrCreateConfigOption_calls env userID serviceID displayName key
    unfold saveUserConfigs at hc
    split at hc
    · rename_i e calls hfound
      rw [hfound] at hfirst
      exact hfirst c hc
    · rename_i configOption calls hfound
      rw [hfound] at hfirst
      have hsave : ∀ configID, (Call.SaveUserConfig
          ⟨userID, serviceID, configID, value⟩).isInstanceConfigFor userID serviceID := by
        intro configID
        simp [Call.isInstanceConfigFor]
      simp only at hc
      split at hc
      · rcases List.mem_append.mp hc with hc | hc
        · exact hfirst c hc
        · rw [List.mem_singleton.mp hc]; exact hsave _
      · rcases List.mem_append.mp hc with hc | hc
        · rcases List.mem_append.mp hc with hc | hc
          · exact hfirst c hc
          · rw [List.mem_singleton.mp hc]; exact hsave _
        · exact ih c hc

theorem addServiceInstanceForUser_calls (env : MarketEnv) (userID serviceID : Int)
    (vars : Option (List (String × JSONValue))) :
    ∀ c ∈ (addServiceInstanceForUser env userID serviceID vars).2,
      c.isInstanceConfigFor userID serviceID := by
  intro c hc
  unfold addServiceInstanceForUser at hc
  split_ifs at hc
  · simp at hc
  · split at hc
    · simp at hc
    · exact saveUserConfigs_calls env userID serviceID _ _ c hc

theorem existingInstanceOutcome_calls (mcpServiceID : Int)
    (added : Option String × List Call) :
    (existingInstanceOutcome mcpServiceID added).calls = added.2 := by
  obtain ⟨err, calls⟩ := added
  cases err <;> rfl

/-- The marketplace branch for a package whose record the lookup returns. -/
theorem installFromMarketplace_existing (env : MarketEnv) (im : InstallationManager)
    (now : Time) (requestBody : InstallRequestBody) (userID : Int) (vars : StrMap)
    (first : MCPService) (rest : List MCPService)
    (hfound : env.GetServicesByPackageDetails requestBody.PackageManager
      requestBody.PackageName = .ok (first :: rest)) :
    installFromMarketplace env im now requestBody userID vars =
      if requestBody.PackageManager = "npm" ∧ ¬ env.CheckNPXAvailable then
        (⟨.error 500 "npx_not_available", []⟩, im)
      else if (requestBody.PackageManager = "pypi" ∨ requestBody.PackageManager = "uv"
          ∨ requestBody.PackageManager = "pip") ∧ ¬ env.CheckUVXAvailable then
        (⟨.error 500 "uv_not_available", []⟩, im)
      else
        (existingInstanceOutcome first.ID
          (addServiceInstanceForUser env userID first.ID requestBody.UserProvidedEnvVars), im) := by
  unfold installFromMarketplace
  simp only [hfound, List.head?_cons]

/-- C9: for a marketplace request whose package the lookup by package manager and package
name finds, with `first` the first record found: every call `InstallOrAddService` makes
stores instance configuration of the user for the service `first.ID`; it calls neither
`CreateService` nor `SubmitTask` and leaves the Installation Manager as it was; and when
the request passes the guards before the lookup (a logged-in user, a package name and
manager, the package tool available), the handler does exactly what
`addServiceInstanceForUser` does for `first.ID` and answers with `first.ID` and the status
"already_installed_instance_added" (with the 500 error if storing the configuration
failed). -/
theorem existing_package_adds_instance_only (env : MarketEnv) (im : InstallationManager)
    (now : Time) (requestBody : InstallRequestBody) (userID : Int)
    (first : MCPService) (rest : List MCPService)
    (hsrc : requestBody.SourceType = "marketplace")
    (hfound : env.GetServicesByPackageDetails requestBody.PackageManager
      requestBody.PackageName = .ok (first :: rest)) :
    (∀ c ∈ (InstallOrAddService env im now (.ok requestBody) userID).1.calls,
      c.isInstanceConfigFor userID first.ID) ∧
    (∀ service, Call.CreateService service ∉
      (InstallOrAddService env im now (.ok requestBody) userID).1.calls) ∧
    (∀ task, Call.SubmitTask task ∉
      (InstallOrAddService env im now (.ok requestBody) userID).1.calls) ∧
    (InstallOrAddService env im now (.ok requestBody) userID).2 = im ∧
    (userID ≠ 0 → requestBody.PackageName ≠ "" → requestBody.PackageManager ≠ "" →
      (requestBody.PackageManager = "npm" → env.CheckNPXAvailable = true) →
      (requestBody.PackageManager = "pypi" ∨ requestBody.PackageManager = "uv"
        ∨ requestBody.PackageManager = "pip" → env.CheckUVXAvailable = true) →
      (InstallOrAddService env im now (.ok requestBody) userID).1 =
        existingInstanceOutcome first.ID
          (addServiceInstanceForUser env userID first.ID requestBody.UserProvidedEnvVars)) := by
  have hpre : "marketplace" ≠ "predefined" := by decide
  have hrun : InstallOrAddService env im now (.ok requestBody) userID =
      if userID = 0 then (⟨.error 401 "user_not_authenticated", []⟩, im)
      else if requestBody.PackageName = "" ∨ requestBody.PackageManager = "" then
        (⟨.error 400 "package_name_and_manager_required", []⟩, im)
      else if requestBody.PackageManager = "npm" ∧ ¬ env.CheckNPXAvailable then
        (⟨.error 500 "npx_not_available", []⟩, im)
      else if (requestBody.PackageManager = "pypi" ∨ requestBody.PackageManager = "uv"
          ∨ requestBody.PackageManager = "pip") ∧ ¬ env.CheckUVXAvailable then
        (⟨.error 500 "uv_not_available", []⟩, im)
      else
        (existingInstanceOutcome first.ID
          (addServiceInstanceForUser env userID first.ID requestBody.UserProvidedEnvVars), im) := by
    unfold InstallOrAddService
    simp only [hsrc, hpre, ne_eq, not_false_eq_true, and_true, if_false, if_true]
    rw [installFromMarketplace_existing env im now requestBody userID _ first rest hfound]
  have hall : ∀ c ∈ (InstallOrAddService env im now (.ok requestBody) userID).1.calls,
      c.isInstanceConfigFor userID first.ID := by
    intro c hc
    rw [hrun] at hc
    split_ifs at hc
    · simp at hc
    · simp at hc
    · simp at hc
    · simp at hc
    · rw [existingInstanceOutcome_calls] at hc
      exact addServiceInstanceForUser_calls env userID first.ID _ c hc
  refine ⟨hall, ?_, ?_, ?_, ?_⟩
  · intro service hmem
    exact hall _ hmem
  · intro task hmem
    exact hall _ hmem
  · rw [hrun]
    split_ifs <;> rfl
  · intro huser hname hmanager hnpx huvx
    rw [hrun]
    have h1 : ¬ (requestBody.PackageName = "" ∨ requestBody.PackageManager = "") := by
      rintro (h | h)
      · exact hname h
      · exact hmanager h
    have h2 : ¬ (requestBody.PackageManager = "npm" ∧ ¬ env.CheckNPXAvailable) :=
      fun h => h.2 (hnpx h.1)
    have h3 : ¬ ((requestBody.PackageManager = "pypi" ∨ requestBody.PackageManager = "uv"
        ∨ requestBody.PackageManager = "pip") ∧ ¬ env.CheckUVXAvailable) :=
      fun h => h.2 (huvx h.1)
    rw [if_neg huser, if_neg h1, if_neg h2, if_neg h3]

/-- C9 at a concrete input: a logged-in user asks for the npm package `left-pad`, which is
installed as service 7. -/
theorem existing_package_adds_instance_only_witness :
    (InstallOrAddService sampleMarketEnv InstallationManager.empty 0
      (.ok sampleInstallRequest) 1).1 =
      { response := .success "" (some { message := "service_instance_added_successfully",
                                        mcp_service_id := some 7, task_id := none,
                                        status := some "already_installed_instance_added",
                                        required_env_vars := none }),
        calls := [Call.CreateConfigOption (newConfigOptionFor 7 "left-pad" "API_KEY"),
                  Call.SaveUserConfig
                    { UserID := 1, ServiceID := 7, ConfigID := 31, Value := "k" }] } :=
  ((existing_package_adds_instance_only sampleMarketEnv InstallationManager.empty 0
    sampleInstallRequest 1 sampleService [] rfl rfl).2.2.2.2
    (by decide) (by decide) (by decide) (fun _ => rfl) (fun _ => rfl)).trans rfl

/-! ## The installation manager -/

theorem taskCount_map (tasks : List InstallationTask) (f : InstallationTask → InstallationTask)
    (hf : ∀ t, (f t).ServiceID = t.ServiceID) (id : Int) :
    (tasks.map f).countP (fun t => t.ServiceID == id) =
      tasks.countP (fun t => t.ServiceID == id) := by
  induction tasks with
  | nil => rfl
  | cons t ts ih => simp [List.countP_cons, hf t, ih]

theorem taskCount_startTask (im : InstallationManager) (serviceID id : Int) :
    (im.startTask serviceID).taskCount id = im.taskCount id := by
  unfold InstallationManager.startTask InstallationManager.taskCount
  apply taskCount_map
  intro t
  split <;> rfl

theorem taskCount_finishTask (im : InstallationManager) (now : Time) (serviceID : Int)
    (err : Option String) (id : Int) :
    (im.finishTask now serviceID err).taskCount id = im.taskCount id := by
  unfold InstallationManager.finishTask InstallationManager.taskCount
  apply taskCount_map
  intro t
  split
  · cases err <;> rfl
  · rfl

theorem taskCount_of_not_found (im : InstallationManager) (id : Int)
    (h : im.GetTaskStatus id = none) : im.taskCount id = 0 := by
  unfold InstallationManager.GetTaskStatus at h
  unfold InstallationManager.taskCount
  rw [List.countP_eq_zero]
  intro t ht
  exact List.find?_eq_none.mp h t ht

theorem taskCount_pos_of_found (im : InstallationManager) (id : Int) (t : InstallationTask)
    (h : im.GetTaskStatus id = some t) : 0 < im.taskCount id := by
  unfold InstallationManager.GetTaskStatus at h
  unfold InstallationManager.taskCount
  have hp : (t.ServiceID == id) = true :=
    @List.find?_some _ (fun u : InstallationTask => u.ServiceID == id) t im.tasks h
  rw [List.countP_pos_iff]
  exact ⟨t, List.mem_of_find?_eq_some h, hp⟩

theorem taskCount_submit_le (im : InstallationManager) (now : Time)
    (req : InstallationRequest) (id : Int) (h : im.taskCount id ≤ 1) :
    (im.SubmitTask now req).1.taskCount id ≤ 1 := by
  unfold InstallationManager.SubmitTask
  simp only
  cases hfound : im.GetTaskStatus req.ServiceID with
  | none =>
    simp only [InstallationManager.taskCount, List.countP_cons]
    by_cases hid : req.ServiceID = id
    · have h0 := taskCount_of_not_found im req.ServiceID hfound
      rw [hid] at h0
      simp only [InstallationManager.taskCount] at h0
      simp [hid, h0]
    · simp only [InstallationManager.taskCount] at h
      simp [hid, h]
  | some t =>
    simp only
    split
    · simp only [InstallationManager.taskCount, List.countP_cons, List.countP_filter]
      by_cases hid : req.ServiceID = id
      · have h0 : List.countP (fun u : InstallationTask =>
            (u.ServiceID == id && u.ServiceID != req.ServiceID)) im.tasks = 0 := by
          rw [List.countP_eq_zero]
          intro u _
          simp [hid]
        simp [hid, h0]
      · have hle : List.countP (fun u : InstallationTask =>
            (u.ServiceID == id && u.ServiceID != req.ServiceID)) im.tasks ≤
            List.countP (fun u : InstallationTask => u.ServiceID == id) im.tasks := by
          apply List.countP_mono_left
          intro u _ hu
          simp only [Bool.and_eq_true] at hu
          exact hu.1
        simp only [InstallationManager.taskCount] at h
        simp only [beq_iff_eq, hid, if_false, Nat.add_zero]
        exact le_trans hle h
    · exact h

/-- The invariant of the manager: at most one task for each service id. -/
theorem reachable_taskCount_le_one (im : InstallationManager) (hr : im.Reachable) (id : Int) :
    im.taskCount id ≤ 1 := by
  induction hr with
  | empty => simp [InstallationManager.taskCount, InstallationManager.empty]
  | submit im now req _ ih => exact taskCount_submit_le im now req id ih
  | start im serviceID _ ih => rw [taskCount_startTask]; exact ih
  | finish im now serviceID err _ ih => rw [taskCount_finishTask]; exact ih

/-- C10: in a manager a process can hold, a submission for a service id that has a pending
or installing task is rejected and changes nothing: afterwards `GetTaskStatus` still resolves
the first task for that id, and it is the only task for that id. -/
theorem second_submission_rejected (im : InstallationManager) (hr : im.Reachable)
    (now : Time) (req : InstallationRequest) (t : InstallationTask)
    (hfound : im.GetTaskStatus req.ServiceID = some t)
    (hactive : t.Status = StatusPending ∨ t.Status = StatusInstalling) :
    (im.SubmitTask now req).2.isSome = true ∧
    (im.SubmitTask now req).1 = im ∧
    (im.SubmitTask now req).1.GetTaskStatus req.ServiceID = some t ∧
    (im.SubmitTask now req).1.taskCount req.ServiceID = 1 := by
  have hnt : t.Status.isTerminal = false := by
    rcases hactive with h | h <;> rw [h] <;> rfl
  have hsub : im.SubmitTask now req = (im, some "installation task already in progress") := by
    unfold InstallationManager.SubmitTask
    simp [hfound, hnt]
  rw [hsub]
  refine ⟨rfl, rfl, hfound, ?_⟩
  have h1 := reachable_taskCount_le_one im hr req.ServiceID
  have h2 := taskCount_pos_of_found im req.ServiceID t hfound
  show im.taskCount req.ServiceID = 1
  omega

/-- C10 at a concrete input: a second submission for service 7 while its task is pending. -/
theorem second_submission_rejected_witness :
    (busyManager.SubmitTask 5
      { ServiceID := 7, UserID := 2, PackageName := "left-pad", PackageManager := "npm",
        Version := "1.4.0", EnvVars := [] }).2.isSome = true ∧
    (busyManager.SubmitTask 5
      { ServiceID := 7, UserID := 2, PackageName := "left-pad", PackageManager := "npm",
        Version := "1.4.0", EnvVars := [] }).1 = busyManager ∧
    (busyManager.SubmitTask 5
      { ServiceID := 7, UserID := 2, PackageName := "left-pad", PackageManager := "npm",
        Version := "1.4.0", EnvVars := [] }).1.GetTaskStatus 7 =
      some { ServiceID := 7, UserID := 1, PackageName := "left-pad", PackageManager := "npm",
             Version := "1.3.0", EnvVars := [], Status := StatusPending, StartTime := 0,
             EndTime := 0, Error := "" } ∧
    (busyManager.SubmitTask 5
      { ServiceID := 7, UserID := 2, PackageName := "left-pad", PackageManager := "npm",
        Version := "1.4.0", EnvVars := [] }).1.taskCount 7 = 1 :=
  second_submission_rejected busyManager
    (InstallationManager.Reachable.submit _ _ _ InstallationManager.Reachable.empty) 5
    { ServiceID := 7, UserID := 2, PackageName := "left-pad", PackageManager := "npm",
      Version := "1.4.0", EnvVars := [] }
    { ServiceID := 7, UserID := 1, PackageName := "left-pad", PackageManager := "npm",
      Version := "1.3.0", EnvVars := [], Status := StatusPending, StartTime := 0,
      EndTime := 0, Error := "" }
    rfl (Or.inl rfl)

/-! ## Required environment variables of `InstallOrAddService` -/

theorem mapGet_mapSet_self {κ ν : Type} [DecidableEq κ] (m : List (κ × ν)) (k : κ) (v : ν) :
    mapGet (mapSet m k v) k = some v := by
  induction m with
  | nil => simp [mapSet, mapGet]
  | cons kv m ih =>
    obtain ⟨k', v'⟩ := kv
    by_cases h : k' = k
    · simp [mapSet, mapGet, h]
    · simp [mapSet, mapGet, h, ih]

theorem mapGet_mapSet_other {κ ν : Type} [DecidableEq κ] (m : List (κ × ν)) (k k' : κ) (v : ν)
    (hne : k ≠ k') : mapGet (mapSet m k v) k' = mapGet m k' := by
  induction m with
  | nil => simp [mapSet, mapGet, hne]
  | cons kv m ih =>
    obtain ⟨k₀, v₀⟩ := kv
    by_cases h : k₀ = k
    · subst h
      simp [mapSet, mapGet, hne]
    · by_cases h' : k₀ = k'
      · subst h'
        simp [mapSet, mapGet, h]
      · simp [mapSet, mapGet, h, h', ih]

/-- The loop that collects the missing names is a filter of the required names. -/
theorem collectMissingEnvVars_eq_filter (requiredEnvVars : List String)
    (envVarsForTask : StrMap) :
    collectMissingEnvVars requiredEnvVars envVarsForTask =
      requiredEnvVars.filter (fun e => decide (e ≠ "") && (mapGet envVarsForTask e).isNone) := by
  have key : ∀ (l acc : List String),
      l.foldl (fun missingEnvVars e =>
        if e = "" then missingEnvVars
        else if (mapGet envVarsForTask e).isSome then missingEnvVars
        else missingEnvVars ++ [e]) acc =
      acc ++ l.filter (fun e => decide (e ≠ "") && (mapGet envVarsForTask e).isNone) := by
    intro l
    induction l with
    | nil => intro acc; simp
    | cons e l ih =>
      intro acc
      rw [List.foldl_cons, ih]
      by_cases he : e = ""
      · simp [he]
      · cases hg : mapGet envVarsForTask e with
        | none => simp [he, hg]
        | some v => simp [he, hg]
  simpa [collectMissingEnvVars] using key requiredEnvVars []

/-- The keys of the converted map are the keys that the request gives a string for. -/
theorem convertEnvVarsMap_keys (input : Option (List (String × JSONValue))) (k : String) :
    (mapGet (convertEnvVarsMap input) k).isSome ↔
      ∃ s, (k, JSONValue.str s) ∈ input.getD [] := by
  have key : ∀ (l : List (String × JSONValue)) (acc : StrMap),
      (mapGet (l.foldl (fun output kv =>
        match kv.2 with
        | .str strValue => mapSet output kv.1 strValue
        | _ => output) acc) k).isSome ↔
      ((mapGet acc k).isSome ∨ ∃ s, (k, JSONValue.str s) ∈ l) := by
    intro l
    induction l with
    | nil => intro acc; simp
    | cons kv l ih =>
      intro acc
      obtain ⟨k', v⟩ := kv
      rw [List.foldl_cons, ih]
      cases v with
      | str s =>
        by_cases hk : k' = k
        · subst hk
          simp [mapGet_mapSet_self]
        · simp only [mapGet_mapSet_other acc k' k s hk, List.mem_cons, Prod.mk.injEq]
          constructor
          · rintro (h | ⟨s', h⟩)
            · exact Or.inl h
            · exact Or.inr ⟨s', Or.inr h⟩
          · rintro (h | ⟨s', h | h⟩)
            · exact Or.inl h
            · exact absurd h.1.symm hk
            · exact Or.inr ⟨s', h⟩
      | num n => simp
      | bool b => simp
      | null => simp
  cases input with
  | none => simp [convertEnvVarsMap, mapGet]
  | some l =>
    have := key l []
    simpa [convertEnvVarsMap, mapGet] using this

/-- A marketplace request of a logged-in user that names a package and a manager runs the
marketplace branch. -/
theorem installOrAdd_marketplace (env : MarketEnv) (im : InstallationManager) (now : Time)
    (requestBody : InstallRequestBody) (userID : Int)
    (hsrc : requestBody.SourceType = "marketplace") (huser : userID ≠ 0)
    (hname : requestBody.PackageName ≠ "") (hmanager : requestBody.PackageManager ≠ "") :
    InstallOrAddService env im now (.ok requestBody) userID =
      installFromMarketplace env im now requestBody userID
        (convertEnvVarsMap requestBody.UserProvidedEnvVars) := by
  have hpre : "marketplace" ≠ "predefined" := by decide
  unfold InstallOrAddService
  simp [hsrc, hpre, huser, hname, hmanager]

/-- The marketplace branch for a package that the lookup does not find, when the package
tool is available: the answer that lists the missing variables, or the creation path. -/
theorem installFromMarketplace_new (env : MarketEnv) (im : InstallationManager)
    (now : Time) (requestBody : InstallRequestBody) (userID : Int) (vars : StrMap)
    (hnpx : requestBody.PackageManager = "npm" → env.CheckNPXAvailable = true)
    (huvx : requestBody.PackageManager = "pypi" ∨ requestBody.PackageManager = "uv"
      ∨ requestBody.PackageManager = "pip" → env.CheckUVXAvailable = true)
    (hnew : ∀ first rest, env.GetServicesByPackageDetails requestBody.PackageManager
      requestBody.PackageName ≠ .ok (first :: rest)) :
    (collectMissingEnvVars (discoverRequiredEnvVars env requestBody.PackageManager
        requestBody.PackageName) vars ≠ [] →
      installFromMarketplace env im now requestBody userID vars =
        (⟨.success ("缺少必需环境变量: " ++ ", ".intercalate
            (collectMissingEnvVars (discoverRequiredEnvVars env requestBody.PackageManager
              requestBody.PackageName) vars))
          (some { message := "", mcp_service_id := none, task_id := none, status := none,
                  required_env_vars := some (collectMissingEnvVars (discoverRequiredEnvVars
                    env requestBody.PackageManager requestBody.PackageName) vars) }), []⟩,
         im)) ∧
    (collectMissingEnvVars (discoverRequiredEnvVars env requestBody.PackageManager
        requestBody.PackageName) vars = [] →
      (requestBody.Headers = [] →
        (installFromMarketplace env im now requestBody userID vars).1.calls.head? =
          some (Call.CreateService (buildNewService env requestBody userID vars))) ∧
      (∀ headersJSON, requestBody.Headers ≠ [] →
        env.MarshalStrMap requestBody.Headers = .ok headersJSON →
        (installFromMarketplace env im now requestBody userID vars).1.calls.head? =
          some (Call.CreateService
            { buildNewService env requestBody userID vars with
              HeadersJSON := headersJSON }))) := by
  have h2 : ¬ (requestBody.PackageManager = "npm" ∧ ¬ env.CheckNPXAvailable) :=
    fun h => h.2 (hnpx h.1)
  have h3 : ¬ ((requestBody.PackageManager = "pypi" ∨ requestBody.PackageManager = "uv"
      ∨ requestBody.PackageManager = "pip") ∧ ¬ env.CheckUVXAvailable) :=
    fun h => h.2 (huvx h.1)
  have hexisting : (match env.GetServicesByPackageDetails requestBody.PackageManager
        requestBody.PackageName with
      | .ok existingServices => existingServices.head?
      | .error _ => none) = none := by
    cases hl : env.GetServicesByPackageDetails requestBody.PackageManager
        requestBody.PackageName with
    | error e => rfl
    | ok l =>
      cases l with
      | nil => rfl
      | cons first rest => exact absurd hl (hnew first rest)
  unfold installFromMarketplace
  rw [if_neg h2, if_neg h3]
  simp only [hexisting]
  refine ⟨?_, ?_⟩
  · intro hmiss
    have hlen : (collectMissingEnvVars (discoverRequiredEnvVars env
        requestBody.PackageManager requestBody.PackageName) vars).length > 0 :=
      List.length_pos.mpr hmiss
    rw [if_pos hlen]
  · intro hnone
    rw [hnone]
    simp only [List.length_nil, gt_iff_lt, lt_self_iff_false, if_false]
    refine ⟨?_, ?_⟩
    · intro hh
      simp only [hh, List.length_nil, lt_self_iff_false, if_false]
      split <;> rfl
    · intro headersJSON hh hj
      have hlen : requestBody.Headers.length > 0 := List.length_pos.mpr hh
      simp only [gt_iff_lt] at hlen
      simp only [hlen, if_true, hj]
      split <;> rfl

/-- C11: for a marketplace request that reaches the check (a logged-in user, a package name
and manager, the package tool available, no record found for the package): the keys of the
converted map are the keys given with a string value; when some non-empty required name is
not such a key, the handler makes no call at all (no record is created, no task is
submitted, the manager is unchanged) and `required_env_vars` is the list of the missing
names in the order of discovery; when none is missing, the first call of the handler is
`CreateService` for the new record (with the headers when the request has some and they
serialize). -/
theorem required_env_vars_gate (env : MarketEnv) (im : InstallationManager) (now : Time)
    (requestBody : InstallRequestBody) (userID : Int)
    (hsrc : requestBody.SourceType = "marketplace") (huser : userID ≠ 0)
    (hname : requestBody.PackageName ≠ "") (hmanager : requestBody.PackageManager ≠ "")
    (hnpx : requestBody.PackageManager = "npm" → env.CheckNPXAvailable = true)
    (huvx : requestBody.PackageManager = "pypi" ∨ requestBody.PackageManager = "uv"
      ∨ requestBody.PackageManager = "pip" → env.CheckUVXAvailable = true)
    (hnew : ∀ first rest, env.GetServicesByPackageDetails requestBody.PackageManager
      requestBody.PackageName ≠ .ok (first :: rest)) :
    (∀ k, (mapGet (convertEnvVarsMap requestBody.UserProvidedEnvVars) k).isSome ↔
      ∃ s, (k, JSONValue.str s) ∈ requestBody.UserProvidedEnvVars.getD []) ∧
    (missingRequiredEnvVars (discoverRequiredEnvVars env requestBody.PackageManager
        requestBody.PackageName) (convertEnvVarsMap requestBody.UserProvidedEnvVars) ≠ [] →
      InstallOrAddService env im now (.ok requestBody) userID =
        (⟨.success ("缺少必需环境变量: " ++ ", ".intercalate
            (missingRequiredEnvVars (discoverRequiredEnvVars env requestBody.PackageManager
              requestBody.PackageName) (convertEnvVarsMap requestBody.UserProvidedEnvVars)))
          (some { message := "", mcp_service_id := none, task_id := none, status := none,
                  required_env_vars := some (missingRequiredEnvVars
                    (discoverRequiredEnvVars env requestBody.PackageManager
                      requestBody.PackageName)
                    (convertEnvVarsMap requestBody.UserProvidedEnvVars)) }), []⟩, im)) ∧
    (missingRequiredEnvVars (discoverRequiredEnvVars env requestBody.PackageManager
        requestBody.PackageName) (convertEnvVarsMap requestBody.UserProvidedEnvVars) = [] →
      (requestBody.Headers = [] →
        (InstallOrAddService env im now (.ok requestBody) userID).1.calls.head? =
          some (Call.CreateService (buildNewService env requestBody userID
            (convertEnvVarsMap requestBody.UserProvidedEnvVars)))) ∧
      (∀ headersJSON, requestBody.Headers ≠ [] →
        env.MarshalStrMap requestBody.Headers = .ok headersJSON →
        (InstallOrAddService env im now (.ok requestBody) userID).1.calls.head? =
          some (Call.CreateService
            { buildNewService env requestBody userID
                (convertEnvVarsMap requestBody.UserProvidedEnvVars) with
              HeadersJSON := headersJSON }))) := by
  have hrun := installOrAdd_marketplace env im now requestBody userID hsrc huser hname hmanager
  have hbranch := installFromMarketplace_new env im now requestBody userID
    (convertEnvVarsMap requestBody.UserProvidedEnvVars) hnpx huvx hnew
  rw [collectMissingEnvVars_eq_filter] at hbranch
  rw [hrun]
  exact ⟨convertEnvVarsMap_keys requestBody.UserProvidedEnvVars, hbranch.1, hbranch.2⟩

/-- C11 at a concrete input: `mcp-search` asks for `API_KEY`, an empty name and `REGION`;
the request gives `API_KEY` as a string and `REGION` as a number, so `REGION` is missing. -/
theorem required_env_vars_gate_witness :
    InstallOrAddService gatedMarketEnv InstallationManager.empty 0
        (.ok gatedInstallRequest) 1 =
      (⟨.success "缺少必需环境变量: REGION"
          (some { message := "", mcp_service_id := none, task_id := none, status := none,
                  required_env_vars := some ["REGION"] }), []⟩,
       InstallationManager.empty) :=
  ((required_env_vars_gate gatedMarketEnv InstallationManager.empty 0 gatedInstallRequest 1
    rfl (by decide) (by decide) (by decide) (fun _ => rfl) (fun _ => rfl)
    (fun _ _ h => by cases h)).2.1 (by decide)).trans rfl

/-! ## `validateRequiredEnvVarsJSON`, `CreateMCPService`, `UpdateMCPService` -/

theorem checkEnvVarNames_eq_none (envVars : List EnvVarDefinition) :
    checkEnvVarNames envVars = none ↔ ∀ d ∈ envVars, d.Name ≠ "" := by
  induction envVars with
  | nil => simp [checkEnvVarNames]
  | cons d rest ih =>
    by_cases hd : d.Name = ""
    · simp [checkEnvVarNames, hd]
    · simp [checkEnvVarNames, hd, ih]

theorem checkEnvVarNames_error (envVars : List EnvVarDefinition) (err : String)
    (h : checkEnvVarNames envVars = some err) :
    err = "missing name field in env var definition" := by
  induction envVars with
  | nil => simp [checkEnvVarNames] at h
  | cons d rest ih =>
    by_cases hd : d.Name = ""
    · simp [checkEnvVarNames, hd] at h
      exact h.symm
    · simp only [checkEnvVarNames, hd, if_false] at h
      exact ih h

/-- C13: `validateRequiredEnvVarsJSON` returns `nil` exactly when its input is the empty
text or decodes as a list of definitions that all have a non-empty name; on a text that
does not decode it returns the error of the decoder, and on a list with an element whose
name is empty it returns the error "missing name field in env var definition". -/
theorem validateRequiredEnvVarsJSON_nil_iff
    (Unmarshal : String → Except String (List EnvVarDefinition)) (envVarsJSON : String) :
    (validateRequiredEnvVarsJSON Unmarshal envVarsJSON = none ↔
      (envVarsJSON = "" ∨
        ∃ envVars, Unmarshal envVarsJSON = .ok envVars ∧ ∀ d ∈ envVars, d.Name ≠ "")) ∧
    (∀ err, envVarsJSON ≠ "" → Unmarshal envVarsJSON = .error err →
      validateRequiredEnvVarsJSON Unmarshal envVarsJSON = some err) ∧
    (∀ envVars, envVarsJSON ≠ "" → Unmarshal envVarsJSON = .ok envVars →
      (∃ d ∈ envVars, d.Name = "") →
      validateRequiredEnvVarsJSON Unmarshal envVarsJSON =
        some "missing name field in env var definition") := by
  refine ⟨?_, ?_, ?_⟩
  · unfold validateRequiredEnvVarsJSON
    by_cases he : envVarsJSON = ""
    · simp [he]
    · simp only [he, if_false, false_or]
      cases hu : Unmarshal envVarsJSON with
      | error err => simp
      | ok envVars => simp [checkEnvVarNames_eq_none]
  · intro err he hu
    simp [validateRequiredEnvVarsJSON, he, hu]
  · intro envVars he hu hbad
    simp only [validateRequiredEnvVarsJSON, he, if_false, hu]
    cases hc : checkEnvVarNames envVars with
    | none =>
      obtain ⟨d, hd, hname⟩ := hbad
      exact absurd hname ((checkEnvVarNames_eq_none envVars).mp hc d hd)
    | some err => rw [checkEnvVarNames_error envVars err hc]

/-- C13 at concrete inputs: a text that does not decode, and a list whose second
definition has no name. -/
theorem validateRequiredEnvVarsJSON_nil_iff_witness :
    validateRequiredEnvVarsJSON sampleUnmarshalDefinitions "oops" = some "invalid character" ∧
    validateRequiredEnvVarsJSON sampleUnmarshalDefinitions "[unnamed]" =
      some "missing name field in env var definition" ∧
    validateRequiredEnvVarsJSON sampleUnmarshalDefinitions "[named]" = none :=
  ⟨(validateRequiredEnvVarsJSON_nil_iff sampleUnmarshalDefinitions "oops").2.1
      "invalid character" (by decide) rfl,
   (validateRequiredEnvVarsJSON_nil_iff sampleUnmarshalDefinitions "[unnamed]").2.2
      [{ Name := "API_KEY", Description := "", IsSecret := true, Optional := false },
       { Name := "", Description := "", IsSecret := false, Optional := false }]
      (by decide) rfl ⟨_, List.mem_cons_of_mem _ (List.mem_singleton.mpr rfl), rfl⟩,
   (validateRequiredEnvVarsJSON_nil_iff sampleUnmarshalDefinitions "[named]").1.mpr
      (Or.inr ⟨_, rfl, by decide⟩)⟩

/-- The validation block passes exactly when every check of the handler holds. -/
theorem validationError_eq_none (env : ServiceEnv) (service : MCPService) :
    validationError env service = none ↔
      (service.Name ≠ "" ∧ service.DisplayName ≠ "" ∧
       isValidServiceType service.Type_ = true ∧
       (service.RequiredEnvVarsJSON ≠ "" →
         validateRequiredEnvVarsJSON env.UnmarshalEnvVarDefinitions
           service.RequiredEnvVarsJSON = none) ∧
       (service.Type_ = ServiceTypeStdio → service.PackageManager ≠ "" →
         service.SourcePackageName ≠ "")) := by
  unfold validationError
  by_cases h1 : service.Name = "" ∨ service.DisplayName = ""
  · rw [if_pos h1]
    simp only [reduceCtorEq, false_iff]
    rintro ⟨hn, hd, -⟩
    rcases h1 with h | h
    · exact hn h
    · exact hd h
  · rw [if_neg h1]
    have hn : service.Name ≠ "" := fun h => h1 (Or.inl h)
    have hd : service.DisplayName ≠ "" := fun h => h1 (Or.inr h)
    cases hv : isValidServiceType service.Type_ with
    | false => simp
    | true =>
      simp only [Bool.not_true, Bool.false_eq_true, if_false, hn, hd, ne_eq,
        not_false_eq_true, true_and]
      by_cases h3 : service.RequiredEnvVarsJSON ≠ "" ∧
          (validateRequiredEnvVarsJSON env.UnmarshalEnvVarDefinitions
            service.RequiredEnvVarsJSON).isSome
      · rw [if_pos h3]
        simp only [reduceCtorEq, false_iff]
        rintro ⟨hreq, -⟩
        have := hreq h3.1
        rw [this] at h3
        simp at h3
      · rw [if_neg h3]
        have hreq : service.RequiredEnvVarsJSON ≠ "" →
            validateRequiredEnvVarsJSON env.UnmarshalEnvVarDefinitions
              service.RequiredEnvVarsJSON = none := by
          intro hne
          cases hval : validateRequiredEnvVarsJSON env.UnmarshalEnvVarDefinitions
              service.RequiredEnvVarsJSON with
          | none => rfl
          | some e => exact absurd ⟨hne, by simp [hval]⟩ h3
        by_cases h4 : service.Type_ = ServiceTypeStdio ∧ service.PackageManager ≠ "" ∧
            service.SourcePackageName = ""
        · rw [if_pos h4]
          simp only [reduceCtorEq, false_iff]
          rintro ⟨-, hpkg⟩
          exact hpkg h4.1 h4.2.1 h4.2.2
        · rw [if_neg h4]
          simp only [true_iff]
          exact ⟨hreq, fun ht hp hs => h4 ⟨ht, hp, hs⟩⟩

/-- C12: `CreateMCPService` hands a record to the store only for a bound record that has a
name and a display name, a valid type, required variables that validate when given, and a
source package when it is a stdio service with a package manager; when one of these fails
the answer is a 400 and no call is made. -/
theorem create_service_validation (env : ServiceEnv) (body : Except String MCPService) :
    (∀ persisted, Call.CreateService persisted ∈ (CreateMCPService env body).calls →
      ∃ service, body = .ok service ∧
        persisted = setCommandFromPackageManager service ∧
        service.Name ≠ "" ∧ service.DisplayName ≠ "" ∧
        (service.Type_ = ServiceTypeStdio ∨ service.Type_ = ServiceTypeSSE ∨
          service.Type_ = ServiceTypeStreamableHTTP) ∧
        (service.RequiredEnvVarsJSON ≠ "" →
          validateRequiredEnvVarsJSON env.UnmarshalEnvVarDefinitions
            service.RequiredEnvVarsJSON = none) ∧
        (service.Type_ = ServiceTypeStdio → service.PackageManager ≠ "" →
          service.SourcePackageName ≠ "")) ∧
    (∀ service, body = .ok service →
      (service.Name = "" ∨ service.DisplayName = "" ∨
        isValidServiceType service.Type_ = false ∨
        (service.RequiredEnvVarsJSON ≠ "" ∧
          validateRequiredEnvVarsJSON env.UnmarshalEnvVarDefinitions
            service.RequiredEnvVarsJSON ≠ none) ∨
        (service.Type_ = ServiceTypeStdio ∧ service.PackageManager ≠ "" ∧
          service.SourcePackageName = "")) →
      ∃ message, CreateMCPService env body = ⟨.error 400 message, []⟩) := by
  refine ⟨?_, ?_⟩
  · intro persisted hmem
    cases body with
    | error e => simp [CreateMCPService] at hmem
    | ok service =>
      cases hv : validationError env service with
      | some message => simp [CreateMCPService, hv] at hmem
      | none =>
        have hcalls : (CreateMCPService env (.ok service)).calls =
            [Call.CreateService (setCommandFromPackageManager service)] := by
          unfold CreateMCPService
          simp only [hv]
          split
          · rfl
          · split <;> rfl
        rw [hcalls, List.mem_singleton] at hmem
        obtain ⟨hn, hd, ht, hreq, hpkg⟩ := (validationError_eq_none env service).mp hv
        refine ⟨service, rfl, Call.CreateService.inj hmem, hn, hd, ?_, hreq, hpkg⟩
        simpa [isValidServiceType, or_assoc] using ht
  · intro service hbody hfail
    subst hbody
    cases hv : validationError env service with
    | some message => exact ⟨message, by simp [CreateMCPService, hv]⟩
    | none =>
      obtain ⟨hn, hd, ht, hreq, hpkg⟩ := (validationError_eq_none env service).mp hv
      rcases hfail with h | h | h | h | h
      · exact absurd h hn
      · exact absurd h hd
      · rw [ht] at h; exact absurd h (by decide)
      · exact absurd (hreq h.1) h.2
      · exact absurd h.2.2 (hpkg h.1 h.2.1)

/-- C12 at a concrete input: an npm stdio record without a source package is answered with
the 400 "source_package_name_required" and nothing is handed to the store. -/
theorem create_service_validation_witness :
    ∃ message, CreateMCPService sampleServiceEnv (.ok unnamedPackageService) =
      ⟨.error 400 message, []⟩ :=
  (create_service_validation sampleServiceEnv (.ok unnamedPackageService)).2
    unnamedPackageService rfl
    (Or.inr (Or.inr (Or.inr (Or.inr ⟨rfl, by decide, rfl⟩))))

/-! ## `CreateCustomService` -/

/-- The transport block keeps the type and the health status of the record, and for a
request that is not stdio it stores the URL in `Command`. -/
theorem fillTransportConfig_fields (env : CustomEnv) (requestBody : CustomServiceRequest)
    (newService filled : MCPService)
    (h : fillTransportConfig env requestBody newService = .ok filled) :
    filled.Type_ = newService.Type_ ∧ filled.HealthStatus = newService.HealthStatus ∧
    (requestBody.Type_ ≠ "stdio" → filled.Command = requestBody.URL) := by
  unfold fillTransportConfig at h
  by_cases ht : requestBody.Type_ = "stdio"
  · rw [if_pos ht] at h
    simp only at h
    refine ⟨?_, ?_, fun hne => absurd ht hne⟩
    all_goals
      split at h
      · simp at h
      · rename_i withArgs hargs
        have hw : withArgs.Type_ = newService.Type_ ∧
            withArgs.HealthStatus = newService.HealthStatus := by
          split_ifs at hargs
          · split at hargs
            · simp at hargs
            · simp only [Except.ok.injEq] at hargs
              rw [← hargs]; exact ⟨rfl, rfl⟩
          · simp only [Except.ok.injEq] at hargs
            rw [← hargs]; exact ⟨rfl, rfl⟩
          · simp only [Except.ok.injEq] at hargs
            rw [← hargs]; exact ⟨rfl, rfl⟩
        split_ifs at h
        · split at h
          · simp at h
          · simp only [Except.ok.injEq] at h
            rw [← h]
            first | exact hw.1 | exact hw.2
        · simp only [Except.ok.injEq] at h
          rw [← h]
          first | exact hw.1 | exact hw.2
        · simp only [Except.ok.injEq] at h
          rw [← h]
          first | exact hw.1 | exact hw.2
  · rw [if_neg ht] at h
    simp only at h
    split_ifs at h
    · split at h
      · simp at h
      · simp only [Except.ok.injEq] at h
        rw [← h]
        exact ⟨rfl, rfl, fun _ => rfl⟩
    · simp only [Except.ok.injEq] at h
      rw [← h]
      exact ⟨rfl, rfl, fun _ => rfl⟩
    · simp only [Except.ok.injEq] at h
      rw [← h]
      exact ⟨rfl, rfl, fun _ => rfl⟩

theorem registerCustomService_calls (env : CustomEnv) (created : MCPService) :
    ∀ c ∈ (registerCustomService env created).2,
      c = Call.RegisterService created ∨ c = Call.ForceCheckServiceHealth created.ID ∨
      c = Call.UpdateMCPServiceHealth created.ID := by
  intro c hc
  unfold registerCustomService at hc
  split at hc
  · simp at hc; exact Or.inl hc
  · split at hc
    · simp at hc
      rcases hc with h | h
      · exact Or.inl h
      · exact Or.inr (Or.inl h)
    · simp at hc
      rcases hc with h | h | h
      · exact Or.inl h
      · exact Or.inr (Or.inl h)
      · exact Or.inr (Or.inr h)

/-- A record that `CreateCustomService` hands to the store is the literal of the handler
with its transport configuration filled in. -/
theorem createCustomService_persisted (env : CustomEnv)
    (body : Except String CustomServiceRequest) (persisted : MCPService)
    (hmem : Call.CreateService persisted ∈ (CreateCustomService env body).calls) :
    ∃ requestBody serviceType, body = .ok requestBody ∧
      customServiceType requestBody.Type_ = some serviceType ∧
      fillTransportConfig env requestBody
        (customServiceLiteral env requestBody serviceType) = .ok persisted := by
  cases body with
  | error e => simp [CreateCustomService] at hmem
  | ok requestBody =>
    cases ht : customServiceType requestBody.Type_ with
    | none => simp [CreateCustomService, ht] at hmem
    | some serviceType =>
      cases hf : fillTransportConfig env requestBody
          (customServiceLiteral env requestBody serviceType) with
      | error message => simp [CreateCustomService, ht, hf] at hmem
      | ok newService =>
        refine ⟨requestBody, serviceType, rfl, ht, ?_⟩
        unfold CreateCustomService at hmem
        simp only [ht, hf] at hmem
        have hp : persisted = newService := by
          cases hc : env.CreateService newService with
          | error e =>
            simp only [hc, List.mem_singleton] at hmem
            exact Call.CreateService.inj hmem
          | ok id =>
            simp only [hc, List.mem_cons] at hmem
            rcases hmem with h | h
            · exact Call.CreateService.inj h
            · rcases registerCustomService_calls env _ _ h with h' | h' | h' <;> cases h'
        rw [hf, hp]

theorem customServiceType_eq_some (requestType serviceType : String)
    (h : customServiceType requestType = some serviceType) :
    (requestType = "stdio" ∧ serviceType = ServiceTypeStdio) ∨
    (requestType = "sse" ∧ serviceType = ServiceTypeSSE) ∨
    (requestType = "streamableHttp" ∧ serviceType = ServiceTypeStreamableHTTP) := by
  unfold customServiceType at h
  split_ifs at h with h1 h2 h3
  · exact Or.inl ⟨h1, (Option.some.inj h).symm⟩
  · exact Or.inr (Or.inl ⟨h2, (Option.some.inj h).symm⟩)
  · exact Or.inr (Or.inr ⟨h3, (Option.some.inj h).symm⟩)

/-- C14: every record that `CreateCustomService` hands to the store comes from a request
whose type is exactly "stdio", "sse" or "streamableHttp", and its `Type` is the
corresponding service type; for "sse" and "streamableHttp" its `Command` is the URL of the
request. A request with any other type is answered with the 400 "无效的服务类型" and no
call is made: nothing is stored and nothing is registered. -/
theorem custom_service_transport_kinds (env : CustomEnv)
    (body : Except String CustomServiceRequest) :
    (∀ persisted, Call.CreateService persisted ∈ (CreateCustomService env body).calls →
      ∃ requestBody, body = .ok requestBody ∧
        ((requestBody.Type_ = "stdio" ∧ persisted.Type_ = ServiceTypeStdio) ∨
         (requestBody.Type_ = "sse" ∧ persisted.Type_ = ServiceTypeSSE) ∨
         (requestBody.Type_ = "streamableHttp" ∧
           persisted.Type_ = ServiceTypeStreamableHTTP)) ∧
        (requestBody.Type_ = "sse" ∨ requestBody.Type_ = "streamableHttp" →
          persisted.Command = requestBody.URL)) ∧
    (∀ requestBody, body = .ok requestBody →
      requestBody.Type_ ≠ "stdio" → requestBody.Type_ ≠ "sse" →
      requestBody.Type_ ≠ "streamableHttp" →
      CreateCustomService env body = ⟨.error 400 "无效的服务类型", []⟩) := by
  refine ⟨?_, ?_⟩
  · intro persisted hmem
    obtain ⟨requestBody, serviceType, hbody, htype, hfill⟩ :=
      createCustomService_persisted env body persisted hmem
    obtain ⟨hT, -, hcmd⟩ := fillTransportConfig_fields env requestBody _ persisted hfill
    have hlit : (customServiceLiteral env requestBody serviceType).Type_ = serviceType := rfl
    rw [hlit] at hT
    refine ⟨requestBody, hbody, ?_, ?_⟩
    · rcases customServiceType_eq_some _ _ htype with h | h | h
      · exact Or.inl ⟨h.1, hT.trans h.2⟩
      · exact Or.inr (Or.inl ⟨h.1, hT.trans h.2⟩)
      · exact Or.inr (Or.inr ⟨h.1, hT.trans h.2⟩)
    · intro hurl
      apply hcmd
      rcases hurl with h | h <;> rw [h] <;> decide
  · intro requestBody hbody h1 h2 h3
    subst hbody
    simp [CreateCustomService, customServiceType, h1, h2, h3]

/-- C14 at concrete inputs: the request of type "sse" is stored with the type of server-sent
events and its URL as the command; the request of type "SSE" is answered with the 400. -/
theorem custom_service_transport_kinds_witness :
    (∃ requestBody, Except.ok sseRequest = Except.ok (ε := String) requestBody ∧
        ((requestBody.Type_ = "stdio" ∧
            ({ customServiceLiteral sampleCustomEnv sseRequest ServiceTypeSSE with
                Command := "http://localhost:9000/sse",
                HeadersJSON := "Authorization=Bearer t" } : MCPService).Type_
              = ServiceTypeStdio) ∨
         (requestBody.Type_ = "sse" ∧
            ({ customServiceLiteral sampleCustomEnv sseRequest ServiceTypeSSE with
                Command := "http://localhost:9000/sse",
                HeadersJSON := "Authorization=Bearer t" } : MCPService).Type_
              = ServiceTypeSSE) ∨
         (requestBody.Type_ = "streamableHttp" ∧
            ({ customServiceLiteral sampleCustomEnv sseRequest ServiceTypeSSE with
                Command := "http://localhost:9000/sse",
                HeadersJSON := "Authorization=Bearer t" } : MCPService).Type_
              = ServiceTypeStreamableHTTP)) ∧
        (requestBody.Type_ = "sse" ∨ requestBody.Type_ = "streamableHttp" →
          ({ customServiceLiteral sampleCustomEnv sseRequest ServiceTypeSSE with
              Command := "http://localhost:9000/sse",
              HeadersJSON := "Authorization=Bearer t" } : MCPService).Command
            = requestBody.URL)) ∧
    CreateCustomService sampleCustomEnv (.ok upperCaseRequest) =
      ⟨.error 400 "无效的服务类型", []⟩ :=
  ⟨(custom_service_transport_kinds sampleCustomEnv (.ok sseRequest)).1 _
      (by
        have hcalls : (CreateCustomService sampleCustomEnv (.ok sseRequest)).calls =
            [Call.CreateService
               { customServiceLiteral sampleCustomEnv sseRequest ServiceTypeSSE with
                  Command := "http://localhost:9000/sse",
                  HeadersJSON := "Authorization=Bearer t" },
             Call.RegisterService
               { customServiceLiteral sampleCustomEnv sseRequest ServiceTypeSSE with
                  ID := 9, Command := "http://localhost:9000/sse",
                  HeadersJSON := "Authorization=Bearer t" },
             Call.ForceCheckServiceHealth 9, Call.UpdateMCPServiceHealth 9] := by rfl
        rw [hcalls]
        exact List.mem_cons_self _ _),
   (custom_service_transport_kinds sampleCustomEnv (.ok upperCaseRequest)).2
      upperCaseRequest rfl (by decide) (by decide) (by decide)⟩

/-! ## `UpdateMCPService` -/

/-- A text contains what stands in its middle. -/
theorem containsStr_middle (a n b : String) : containsStr (a ++ n ++ b) n = true := by
  unfold containsStr
  rw [List.any_eq_true]
  refine ⟨n.toList ++ b.toList, ?_, ?_⟩
  · rw [List.mem_tails]
    exact ⟨a.toList, by simp [String.toList, String.data_append, List.append_assoc]⟩
  · rw [List.isPrefixOf_iff_prefix]
    exact List.prefix_append _ _

theorem defaultArgsJSON_names (sourcePackageName : String) :
    containsStr (defaultArgsJSON sourcePackageName) sourcePackageName = true :=
  containsStr_middle _ _ _

/-- What the shared block does to the record: the package fields are kept, `Command`
follows the package manager, and `ArgsJSON` is generated only when it is empty. -/
theorem setCommandFromPackageManager_fields (service : MCPService) :
    (setCommandFromPackageManager service).PackageManager = service.PackageManager ∧
    (setCommandFromPackageManager service).SourcePackageName = service.SourcePackageName ∧
    (service.PackageManager = "npm" → (setCommandFromPackageManager service).Command = "npx") ∧
    (service.PackageManager = "pypi" → (setCommandFromPackageManager service).Command = "uvx") ∧
    (service.PackageManager = "npm" ∨ service.PackageManager = "pypi" →
      service.SourcePackageName ≠ "" → service.ArgsJSON = "" →
      (setCommandFromPackageManager service).ArgsJSON =
        defaultArgsJSON service.SourcePackageName) ∧
    (service.ArgsJSON ≠ "" →
      (setCommandFromPackageManager service).ArgsJSON = service.ArgsJSON) := by
  have hne : "pypi" ≠ "npm" := by decide
  unfold setCommandFromPackageManager
  by_cases h1 : service.PackageManager = "npm"
  · by_cases ha : service.ArgsJSON = "" ∧ service.SourcePackageName ≠ ""
    · simp [h1, ha.1, ha.2]
    · by_cases ha1 : service.ArgsJSON = ""
      · have hs : service.SourcePackageName = "" := by
          by_contra hs
          exact ha ⟨ha1, hs⟩
        simp [h1, ha1, hs]
      · simp [h1, ha1]
  · by_cases h2 : service.PackageManager = "pypi"
    · by_cases ha : service.ArgsJSON = "" ∧ service.SourcePackageName ≠ ""
      · simp [h2, hne, ha.1, ha.2]
      · by_cases ha1 : service.ArgsJSON = ""
        · have hs : service.SourcePackageName = "" := by
            by_contra hs
            exact ha ⟨ha1, hs⟩
          simp [h2, hne, ha1, hs]
        · simp [h2, hne, ha1]
    · simp [h1, h2]

/-- A successful `UpdateMCPService` read a record, bound the request onto it, and handed
the bound record, after the shared block, to the store. -/
theorem updateMCPService_success (env : ServiceEnv) (idStr : String)
    (bind : MCPService → Except String MCPService) (message : String) (data : Option String)
    (hok : (UpdateMCPService env idStr bind).response = .success message data) :
    ∃ id old bound, ParseInt idStr = .ok id ∧ env.GetServiceByID id = .ok old ∧
      bind old = .ok bound ∧
      (UpdateMCPService env idStr bind).calls =
        [Call.UpdateService (setCommandFromPackageManager bound)] := by
  unfold UpdateMCPService at hok ⊢
  cases hp : ParseInt idStr with
  | error e => simp [hp] at hok
  | ok id =>
    simp only [hp] at hok ⊢
    cases hg : env.GetServiceByID id with
    | error e => simp [hg] at hok
    | ok old =>
      simp only [hg] at hok ⊢
      cases hb : bind old with
      | error e => simp [hb] at hok
      | ok bound =>
        simp only [hb] at hok ⊢
        cases hv : validationError env bound with
        | some m => simp [hv] at hok
        | none =>
          simp only [hv] at hok ⊢
          refine ⟨id, old, bound, rfl, hg, hb, ?_⟩
          split
          · rfl
          · split <;> rfl

/-- C15, as the code has it: a successful `UpdateMCPService` hands exactly one record to the
store, the bound record after the shared block. Its package fields are those of the bound
record; its `Command` is "npx" when the package manager is npm and "uvx" when it is pypi;
when moreover the source package is not empty and the `ArgsJSON` of the bound record is
empty, its `ArgsJSON` is generated from the source package and names it; an `ArgsJSON`
that is not empty after binding is stored as it is. -/
theorem update_sets_command_and_empty_args (env : ServiceEnv) (idStr : String)
    (bind : MCPService → Except String MCPService) (message : String) (data : Option String)
    (hok : (UpdateMCPService env idStr bind).response = .success message data) :
    ∃ id old bound persisted, ParseInt idStr = .ok id ∧ env.GetServiceByID id = .ok old ∧
      bind old = .ok bound ∧
      (UpdateMCPService env idStr bind).calls = [Call.UpdateService persisted] ∧
      persisted.PackageManager = bound.PackageManager ∧
      persisted.SourcePackageName = bound.SourcePackageName ∧
      (persisted.PackageManager = "npm" → persisted.Command = "npx") ∧
      (persisted.PackageManager = "pypi" → persisted.Command = "uvx") ∧
      (persisted.PackageManager = "npm" ∨ persisted.PackageManager = "pypi" →
        persisted.SourcePackageName ≠ "" → bound.ArgsJSON = "" →
        persisted.ArgsJSON = defaultArgsJSON persisted.SourcePackageName ∧
        containsStr persisted.ArgsJSON persisted.SourcePackageName = true) ∧
      (bound.ArgsJSON ≠ "" → persisted.ArgsJSON = bound.ArgsJSON) := by
  obtain ⟨id, old, bound, hp, hg, hb, hcalls⟩ :=
    updateMCPService_success env idStr bind message data hok
  obtain ⟨hpm, hsp, hnpx, huvx, hargs, hkeep⟩ := setCommandFromPackageManager_fields bound
  refine ⟨id, old, bound, setCommandFromPackageManager bound, hp, hg, hb, hcalls, hpm, hsp,
    ?_, ?_, ?_, hkeep⟩
  · intro h; exact hnpx (hpm ▸ h)
  · intro h; exact huvx (hpm ▸ h)
  · intro hmgr hsrc hempty
    rw [hpm] at hmgr
    rw [hsp] at hsrc ⊢
    have := hargs hmgr hsrc hempty
    rw [this]
    exact ⟨rfl, defaultArgsJSON_names _⟩

/-- C15, as the code has it, at a concrete input: the request renames the source package of
record 7 to `right-pad` and clears the arguments; the stored arguments name `right-pad`. -/
theorem update_sets_command_and_empty_args_witness :
    ∃ id old bound persisted, ParseInt "7" = .ok id ∧
      sampleServiceEnv.GetServiceByID id = .ok old ∧
      renamePackageClearArgs old = .ok bound ∧
      (UpdateMCPService sampleServiceEnv "7" renamePackageClearArgs).calls =
        [Call.UpdateService persisted] ∧
      persisted.PackageManager = bound.PackageManager ∧
      persisted.SourcePackageName = bound.SourcePackageName ∧
      (persisted.PackageManager = "npm" → persisted.Command = "npx") ∧
      (persisted.PackageManager = "pypi" → persisted.Command = "uvx") ∧
      (persisted.PackageManager = "npm" ∨ persisted.PackageManager = "pypi" →
        persisted.SourcePackageName ≠ "" → bound.ArgsJSON = "" →
        persisted.ArgsJSON = defaultArgsJSON persisted.SourcePackageName ∧
        containsStr persisted.ArgsJSON persisted.SourcePackageName = true) ∧
      (bound.ArgsJSON ≠ "" → persisted.ArgsJSON = bound.ArgsJSON) :=
  update_sets_command_and_empty_args sampleServiceEnv "7" renamePackageClearArgs ""
    (some "left-pad") rfl

/-- C15 fails as stated: record 7 is the npm package `left-pad` with the arguments generated
for it; the request renames the source package to `right-pad`. The update succeeds, the
stored record has package manager npm and source package `right-pad`, and its `ArgsJSON` is
still the one of `left-pad`: it does not name `right-pad`. -/
theorem update_keeps_stale_args_counterexample :
    UpdateMCPService sampleServiceEnv "7" renamePackage =
      ⟨.success "" (some "left-pad"),
        [Call.UpdateService { argsService with SourcePackageName := "right-pad" }]⟩ ∧
    ({ argsService with SourcePackageName := "right-pad" } : MCPService).PackageManager
      = "npm" ∧
    ({ argsService with SourcePackageName := "right-pad" } : MCPService).ArgsJSON
      = "[\"-y\", \"left-pad\"]" ∧
    containsStr
      ({ argsService with SourcePackageName := "right-pad" } : MCPService).ArgsJSON
      "right-pad" = false := by
  refine ⟨rfl, rfl, rfl, ?_⟩
  decide

/-! ## The request statistics of `ListInstalledMCPServices` -/

/-- Without a limit for the pair the statistics are a count of 0 and -1. -/
theorem requestStats_no_limit (env : ListEnv) (up : Bool) (now : Time) (userID : Int)
    (svc : MCPService) (h : ¬ (svc.RPDLimit > 0 ∧ userID > 0)) :
    requestStats env up now userID svc = (0, -1) := by
  unfold requestStats
  rw [if_neg h]

/-- C16 at the failing input: user 1 is logged in, service 7 has a limit of 10 requests a
day, and the cache holds a count of 11 for today. A limit applies to the pair, and the list
reports `remaining_requests = -1`, the value that stands for no limit. -/
theorem remaining_requests_minus_one_under_limit :
    (limitedService.RPDLimit > 0 ∧ (1 : Int) > 0) ∧
    requestStats countingListEnv true 0 1 limitedService = (11, -1) ∧
    (ListInstalledMCPServices countingListEnv sampleManager statusCodec true 0
        (some 1)).response =
      .success "" (some [{ service := limitedService, env_vars := some [],
                           user_daily_request_count := 11, remaining_requests := -1,
                           health_status := "unknown", last_health_check := none,
                           health_details :=
                             .missing "unknown" none "Health status not found in cache." }]) := by
  refine ⟨by decide, rfl, rfl⟩

/-! ## The environment merge -/

/-- The merge loop leaves the value of a name alone when no entry resolves to it. -/
theorem merge_lookup_untouched (cmap : List (Int × String)) (name : String) :
    ∀ (userConfigs : List UserConfig) (finalEnvVars : StrMap),
      (∀ uc ∈ userConfigs, mapGet cmap uc.ConfigID ≠ some name) →
      mapGet (userConfigs.foldl (fun finalEnvVars uc =>
        match mapGet cmap uc.ConfigID with
        | some varName => mapSet finalEnvVars varName uc.Value
        | none => finalEnvVars) finalEnvVars) name = mapGet finalEnvVars name := by
  intro userConfigs
  induction userConfigs with
  | nil => intro finalEnvVars _; rfl
  | cons uc rest ih =>
    intro finalEnvVars hno
    rw [List.foldl_cons, ih _ (fun u hu => hno u (List.mem_cons_of_mem _ hu))]
    have huc := hno uc (List.mem_cons_self _ _)
    cases hr : mapGet cmap uc.ConfigID with
    | none => rfl
    | some varName =>
      have hne : varName ≠ name := by
        intro h
        rw [hr, h] at huc
        exact huc rfl
      exact mapGet_mapSet_other _ _ _ _ hne

/-- The merge loop gives a name the value of the last entry that resolves to it. -/
theorem merge_lookup_last (cmap : List (Int × String)) (name : String)
    (before after : List UserConfig) (uc : UserConfig) (finalEnvVars : StrMap)
    (hres : mapGet cmap uc.ConfigID = some name)
    (hafter : ∀ u ∈ after, mapGet cmap u.ConfigID ≠ some name) :
    mapGet ((before ++ uc :: after).foldl (fun finalEnvVars uc =>
      match mapGet cmap uc.ConfigID with
      | some varName => mapSet finalEnvVars varName uc.Value
      | none => finalEnvVars) finalEnvVars) name = some uc.Value := by
  rw [List.foldl_append, List.foldl_cons, merge_lookup_untouched cmap name after _ hafter]
  simp only [hres]
  exact mapGet_mapSet_self _ _ _

/-- Writing the merged variables over the variables of a server: a merged name takes the
merged value, every other name keeps the value of the server. -/
theorem overlayEnv_lookup (finalEnvValues serverEnv : StrMap) (name : String) :
    mapGet (overlayEnv finalEnvValues serverEnv) name =
      match mapGet finalEnvValues name with
      | some v => some v
      | none => mapGet serverEnv name := by
  induction finalEnvValues with
  | nil => simp [overlayEnv, mapGet]
  | cons kv rest ih =>
    obtain ⟨k, v⟩ := kv
    by_cases hk : k = name
    · subst hk
      simp [overlayEnv, mapGet, mapGet_mapSet_self]
    · have hstep : overlayEnv ((k, v) :: rest) serverEnv =
          mapSet (overlayEnv rest serverEnv) k v := rfl
      rw [hstep, mapGet_mapSet_other _ _ _ _ hk, ih]
      simp [mapGet, hk]

/-- The writes of the merge on a map that is not `nil` do not panic: the result is the map
after the writes. -/
theorem mergeWrites_made (cmap : List (Int × String)) :
    ∀ (userConfigs : List UserConfig) (entries : StrMap),
      (userConfigs.foldlM (fun finalEnvVars uc =>
        match mapGet cmap uc.ConfigID with
        | some varName => assignEntry finalEnvVars varName uc.Value
        | none => Except.ok finalEnvVars) (some entries) : Except String (Option StrMap)) =
      .ok (some (userConfigs.foldl (fun finalEnvVars uc =>
        match mapGet cmap uc.ConfigID with
        | some varName => mapSet finalEnvVars varName uc.Value
        | none => finalEnvVars) entries)) := by
  intro userConfigs
  induction userConfigs with
  | nil => intro entries; rfl
  | cons uc rest ih =>
    intro entries
    rw [List.foldlM_cons, List.foldl_cons]
    cases hr : mapGet cmap uc.ConfigID with
    | none => exact ih entries
    | some varName => exact ih (mapSet entries varName uc.Value)

/-- The merge on a `nil` map, when no entry of the user resolves to a name: no write is
made and the map stays `nil`. -/
theorem mergeWrites_nil_untouched (cmap : List (Int × String)) :
    ∀ (userConfigs : List UserConfig),
      (∀ uc ∈ userConfigs, mapGet cmap uc.ConfigID = none) →
      (userConfigs.foldlM (fun finalEnvVars uc =>
        match mapGet cmap uc.ConfigID with
        | some varName => assignEntry finalEnvVars varName uc.Value
        | none => Except.ok finalEnvVars) none : Except String (Option StrMap)) =
      .ok none := by
  intro userConfigs
  induction userConfigs with
  | nil => intro _; rfl
  | cons uc rest ih =>
    intro hno
    rw [List.foldlM_cons]
    have hr := hno uc (List.mem_cons_self _ _)
    have hrest := ih (fun u hu => hno u (List.mem_cons_of_mem _ hu))
    simp only [hr]
    exact hrest

/-- The merge on a `nil` map, when an entry of the user resolves to a name: the write of the
first such entry panics. -/
theorem mergeWrites_nil_panics (cmap : List (Int × String)) :
    ∀ (userConfigs : List UserConfig),
      (∃ uc ∈ userConfigs, mapGet cmap uc.ConfigID ≠ none) →
      (userConfigs.foldlM (fun finalEnvVars uc =>
        match mapGet cmap uc.ConfigID with
        | some varName => assignEntry finalEnvVars varName uc.Value
        | none => Except.ok finalEnvVars) none : Except String (Option StrMap)) =
      .error nilMapPanic := by
  intro userConfigs
  induction userConfigs with
  | nil => rintro ⟨uc, huc, -⟩; cases huc
  | cons uc rest ih =>
    rintro ⟨u, hu, hres⟩
    rw [List.foldlM_cons]
    cases hr : mapGet cmap uc.ConfigID with
    | some varName => rfl
    | none =>
      rcases List.mem_cons.mp hu with rfl | hu
      · exact absurd hr hres
      · exact ih ⟨u, hu, hres⟩

/-- The merge of `ListInstalledMCPServices` for a logged-in user whose configuration was
read: the writes of the entries, in order, on the decoded defaults. -/
theorem finalEnvVarsFor_logged_in (env : ListEnv) (userID : Int) (svc : MCPService)
    (userConfigs : List UserConfig) (huser : userID ≠ 0)
    (hread : env.GetUserConfigsForService userID svc.ID = .ok userConfigs) :
    finalEnvVarsFor env userID svc =
      userConfigs.foldlM (fun finalEnvVars uc =>
        match mapGet (configIDToNameMap (env.GetConfigOptionsForService svc.ID))
            uc.ConfigID with
        | some varName => assignEntry finalEnvVars varName uc.Value
        | none => Except.ok finalEnvVars) (defaultEnvVarsOf env svc) := by
  unfold finalEnvVarsFor
  simp only [huser, ne_eq, not_false_eq_true, if_true, hread]
  rfl

/-- The environment merge, which `GetPackageDetails` and `ListInstalledMCPServices` both
run. For the anonymous caller, and when the configuration of the user cannot be read, the
result is the decoded defaults. For a logged-in user whose configuration was read: on
defaults that are a map, the result is a map in which a name that no entry resolves to keeps
its default value and a name that an entry resolves to takes the value of the user (of the
last such entry); on defaults that are `nil`, the merge panics as soon as an entry resolves
to a name, and returns `nil` when none does. -/
theorem envMerge_result (env : ListEnv) (userID : Int) (svc : MCPService) :
    finalEnvValuesFor env userID svc = finalEnvVarsFor env userID svc ∧
    (userID = 0 → finalEnvVarsFor env userID svc = .ok (defaultEnvVarsOf env svc)) ∧
    (∀ err, env.GetUserConfigsForService userID svc.ID = .error err →
      finalEnvVarsFor env userID svc = .ok (defaultEnvVarsOf env svc)) ∧
    (∀ userConfigs, userID ≠ 0 →
      env.GetUserConfigsForService userID svc.ID = .ok userConfigs →
      (∀ defaults, defaultEnvVarsOf env svc = some defaults →
        ∃ merged, finalEnvVarsFor env userID svc = .ok (some merged) ∧
          (∀ name, (∀ uc ∈ userConfigs, resolveVarName env svc uc ≠ some name) →
            mapGet merged name = mapGet defaults name) ∧
          (∀ name before uc after, userConfigs = before ++ uc :: after →
            resolveVarName env svc uc = some name →
            (∀ u ∈ after, resolveVarName env svc u ≠ some name) →
            mapGet merged name = some uc.Value)) ∧
      (defaultEnvVarsOf env svc = none →
        ((∃ uc ∈ userConfigs, resolveVarName env svc uc ≠ none) →
          finalEnvVarsFor env userID svc = .error nilMapPanic) ∧
        ((∀ uc ∈ userConfigs, resolveVarName env svc uc = none) →
          finalEnvVarsFor env userID svc = .ok none))) := by
  refine ⟨rfl, ?_, ?_, ?_⟩
  · intro h0
    simp [finalEnvVarsFor, defaultEnvVarsOf, h0]
  · intro err herr
    unfold finalEnvVarsFor defaultEnvVarsOf
    by_cases h0 : userID = 0
    · simp [h0]
    · simp [h0, herr]
  · intro userConfigs huser hread
    rw [finalEnvVarsFor_logged_in env userID svc userConfigs huser hread]
    refine ⟨?_, ?_⟩
    · intro defaults hdef
      rw [hdef, mergeWrites_made]
      refine ⟨_, rfl, ?_, ?_⟩
      · intro name hno
        exact merge_lookup_untouched _ name userConfigs _ hno
      · intro name before uc after hsplit hres hafter
        rw [hsplit]
        exact merge_lookup_last _ name before after uc _ hres hafter
    · intro hnil
      rw [hnil]
      exact ⟨fun h => mergeWrites_nil_panics _ userConfigs h,
        fun h => mergeWrites_nil_untouched _ userConfigs h⟩

/-- The only panic of the environment merge is the write to a `nil` map. -/
theorem finalEnvVarsFor_panic_text (env : ListEnv) (userID : Int) (svc : MCPService)
    (message : String) (h : finalEnvVarsFor env userID svc = .error message) :
    message = nilMapPanic := by
  have hm := envMerge_result env userID svc
  by_cases h0 : userID = 0
  · rw [hm.2.1 h0] at h
    cases h
  · cases hread : env.GetUserConfigsForService userID svc.ID with
    | error err =>
      rw [hm.2.2.1 err hread] at h
      cases h
    | ok userConfigs =>
      have hc := hm.2.2.2 userConfigs h0 hread
      cases hdef : defaultEnvVarsOf env svc with
      | some defaults =>
        obtain ⟨merged, hmerged, -⟩ := hc.1 defaults hdef
        rw [hmerged] at h
        cases h
      | none =>
        by_cases hres : ∃ uc ∈ userConfigs, resolveVarName env svc uc ≠ none
        · rw [(hc.2 hdef).1 hres] at h
          cases h
          rfl
        · have hall : ∀ uc ∈ userConfigs, resolveVarName env svc uc = none := by
            intro uc huc
            by_contra hne
            exact hres ⟨uc, huc, hne⟩
          rw [(hc.2 hdef).2 hall] at h
          cases h

/-- A list and its image under a function are related element by element. -/
theorem forall₂_map_self {α β : Type} (R : α → β → Prop) (f : α → β) :
    ∀ (l : List α), (∀ x ∈ l, R x (f x)) → List.Forall₂ R l (l.map f) := by
  intro l
  induction l with
  | nil => intro _; exact List.Forall₂.nil
  | cons x rest ih =>
    intro h
    exact List.Forall₂.cons (h x (List.mem_cons_self _ _))
      (ih (fun y hy => h y (List.mem_cons_of_mem _ hy)))

/-- The block of `GetPackageDetails` for an installed package whose record was read and for
which a configuration was discovered: the panic of the merge, or the configuration in which
every server has its key and, for each name, the merged value when the merge holds one and
the value it had otherwise. -/
theorem updateMCPConfigEnv_cases (env : ListEnv)
    (GetServiceByID : Int → Except String MCPService) (installedServiceID userID : Int)
    (installedService : MCPService) (servers : List (String × StrMap))
    (hrec : GetServiceByID installedServiceID = .ok installedService) :
    (finalEnvValuesFor env userID installedService = .error nilMapPanic ∧
      updateMCPConfigEnv env GetServiceByID true installedServiceID userID (some servers)
        = .error nilMapPanic) ∨
    ∃ finalEnvValues updated,
      finalEnvValuesFor env userID installedService = .ok finalEnvValues ∧
      updateMCPConfigEnv env GetServiceByID true installedServiceID userID (some servers)
        = .ok (some updated) ∧
      List.Forall₂ (fun server after =>
        after.1 = server.1 ∧
        ∀ name, mapGet after.2 name =
          match mapGet (finalEnvValues.getD []) name with
          | some v => some v
          | none => mapGet server.2 name) servers updated := by
  cases hm : finalEnvValuesFor env userID installedService with
  | error message =>
    have htext := finalEnvVarsFor_panic_text env userID installedService message hm
    subst htext
    refine Or.inl ⟨rfl, ?_⟩
    simp only [updateMCPConfigEnv, hrec, hm, if_true]
  | ok finalEnvValues =>
    refine Or.inr ⟨finalEnvValues, servers.map (fun server =>
      (server.1, overlayEnv (finalEnvValues.getD []) server.2)), rfl, ?_, ?_⟩
    · simp only [updateMCPConfigEnv, hrec, hm, if_true]
    · apply forall₂_map_self
      intro server _
      exact ⟨rfl, fun name => overlayEnv_lookup _ _ _⟩

/-- C17 fails on the code for defaults that decode to `nil`. In general, for the installed
services read by `ListInstalledMCPServices` and for the record read and the configuration
discovered by `GetPackageDetails`: (1) the environment merge of both handlers is described
by cases: the decoded defaults for the anonymous caller; for a logged-in user whose
configuration was read, on defaults that are a map, a name that an entry of the user
resolves to takes the value of the user and every other name keeps its default, and on
defaults that are `nil`, a panic as soon as an entry resolves to a name; (2) the list
handler ends with that panic when the merge of some service panics, and otherwise reports,
for each service, the result of the merge as `env_vars`; (3) the block of
`GetPackageDetails` ends with that panic, or writes the result of the merge over the
variables of every discovered server. (4) At the failing input, where `DefaultEnvsJSON` of
service 7 is the text `null` and user 1 has a value for the option `API_KEY`, both handlers
panic for user 1, while the anonymous caller gets the `nil` defaults. -/
theorem user_config_overrides_defaults (env : ListEnv) (cacheManager : HealthCacheManager)
    (codec : JSONCodec) (up : Bool) (now : Time) (ctxUserID : Option Int)
    (services : List MCPService) (GetServiceByID : Int → Except String MCPService)
    (installedServiceID userID : Int) (installedService : MCPService)
    (servers : List (String × StrMap))
    (hs : env.GetInstalledServices = .ok services)
    (hrec : GetServiceByID installedServiceID = .ok installedService) :
    (∀ caller svc,
      finalEnvValuesFor env caller svc = finalEnvVarsFor env caller svc ∧
      (caller = 0 → finalEnvVarsFor env caller svc = .ok (defaultEnvVarsOf env svc)) ∧
      (∀ userConfigs, caller ≠ 0 →
        env.GetUserConfigsForService caller svc.ID = .ok userConfigs →
        (∀ defaults, defaultEnvVarsOf env svc = some defaults →
          ∃ merged, finalEnvVarsFor env caller svc = .ok (some merged) ∧
            (∀ name, (∀ uc ∈ userConfigs, resolveVarName env svc uc ≠ some name) →
              mapGet merged name = mapGet defaults name) ∧
            (∀ name before uc after, userConfigs = before ++ uc :: after →
              resolveVarName env svc uc = some name →
              (∀ u ∈ after, resolveVarName env svc u ≠ some name) →
              mapGet merged name = some uc.Value)) ∧
        (defaultEnvVarsOf env svc = none →
          (∃ uc ∈ userConfigs, resolveVarName env svc uc ≠ none) →
          finalEnvVarsFor env caller svc = .error nilMapPanic))) ∧
    ((∃ svc ∈ services,
        finalEnvVarsFor env (ctxUserID.getD 0) svc = .error nilMapPanic ∧
        (ListInstalledMCPServices env cacheManager codec up now ctxUserID).response
          = .panicked nilMapPanic) ∨
      ∃ items, (ListInstalledMCPServices env cacheManager codec up now ctxUserID).response
          = .success "" (some items) ∧
        items.map (fun item => item.service) = services ∧
        ∀ item ∈ items,
          finalEnvVarsFor env (ctxUserID.getD 0) item.service = .ok item.env_vars) ∧
    ((finalEnvValuesFor env userID installedService = .error nilMapPanic ∧
        updateMCPConfigEnv env GetServiceByID true installedServiceID userID (some servers)
          = .error nilMapPanic) ∨
      ∃ finalEnvValues updated,
        finalEnvValuesFor env userID installedService = .ok finalEnvValues ∧
        updateMCPConfigEnv env GetServiceByID true installedServiceID userID (some servers)
          = .ok (some updated) ∧
        List.Forall₂ (fun server after =>
          after.1 = server.1 ∧
          ∀ name, mapGet after.2 name =
            match mapGet (finalEnvValues.getD []) name with
            | some v => some v
            | none => mapGet server.2 name) servers updated) ∧
    (nullDefaultsListEnv.GetUserConfigsForService 1 7 =
        .ok [{ UserID := 1, ServiceID := 7, ConfigID := 31, Value := "mine" }] ∧
      resolveVarName nullDefaultsListEnv nullDefaultsService
        { UserID := 1, ServiceID := 7, ConfigID := 31, Value := "mine" } = some "API_KEY" ∧
      ListInstalledMCPServices nullDefaultsListEnv sampleManager statusCodec true 0 (some 1)
        = ⟨.panicked "assignment to entry in nil map", []⟩ ∧
      updateMCPConfigEnv nullDefaultsListEnv nullDefaultsStore true 7 1
          (some [("left-pad", [("API_KEY", "from-readme"), ("DEBUG", "1")])])
        = .error "assignment to entry in nil map" ∧
      (ListInstalledMCPServices nullDefaultsListEnv sampleManager statusCodec true 0
          none).response =
        .success "" (some [{ service := nullDefaultsService, env_vars := none,
                             user_daily_request_count := 0, remaining_requests := -1,
                             health_status := "unknown", last_health_check := none,
                             health_details :=
                               .missing "unknown" none
                                 "Health status not found in cache." }])) := by
  refine ⟨?_, ?_, updateMCPConfigEnv_cases env GetServiceByID installedServiceID userID
    installedService servers hrec, rfl, rfl, rfl, rfl, rfl⟩
  · intro caller svc
    have hm := envMerge_result env caller svc
    refine ⟨hm.1, hm.2.1, ?_⟩
    intro userConfigs hcaller hread
    have hc := hm.2.2.2 userConfigs hcaller hread
    exact ⟨hc.1, fun hnil hres => (hc.2 hnil).1 hres⟩
  · rcases listInstalled_cases env cacheManager codec up now ctxUserID services hs with
      ⟨svc, hsvc, message, hmerge, hr⟩ | ⟨items, hr, hmap, hall⟩
    · have htext := finalEnvVarsFor_panic_text env _ svc message hmerge
      subst htext
      exact Or.inl ⟨svc, hsvc, hmerge, hr⟩
    · refine Or.inr ⟨items, hr, hmap, ?_⟩
      intro item hitem
      obtain ⟨calls, he⟩ := hall item hitem
      exact (installedServiceEntry_health env cacheManager codec up now _ item.service
        (item, calls) he).2.1

/-- C17 at a concrete input where the defaults are a map: service 7 has the defaults
`REGION=eu` and `API_KEY=default`, and user 1 gave `mine` for the option of `API_KEY`. The
list handler does not panic and reports, as `env_vars` of the service, a merge that keeps
`REGION` and takes the value of the user for `API_KEY`; `GetPackageDetails` writes the same
values over the variables of the discovered server. -/
theorem user_config_overrides_defaults_witness :
    (∃ items, (ListInstalledMCPServices mergingListEnv sampleManager statusCodec true 0
          (some 1)).response = .success "" (some items) ∧
        items.map (fun item => item.service) = [defaultsService] ∧
        ∀ item ∈ items, finalEnvVarsFor mergingListEnv 1 item.service = .ok item.env_vars) ∧
    (ListInstalledMCPServices mergingListEnv sampleManager statusCodec true 0
        (some 1)).response =
      .success "" (some [{ service := defaultsService,
                           env_vars := some [("REGION", "eu"), ("API_KEY", "mine")],
                           user_daily_request_count := 0, remaining_requests := -1,
                           health_status := "unknown", last_health_check := none,
                           health_details :=
                             .missing "unknown" none
                               "Health status not found in cache." }]) ∧
    updateMCPConfigEnv mergingListEnv defaultsStore true 7 1
        (some [("left-pad", [("API_KEY", "from-readme"), ("DEBUG", "1")])]) =
      .ok (some [("left-pad", [("API_KEY", "mine"), ("DEBUG", "1"), ("REGION", "eu")])]) :=
  ⟨(user_config_overrides_defaults mergingListEnv sampleManager statusCodec true 0 (some 1)
      [defaultsService] defaultsStore 7 1 defaultsService
      [("left-pad", [("API_KEY", "from-readme"), ("DEBUG", "1")])] rfl rfl).2.1.resolve_left
      (by
        rintro ⟨svc, hsvc, hm, -⟩
        rw [List.mem_singleton.mp hsvc] at hm
        cases hm),
    rfl, rfl⟩

/-! ## Uninstalling during an installation -/

/-- C18: when the record has no installed version or the version "installing" and the
manager holds a pending or installing task for it, or holds no task and the installed
version is empty, the only call of `UninstallService` is the update that hands the record
marked deleted to the store: `UnregisterService` and the package uninstalls are not
called. -/
theorem uninstall_while_installing (serviceID : Int) (im : InstallationManager)
    (GetServiceByID : Int → Except String MCPService)
    (UnregisterService : Int → Option String)
    (UninstallNPMPackage UninstallPyPIPackage : String → Option String)
    (UpdateService : MCPService → Option String) (service : MCPService)
    (hne : serviceID ≠ 0) (hrec : GetServiceByID serviceID = .ok service)
    (hversion : service.InstalledVersion = "" ∨ service.InstalledVersion = "installing")
    (htask : (∃ task, im.GetTaskStatus service.ID = some task ∧
        (task.Status = StatusPending ∨ task.Status = StatusInstalling)) ∨
      (im.GetTaskStatus service.ID = none ∧ service.InstalledVersion = "")) :
    (UninstallService (.ok serviceID) im GetServiceByID UnregisterService
      UninstallNPMPackage UninstallPyPIPackage UpdateService).calls =
      [Call.UpdateService (markDeleted service)] ∧
    (∀ id, Call.UnregisterService id ∉
      (UninstallService (.ok serviceID) im GetServiceByID UnregisterService
        UninstallNPMPackage UninstallPyPIPackage UpdateService).calls) ∧
    (∀ name, Call.UninstallNPMPackage name ∉
      (UninstallService (.ok serviceID) im GetServiceByID UnregisterService
        UninstallNPMPackage UninstallPyPIPackage UpdateService).calls ∧
      Call.UninstallPyPIPackage name ∉
      (UninstallService (.ok serviceID) im GetServiceByID UnregisterService
        UninstallNPMPackage UninstallPyPIPackage UpdateService).calls) ∧
    (markDeleted service).Deleted = true ∧ (markDeleted service).Enabled = false := by
  have hpending : isPendingOrInstalling im service = true := by
    unfold isPendingOrInstalling
    rw [if_pos hversion]
    rcases htask with ⟨task, hfound, hstatus⟩ | ⟨hnone, hempty⟩
    · rw [hfound]
      rcases hstatus with h | h <;> simp [h]
    · rw [hnone]
      simp [hempty]
  have hcalls : (UninstallService (.ok serviceID) im GetServiceByID UnregisterService
      UninstallNPMPackage UninstallPyPIPackage UpdateService).calls =
      [Call.UpdateService (markDeleted service)] := by
    rw [uninstall_calls serviceID im GetServiceByID UnregisterService UninstallNPMPackage
      UninstallPyPIPackage UpdateService service hne hrec]
    simp [unregisterCalls, physicalUninstallCalls, hpending]
  rw [hcalls]
  refine ⟨rfl, ?_, ?_, rfl, rfl⟩
  · intro id; simp
  · intro name; simp

/-- C18 at a concrete input: the record 7 has no installed version and its task is
pending. -/
theorem uninstall_while_installing_witness :
    (UninstallService (.ok 7) busyManager pendingStore (fun _ => none) (fun _ => none)
      (fun _ => none) (fun _ => none)).calls =
      [Call.UpdateService (markDeleted pendingService)] ∧
    (∀ id, Call.UnregisterService id ∉
      (UninstallService (.ok 7) busyManager pendingStore (fun _ => none) (fun _ => none)
        (fun _ => none) (fun _ => none)).calls) ∧
    (∀ name, Call.UninstallNPMPackage name ∉
      (UninstallService (.ok 7) busyManager pendingStore (fun _ => none) (fun _ => none)
        (fun _ => none) (fun _ => none)).calls ∧
      Call.UninstallPyPIPackage name ∉
      (UninstallService (.ok 7) busyManager pendingStore (fun _ => none) (fun _ => none)
        (fun _ => none) (fun _ => none)).calls) ∧
    (markDeleted pendingService).Deleted = true ∧
    (markDeleted pendingService).Enabled = false :=
  uninstall_while_installing 7 busyManager pendingStore (fun _ => none) (fun _ => none)
    (fun _ => none) (fun _ => none) pendingService (by decide) rfl (Or.inl rfl)
    (Or.inl ⟨{ ServiceID := 7, UserID := 1, PackageName := "left-pad",
               PackageManager := "npm", Version := "1.3.0", EnvVars := [],
               Status := StatusPending, StartTime := 0, EndTime := 0, Error := "" },
      rfl, Or.inl rfl⟩)

/-! ## The health status of the records that the handlers write -/

theorem buildNewService_healthStatus (env : MarketEnv) (requestBody : InstallRequestBody)
    (userID : Int) (envVarsForTask : StrMap) :
    (buildNewService env requestBody userID envVarsForTask).HealthStatus = "pending" := by
  unfold buildNewService
  simp only
  repeat' split
  all_goals rfl

/-- A record that the marketplace branch hands to the store is the record built for the new
package, with the headers when the request has some. -/
theorem installFromMarketplace_created (env : MarketEnv) (im : InstallationManager)
    (now : Time) (requestBody : InstallRequestBody) (userID : Int) (vars : StrMap)
    (persisted : MCPService)
    (hmem : Call.CreateService persisted ∈
      (installFromMarketplace env im now requestBody userID vars).1.calls) :
    persisted = buildNewService env requestBody userID vars ∨
    ∃ headersJSON, persisted =
      { buildNewService env requestBody userID vars with HeadersJSON := headersJSON } := by
  unfold installFromMarketplace at hmem
  by_cases h1 : requestBody.PackageManager = "npm" ∧ ¬ env.CheckNPXAvailable
  · rw [if_pos h1] at hmem
    simp at hmem
  rw [if_neg h1] at hmem
  by_cases h2 : (requestBody.PackageManager = "pypi" ∨ requestBody.PackageManager = "uv"
      ∨ requestBody.PackageManager = "pip") ∧ ¬ env.CheckUVXAvailable
  · rw [if_pos h2] at hmem
    simp at hmem
  rw [if_neg h2] at hmem
  simp only at hmem
  generalize (match env.GetServicesByPackageDetails requestBody.PackageManager
      requestBody.PackageName with
    | .ok existingServices => existingServices.head?
    | .error _ => none) = existing at hmem
  cases existing with
  | some first =>
    simp only [existingInstanceOutcome_calls] at hmem
    exact absurd (addServiceInstanceForUser_calls env userID _ _ _ hmem) (by
      simp [Call.isInstanceConfigFor])
  | none =>
    simp only at hmem
    by_cases hmiss : (collectMissingEnvVars (discoverRequiredEnvVars env
        requestBody.PackageManager requestBody.PackageName) vars).length > 0
    · rw [if_pos hmiss] at hmem
      simp at hmem
    rw [if_neg hmiss] at hmem
    by_cases hh : requestBody.Headers.length > 0
    · simp only [hh, if_true] at hmem
      cases hj : env.MarshalStrMap requestBody.Headers with
      | error e => simp [hj] at hmem
      | ok headersJSON =>
        simp only [hj] at hmem
        right
        refine ⟨headersJSON, ?_⟩
        cases hc : env.CreateService
            { buildNewService env requestBody userID vars with HeadersJSON := headersJSON } with
        | error e => simpa [hc] using hmem
        | ok id => simpa [hc] using hmem
    · simp only [hh, if_false] at hmem
      left
      cases hc : env.CreateService (buildNewService env requestBody userID vars) with
      | error e => simpa [hc] using hmem
      | ok id => simpa [hc] using hmem

/-- A record that `InstallOrAddService` hands to the store is the record built for a new
package. -/
theorem installOrAdd_created (env : MarketEnv) (im : InstallationManager) (now : Time)
    (body : Except String InstallRequestBody) (userID : Int) (persisted : MCPService)
    (hmem : Call.CreateService persisted ∈
      (InstallOrAddService env im now body userID).1.calls) :
    persisted.HealthStatus = "pending" := by
  have hconfig : ∀ serviceID vars, Call.CreateService persisted ∉
      (addServiceInstanceForUser env userID serviceID vars).2 := by
    intro serviceID vars h
    exact absurd (addServiceInstanceForUser_calls env userID _ _ _ h) (by
      simp [Call.isInstanceConfigFor])
  unfold InstallOrAddService at hmem
  cases body with
  | error e => simp at hmem
  | ok requestBody =>
    simp only at hmem
    split_ifs at hmem
    · simp at hmem
    · simp at hmem
    · split at hmem
      · rename_i err calls hadd
        have := hconfig requestBody.MCServiceID requestBody.UserProvidedEnvVars
        rw [hadd] at this
        exact absurd hmem this
      · rename_i calls hadd
        have := hconfig requestBody.MCServiceID requestBody.UserProvidedEnvVars
        rw [hadd] at this
        exact absurd hmem this
    · simp at hmem
    · rcases installFromMarketplace_created env im now requestBody userID _ persisted hmem
        with h | ⟨headersJSON, h⟩
      · rw [h]; exact buildNewService_healthStatus _ _ _ _
      · rw [h]; exact buildNewService_healthStatus _ _ _ _
    · simp at hmem

/-- A record that `UninstallService` hands to the store is a record marked deleted. -/
theorem uninstall_updated (body : Except String Int) (im : InstallationManager)
    (GetServiceByID : Int → Except String MCPService)
    (UnregisterService : Int → Option String)
    (UninstallNPMPackage UninstallPyPIPackage : String → Option String)
    (UpdateService : MCPService → Option String) (persisted : MCPService)
    (hmem : Call.UpdateService persisted ∈
      (UninstallService body im GetServiceByID UnregisterService UninstallNPMPackage
        UninstallPyPIPackage UpdateService).calls) :
    ∃ service, persisted = markDeleted service := by
  cases body with
  | error e => simp [UninstallService] at hmem
  | ok serviceID =>
    by_cases hne : serviceID = 0
    · simp [UninstallService, hne] at hmem
    · cases hrec : GetServiceByID serviceID with
      | error e => simp [UninstallService, hne, hrec] at hmem
      | ok service =>
        rw [uninstall_calls serviceID im GetServiceByID UnregisterService
          UninstallNPMPackage UninstallPyPIPackage UpdateService service hne hrec] at hmem
        refine ⟨service, ?_⟩
        rcases List.mem_append.mp hmem with h | h
        · rcases List.mem_append.mp h with h | h
          · unfold unregisterCalls at h
            split_ifs at h <;> simp at h
          · rcases physicalUninstallCalls_kind im service UninstallNPMPackage
              UninstallPyPIPackage _ h with h' | h' <;> cases h'
        · exact Call.UpdateService.inj (List.mem_singleton.mp h)

/-- C19, as the code has it: every record that `CreateCustomService` hands to the store, and
every record that `UninstallService` hands to the store, has the health status "unknown";
every record that `InstallOrAddService` hands to the store has the health status "pending",
the text of the installation status. -/
theorem written_records_health_status :
    (∀ (env : CustomEnv) (body : Except String CustomServiceRequest) (persisted : MCPService),
      Call.CreateService persisted ∈ (CreateCustomService env body).calls →
      persisted.HealthStatus = "unknown") ∧
    (∀ (body : Except String Int) (im : InstallationManager)
      (GetServiceByID : Int → Except String MCPService)
      (UnregisterService : Int → Option String)
      (UninstallNPMPackage UninstallPyPIPackage : String → Option String)
      (UpdateService : MCPService → Option String) (persisted : MCPService),
      Call.UpdateService persisted ∈
        (UninstallService body im GetServiceByID UnregisterService UninstallNPMPackage
          UninstallPyPIPackage UpdateService).calls →
      persisted.HealthStatus = "unknown") ∧
    (∀ (env : MarketEnv) (im : InstallationManager) (now : Time)
      (body : Except String InstallRequestBody) (userID : Int) (persisted : MCPService),
      Call.CreateService persisted ∈ (InstallOrAddService env im now body userID).1.calls →
      persisted.HealthStatus = "pending") := by
  refine ⟨?_, ?_, ?_⟩
  · intro env body persisted hmem
    obtain ⟨requestBody, serviceType, -, -, hfill⟩ :=
      createCustomService_persisted env body persisted hmem
    exact (fillTransportConfig_fields env requestBody _ persisted hfill).2.1
  · intro body im GetServiceByID UnregisterService UninstallNPMPackage UninstallPyPIPackage
      UpdateService persisted hmem
    obtain ⟨service, h⟩ := uninstall_updated body im GetServiceByID UnregisterService
      UninstallNPMPackage UninstallPyPIPackage UpdateService persisted hmem
    rw [h]; rfl
  · intro env im now body userID persisted hmem
    exact installOrAdd_created env im now body userID persisted hmem

/-- C19, as the code has it, at concrete inputs: the custom service over server-sent
events, the uninstall of record 7, and the installation of `left-pad` when no package is
installed. -/
theorem written_records_health_status_witness :
    ({ customServiceLiteral sampleCustomEnv sseRequest ServiceTypeSSE with
        Command := "http://localhost:9000/sse",
        HeadersJSON := "Authorization=Bearer t" } : MCPService).HealthStatus = "unknown" ∧
    (markDeleted sampleService).HealthStatus = "unknown" ∧
    (buildNewService freshMarketEnv sampleInstallRequest 1 [("API_KEY", "k")]).HealthStatus
      = "pending" :=
  ⟨written_records_health_status.1 sampleCustomEnv (.ok sseRequest) _
      (by
        have hcalls : (CreateCustomService sampleCustomEnv (.ok sseRequest)).calls =
            [Call.CreateService
               { customServiceLiteral sampleCustomEnv sseRequest ServiceTypeSSE with
                  Command := "http://localhost:9000/sse",
                  HeadersJSON := "Authorization=Bearer t" },
             Call.RegisterService
               { customServiceLiteral sampleCustomEnv sseRequest ServiceTypeSSE with
                  ID := 9, Command := "http://localhost:9000/sse",
                  HeadersJSON := "Authorization=Bearer t" },
             Call.ForceCheckServiceHealth 9, Call.UpdateMCPServiceHealth 9] := by rfl
        rw [hcalls]
        exact List.mem_cons_self _ _),
   written_records_health_status.2.1 (.ok 7) InstallationManager.empty sampleStore
      (fun _ => none) (fun _ => none) (fun _ => none) (fun _ => none) _
      (by
        have hcalls : (UninstallService (.ok 7) InstallationManager.empty sampleStore
            (fun _ => none) (fun _ => none) (fun _ => none) (fun _ => none)).calls =
            [Call.UnregisterService 7, Call.UninstallNPMPackage "left-pad",
             Call.UpdateService (markDeleted sampleService)] := by rfl
        rw [hcalls]
        simp),
   written_records_health_status.2.2 freshMarketEnv InstallationManager.empty 0
      (.ok sampleInstallRequest) 1 _
      (by
        have hcalls : (InstallOrAddService freshMarketEnv InstallationManager.empty 0
            (.ok sampleInstallRequest) 1).1.calls =
            [Call.CreateService
               (buildNewService freshMarketEnv sampleInstallRequest 1 [("API_KEY", "k")]),
             Call.SubmitTask
               { ServiceID := 8, UserID := 1, PackageName := "left-pad",
                 PackageManager := "npm", Version := "1.3.0",
                 EnvVars := [("API_KEY", "k")] }] := by rfl
        rw [hcalls]
        exact List.mem_cons_self _ _)⟩

/-- C19 fails as stated: a logged-in user installs the npm package `left-pad`, which is not
installed yet; the record that `InstallOrAddService` hands to the store has the health
status "pending", which is none of healthy, degraded, unhealthy, unknown. -/
theorem install_writes_pending_health_counterexample :
    (InstallOrAddService freshMarketEnv InstallationManager.empty 0
        (.ok sampleInstallRequest) 1).1.calls =
      [Call.CreateService
         (buildNewService freshMarketEnv sampleInstallRequest 1 [("API_KEY", "k")]),
       Call.SubmitTask
         { ServiceID := 8, UserID := 1, PackageName := "left-pad", PackageManager := "npm",
           Version := "1.3.0", EnvVars := [("API_KEY", "k")] }] ∧
    (buildNewService freshMarketEnv sampleInstallRequest 1 [("API_KEY", "k")]).HealthStatus
      = "pending" ∧
    "pending" ∉ ["healthy", "degraded", "unhealthy", "unknown"] := by
  refine ⟨rfl, rfl, ?_⟩
  decide

/-! ## The default TTL and the process-wide manager -/

/-- C20: `NewHealthCacheManager(d)` has `expireTime` one hour for every `d ≤ 0` and `d` for
every `d > 0`. The first call of `GetHealthCacheManager` in a process returns a pointer to
a manager whose `expireTime` is one hour, and every later call, whatever the global cache
is by then, returns the same pointer and leaves the package variables as they are. -/
theorem default_ttl_and_singleton :
    (∀ (cache : CacheClient) (d : Duration), d ≤ 0 →
      (NewHealthCacheManager cache d).expireTime = Hour) ∧
    (∀ (cache : CacheClient) (d : Duration), 0 < d →
      (NewHealthCacheManager cache d).expireTime = d) ∧
    Hour = 3600 * 1000000000 ∧
    (∀ (cache : CacheClient),
      ∃ manager,
        (GetHealthCacheManager HealthCacheGlobals.initial cache).2.deref
          (GetHealthCacheManager HealthCacheGlobals.initial cache).1 = some manager ∧
        manager.expireTime = Hour) ∧
    (∀ (g : HealthCacheGlobals) (cache later : CacheClient),
      GetHealthCacheManager (GetHealthCacheManager g cache).2 later =
        GetHealthCacheManager g cache) := by
  refine ⟨?_, ?_, by decide, ?_, ?_⟩
  · intro cache d hd
    simp [NewHealthCacheManager, hd]
  · intro cache d hd
    simp [NewHealthCacheManager, not_le.mpr hd]
  · intro cache
    refine ⟨NewHealthCacheManager cache (1 * Hour), ?_, ?_⟩
    · simp [GetHealthCacheManager, HealthCacheGlobals.initial, HealthCacheGlobals.deref]
    · simp [NewHealthCacheManager, Hour]
  · intro g cache later
    cases hdone : g.healthCacheOnceDone with
    | true => simp [GetHealthCacheManager, hdone]
    | false => simp [GetHealthCacheManager, hdone]

/-- C20 at concrete inputs: the durations -5 and 0 give one hour, the duration 90 is kept,
and two calls of `GetHealthCacheManager` return the pointer 0. -/
theorem default_ttl_and_singleton_witness :
    (NewHealthCacheManager CacheClient.empty (-5)).expireTime = Hour ∧
    (NewHealthCacheManager CacheClient.empty 0).expireTime = Hour ∧
    (NewHealthCacheManager CacheClient.empty 90).expireTime = 90 ∧
    (GetHealthCacheManager HealthCacheGlobals.initial CacheClient.empty).1 = some 0 ∧
    (GetHealthCacheManager
      (GetHealthCacheManager HealthCacheGlobals.initial CacheClient.empty).2
      corruptedManager.cacheClient).1 = some 0 :=
  ⟨default_ttl_and_singleton.1 CacheClient.empty (-5) (by decide),
   default_ttl_and_singleton.1 CacheClient.empty 0 (by decide),
   default_ttl_and_singleton.2.1 CacheClient.empty 90 (by decide),
   rfl,
   (congrArg Prod.fst (default_ttl_and_singleton.2.2.2.2 HealthCacheGlobals.initial
      CacheClient.empty corruptedManager.cacheClient)).trans rfl⟩

/-! ## The soft-delete of `UninstallService` -/

/-- The answer of `UninstallService` for a record that was read depends only on the update
of the record. -/
theorem uninstall_response (serviceID : Int) (im : InstallationManager)
    (GetServiceByID : Int → Except String MCPService)
    (UnregisterService : Int → Option String)
    (UninstallNPMPackage UninstallPyPIPackage : String → Option String)
    (UpdateService : MCPService → Option String) (service : MCPService)
    (hne : serviceID ≠ 0) (hrec : GetServiceByID serviceID = .ok service) :
    (UninstallService (.ok serviceID) im GetServiceByID UnregisterService
      UninstallNPMPackage UninstallPyPIPackage UpdateService).response =
      match UpdateService (markDeleted service) with
      | some _ => .error 500 "update_service_status_failed"
      | none => .success "service_uninstalled_successfully" none := by
  unfold UninstallService
  simp only [hne, hrec, if_false]
  split <;> rfl

/-- The errors that `UnregisterService` and the package uninstalls return are only logged:
the run of `UninstallService` is the same whatever they return. -/
theorem uninstall_ignores_logged_errors (body : Except String Int) (im : InstallationManager)
    (GetServiceByID : Int → Except String MCPService)
    (UnregisterService UnregisterService' : Int → Option String)
    (UninstallNPMPackage UninstallPyPIPackage UninstallNPMPackage' UninstallPyPIPackage' :
      String → Option String)
    (UpdateService : MCPService → Option String) :
    UninstallService body im GetServiceByID UnregisterService' UninstallNPMPackage'
      UninstallPyPIPackage' UpdateService =
    UninstallService body im GetServiceByID UnregisterService UninstallNPMPackage
      UninstallPyPIPackage UpdateService := by
  unfold UninstallService unregisterCalls physicalUninstallCalls
  rfl

/-- C21: whenever `UninstallService` answers success, the last call it made handed to the
store a record with `Enabled = false`, `Deleted = true`, `HealthStatus = "unknown"` and
`InstalledVersion = ""`, it handed no other record to the store, and that update succeeded.
For a request whose record was read (a bound, non-zero service id that the store knows),
the update is made whatever `UnregisterService` and the package uninstalls return, the
answer does not depend on what they return, and the answer is the 500 error exactly when
the update itself fails. -/
theorem soft_delete_postcondition (body : Except String Int) (im : InstallationManager)
    (GetServiceByID : Int → Except String MCPService)
    (UnregisterService : Int → Option String)
    (UninstallNPMPackage UninstallPyPIPackage : String → Option String)
    (UpdateService : MCPService → Option String) :
    (∀ message data,
      (UninstallService body im GetServiceByID UnregisterService UninstallNPMPackage
        UninstallPyPIPackage UpdateService).response = .success message data →
      ∃ updated,
        (UninstallService body im GetServiceByID UnregisterService UninstallNPMPackage
          UninstallPyPIPackage UpdateService).calls.getLast? =
          some (Call.UpdateService updated) ∧
        (∀ u, Call.UpdateService u ∈
          (UninstallService body im GetServiceByID UnregisterService UninstallNPMPackage
            UninstallPyPIPackage UpdateService).calls → u = updated) ∧
        updated.Enabled = false ∧ updated.Deleted = true ∧
        updated.HealthStatus = "unknown" ∧ updated.InstalledVersion = "" ∧
        UpdateService updated = none) ∧
    (∀ serviceID service, body = .ok serviceID → serviceID ≠ 0 →
      GetServiceByID serviceID = .ok service →
      (∀ (UnregisterService' : Int → Option String)
          (UninstallNPMPackage' UninstallPyPIPackage' : String → Option String),
        Call.UpdateService (markDeleted service) ∈
          (UninstallService body im GetServiceByID UnregisterService' UninstallNPMPackage'
            UninstallPyPIPackage' UpdateService).calls ∧
        (UninstallService body im GetServiceByID UnregisterService' UninstallNPMPackage'
          UninstallPyPIPackage' UpdateService).response =
        (UninstallService body im GetServiceByID UnregisterService UninstallNPMPackage
          UninstallPyPIPackage UpdateService).response) ∧
      (UpdateService (markDeleted service) = none →
        (UninstallService body im GetServiceByID UnregisterService UninstallNPMPackage
          UninstallPyPIPackage UpdateService).response =
          .success "service_uninstalled_successfully" none) ∧
      (∀ err, UpdateService (markDeleted service) = some err →
        (UninstallService body im GetServiceByID UnregisterService UninstallNPMPackage
          UninstallPyPIPackage UpdateService).response =
          .error 500 "update_service_status_failed")) := by
  refine ⟨?_, ?_⟩
  · intro message data hok
    cases body with
    | error e => simp [UninstallService] at hok
    | ok serviceID =>
      by_cases hne : serviceID = 0
      · simp [UninstallService, hne] at hok
      · cases hrec : GetServiceByID serviceID with
        | error e => simp [UninstallService, hne, hrec] at hok
        | ok service =>
          have hcalls := uninstall_calls serviceID im GetServiceByID UnregisterService
            UninstallNPMPackage UninstallPyPIPackage UpdateService service hne hrec
          have hresp := uninstall_response serviceID im GetServiceByID UnregisterService
            UninstallNPMPackage UninstallPyPIPackage UpdateService service hne hrec
          refine ⟨markDeleted service, ?_, ?_, rfl, rfl, rfl, rfl, ?_⟩
          · rw [hcalls]
            simp
          · intro u hu
            rw [hcalls] at hu
            rcases List.mem_append.mp hu with h | h
            · rcases List.mem_append.mp h with h | h
              · unfold unregisterCalls at h
                split_ifs at h <;> simp at h
              · rcases physicalUninstallCalls_kind im service UninstallNPMPackage
                  UninstallPyPIPackage _ h with h' | h' <;> cases h'
            · exact Call.UpdateService.inj (List.mem_singleton.mp h)
          · rw [hresp] at hok
            cases hu : UpdateService (markDeleted service) with
            | none => rfl
            | some err => simp [hu] at hok
  · intro serviceID service hbody hne hrec
    subst hbody
    refine ⟨?_, ?_, ?_⟩
    · intro UnregisterService' UninstallNPMPackage' UninstallPyPIPackage'
      refine ⟨?_, ?_⟩
      · rw [uninstall_calls serviceID im GetServiceByID UnregisterService'
          UninstallNPMPackage' UninstallPyPIPackage' UpdateService service hne hrec]
        simp
      · rw [uninstall_ignores_logged_errors (.ok serviceID) im GetServiceByID
          UnregisterService UnregisterService' UninstallNPMPackage UninstallPyPIPackage
          UninstallNPMPackage' UninstallPyPIPackage' UpdateService]
    · intro hupd
      rw [uninstall_response serviceID im GetServiceByID UnregisterService
        UninstallNPMPackage UninstallPyPIPackage UpdateService service hne hrec, hupd]
    · intro err hupd
      rw [uninstall_response serviceID im GetServiceByID UnregisterService
        UninstallNPMPackage UninstallPyPIPackage UpdateService service hne hrec, hupd]

/-- C21 at concrete inputs: the installed npm record 7 is uninstalled while
`UnregisterService` and the npm uninstall both fail. With a store that accepts the update the
answer is success and the record marked deleted was handed to the store after the two failed
calls; with a store that refuses the update the answer is the 500 error. -/
theorem soft_delete_postcondition_witness :
    UninstallService (.ok 7) InstallationManager.empty sampleStore failingUnregister
        failingPackageUninstall failingPackageUninstall (fun _ => none) =
      ⟨.success "service_uninstalled_successfully" none,
        [Call.UnregisterService 7, Call.UninstallNPMPackage "left-pad",
         Call.UpdateService (markDeleted sampleService)]⟩ ∧
    (UninstallService (.ok 7) InstallationManager.empty sampleStore failingUnregister
        failingPackageUninstall failingPackageUninstall (fun _ => none)).response =
      .success "service_uninstalled_successfully" none ∧
    (UninstallService (.ok 7) InstallationManager.empty sampleStore failingUnregister
        failingPackageUninstall failingPackageUninstall failingUpdate).response =
      .error 500 "update_service_status_failed" ∧
    (markDeleted sampleService).Enabled = false ∧ (markDeleted sampleService).Deleted = true ∧
    (markDeleted sampleService).HealthStatus = "unknown" ∧
    (markDeleted sampleService).InstalledVersion = "" :=
  ⟨rfl,
   ((soft_delete_postcondition (.ok 7) InstallationManager.empty sampleStore
      failingUnregister failingPackageUninstall failingPackageUninstall (fun _ => none)).2
      7 sampleService rfl (by decide) rfl).2.1 rfl,
   ((soft_delete_postcondition (.ok 7) InstallationManager.empty sampleStore
      failingUnregister failingPackageUninstall failingPackageUninstall failingUpdate).2
      7 sampleService rfl (by decide) rfl).2.2 "database is locked" rfl,
   rfl, rfl, rfl, rfl⟩

end OneMCP
